import Mathlib

/-!
# PicoScope 2000A console driver demo (`ps2000aCon.cpp`): verification development

A shallow embedding of the acquisition session engine of `ps2000aCon.cpp`:
unit conversion, trigger set-up, the streaming callback and the streaming poll
loop.  Machine integers are modelled as `Int` with explicit two's-complement
reduction where the C types narrow a value.
-/

namespace Ps2000aCon

/-! ## Machine integers -/

/-- Conversion of an integer to `int16_t` (two's-complement reduction). -/
def toInt16 (x : Int) : Int := (x + 32768) % 65536 - 32768

/-- Conversion of an integer to `int32_t` (two's-complement reduction). -/
def toInt32 (x : Int) : Int := (x + 2147483648) % 4294967296 - 2147483648

/-- Conversion of an integer to `uint16_t`. -/
def toUInt16 (x : Int) : Int := x % 65536

/-- Conversion of an integer to `uint32_t`. -/
def toUInt32 (x : Int) : Int := x % 4294967296

/-! ## Data model -/

/-- The table `inputRanges` of the source (twelve initialisers): full-scale
voltage in millivolts of each range index. -/
def inputRanges : List Int :=
  [10, 20, 50, 100, 200, 500, 1000, 2000, 5000, 10000, 20000, 50000]

/-- The struct `CHANNEL_SETTINGS`. -/
structure CHANNEL_SETTINGS where
  DCcoupled : Int
  range : Int
  enabled : Int
  deriving DecidableEq, Repr, Inhabited

/-- The struct `UNIT` (the device profile), with the fields the acquisition
engine reads. -/
structure UNIT where
  handle : Int
  firstRange : Int
  lastRange : Int
  channelCount : Int
  maxValue : Int
  channelSettings : List CHANNEL_SETTINGS
  digitalPorts : Int
  deriving DecidableEq, Repr, Inhabited

/-- The global variables the callbacks and the controllers share. -/
structure Globals where
  timebase : Int
  oversample : Int
  scaleVoltages : Int
  g_ready : Int
  g_sampleCount : Int
  g_startIndex : Int
  g_autoStopped : Int
  g_trig : Int
  g_trigAt : Int
  g_overflow : Int
  deriving DecidableEq, Repr

/-- The array access `inputRanges[ch]`: `none` when the index is outside the
table. -/
def rangeAt (ch : Int) : Option Int :=
  if ch < 0 then none else inputRanges[ch.toNat]?

/-! ## Unit conversion -/

/-- The function `adc_to_mv`:
`int32_t adc_to_mv(int32_t raw, int32_t ch, UNIT * unit)
 { return (raw * inputRanges[ch]) / unit->maxValue; }`.
The product is an `int32_t` product (reduced to 32 bits), the division is C's
truncating division; `none` stands for an undefined result: a table access out
of range, a division by zero, or the quotient `INT_MIN / -1`. -/
def adc_to_mv (raw ch : Int) (unit : UNIT) : Option Int :=
  match rangeAt (toInt32 ch) with
  | none => none
  | some range =>
    let product := toInt32 (toInt32 raw * range)
    if unit.maxValue = 0 then none
    else if product = -2147483648 ∧ unit.maxValue = -1 then none
    else some (product.tdiv unit.maxValue)

/-- The function `mv_to_adc`:
`int16_t mv_to_adc(int16_t mv, int16_t ch, UNIT * unit)
 { return (mv * unit->maxValue) / inputRanges[ch]; }`.
The arguments arrive as `int16_t`, the product and quotient are `int`, and the
returned value is narrowed to `int16_t`. -/
def mv_to_adc (mv ch : Int) (unit : UNIT) : Option Int :=
  match rangeAt (toInt16 ch) with
  | none => none
  | some range =>
    let product := toInt32 (toInt16 mv * unit.maxValue)
    if range = 0 then none
    else some (toInt16 (product.tdiv range))

/-- The composition `mv_to_adc(adc_to_mv(c, r), r)` of the round-trip property. -/
def roundTrip (c r : Int) (unit : UNIT) : Option Int :=
  (adc_to_mv c r unit).bind (fun mv => mv_to_adc mv r unit)

/-- A device profile with one enabled channel on the 5 V range, as `OpenDevice`
leaves it, with the given full-scale code. -/
def sampleUnit (maxValue : Int) : UNIT :=
  { handle := 1, firstRange := 1, lastRange := 10, channelCount := 2,
    maxValue := maxValue,
    channelSettings := [⟨1, 8, 1⟩, ⟨1, 8, 0⟩, default, default],
    digitalPorts := 0 }

/-! ## The driver interface

The vendor headers `ps2000aApi.h` and `PicoStatus.h` are not part of the source
tree.  The status `PICO_OK` is zero (the source tests statuses both as
`status != PICO_OK` and as `status ? ... : ...`); every other enumerator the
modelled functions mention is a field of `Api`, a parameter of the model. -/

/-- The type `PICO_STATUS` of driver statuses. -/
abbrev PICO_STATUS := Nat

/-- The status of a successful driver call. -/
def PICO_OK : PICO_STATUS := 0

/-- The constants `TRUE` and `FALSE` of `windows.h`. -/
def TRUE : Int := 1

/-- The constant `FALSE`. -/
def FALSE : Int := 0

/-- Enumerators of the vendor headers used by the modelled functions. -/
structure Api where
  PICO_VARIANT_INFO : Int
  PS2000A_CHANNEL_A : Int
  PS2000A_DIGITAL_PORT0 : Int
  PS2000A_20MV : Int
  PS2000A_50MV : Int
  PS2000A_5V : Int
  PS2000A_20V : Int
  PS2000A_ETS_OFF : Int
  PS2000A_ETS_FAST : Int
  PS2000A_RATIO_MODE_NONE : Int
  PS2000A_RATIO_MODE_AGGREGATE : Int
  PS2000A_US : Int
  PS2000A_MS : Int
  PS2000A_LEVEL : Int
  PS2000A_CONDITION_DONT_CARE : Int
  PS2000A_CONDITION_TRUE : Int
  PS2000A_ABOVE : Int
  PS2000A_RISING : Int
  PS2000A_NONE : Int
  PS2000A_DIGITAL_CHANNEL_0 : Int
  PS2000A_DIGITAL_CHANNEL_4 : Int
  PS2000A_DIGITAL_DIRECTION_RISING : Int
  PS2000A_DIGITAL_DIRECTION_HIGH : Int
  PICO_CANCELLED : PICO_STATUS

/-- The enum `MODE`. -/
inductive MODE
  | ANALOGUE
  | DIGITAL
  | AGGREGATED
  | MIXED
  deriving DecidableEq, Repr

/-- The struct `PS2000A_TRIGGER_CHANNEL_PROPERTIES`, fields in the order of the
initialisers of the source. -/
structure TRIGGER_CHANNEL_PROPERTIES where
  thresholdUpper : Int
  thresholdUpperHysteresis : Int
  thresholdLower : Int
  thresholdLowerHysteresis : Int
  channel : Int
  thresholdMode : Int
  deriving DecidableEq, Repr

/-- The struct `PS2000A_TRIGGER_CONDITIONS`: one condition per trigger source. -/
structure TRIGGER_CONDITIONS where
  channelA : Int
  channelB : Int
  channelC : Int
  channelD : Int
  external : Int
  aux : Int
  pulseWidthQualifier : Int
  digital : Int
  deriving DecidableEq, Repr

/-- The struct `TRIGGER_DIRECTIONS`. -/
structure TRIGGER_DIRECTIONS where
  channelA : Int
  channelB : Int
  channelC : Int
  channelD : Int
  ext : Int
  aux : Int
  deriving DecidableEq, Repr

/-- The struct `PS2000A_PWQ_CONDITIONS` is only passed through; its contents are
kept as a list of condition codes. -/
abbrev PWQ_CONDITIONS := List Int

/-- The struct `PWQ` (pulse-width qualifier); the pointer `conditions` is `none`
when null. -/
structure PWQ where
  conditions : Option (List PWQ_CONDITIONS)
  nConditions : Int
  direction : Int
  lower : Int
  upper : Int
  type : Int
  deriving DecidableEq, Repr

/-- The struct `PS2000A_DIGITAL_CHANNEL_DIRECTIONS`. -/
structure DIGITAL_CHANNEL_DIRECTIONS where
  channel : Int
  direction : Int
  deriving DecidableEq, Repr

/-- The sample buffers of the acquisition controllers, named by the array that
holds them and the index in it. -/
inductive BufferId
  | buffers (slot : Nat)
  | appBuffers (slot : Nat)
  | digiBuffers (slot : Nat)
  | appDigiBuffers (slot : Nat)
  | etsTime
  | rapidArray
  | rapidRow (channel : Nat)
  | rapidBuffers (channel capture : Nat)
  | overflow
  deriving DecidableEq, Repr

/-- A call of a driver function, with its arguments; a null pointer argument is
`none`. -/
inductive DriverCall
  | OpenUnit
  | GetUnitInfo (handle info : Int)
  | MaximumValue (handle : Int)
  | SetEts (handle mode etsCycles etsInterleave : Int)
  | SetChannel (handle channel enabled type range : Int)
  | SetTriggerChannelProperties (handle : Int)
      (channelProperties : Option (List TRIGGER_CHANNEL_PROPERTIES))
      (nChannelProperties auxOutputEnable autoTriggerMilliseconds : Int)
  | SetTriggerChannelConditions (handle : Int)
      (conditions : Option (List TRIGGER_CONDITIONS)) (nConditions : Int)
  | SetTriggerChannelDirections (handle channelA channelB channelC channelD ext aux : Int)
  | SetTriggerDelay (handle delay : Int)
  | SetPulseWidthQualifier (handle : Int) (conditions : Option (List PWQ_CONDITIONS))
      (nConditions direction lower upper type : Int)
  | SetTriggerDigitalPortProperties (handle : Int)
      (directions : Option (List DIGITAL_CHANNEL_DIRECTIONS)) (nDirections : Int)
  | SetDataBuffers (handle channel : Int) (bufferMax bufferMin : Option BufferId)
      (bufferLth segmentIndex mode : Int)
  | SetDataBuffer (handle channel : Int) (buffer : Option BufferId)
      (bufferLth segmentIndex mode : Int)
  | SetEtsTimeBuffer (handle : Int) (buffer : Option BufferId) (bufferLth : Int)
  | GetTimebase (handle timebase noSamples oversample segmentIndex : Int)
  | RunBlock (handle noOfPreTriggerSamples noOfPostTriggerSamples timebase oversample
      segmentIndex : Int)
  | GetValues (handle startIndex noOfSamples downSampleRatio downSampleRatioMode
      segmentIndex : Int)
  | Stop (handle : Int)
  | RunStreaming (handle sampleInterval sampleIntervalTimeUnits maxPreTriggerSamples
      maxPostTriggerSamples autoStop downSampleRatio downSampleRatioMode
      overviewBufferSize : Int)
  | GetStreamingLatestValues (handle : Int)
  | GetMaxSegments (handle : Int)
  | MemorySegments (handle nSegments : Int)
  | SetNoOfCaptures (handle nCaptures : Int)
  | GetNoOfCaptures (handle : Int)
  | GetValuesBulk (handle noOfSamples fromSegmentIndex toSegmentIndex downSampleRatio
      downSampleRatioMode : Int) (overflow : Option BufferId)
  deriving DecidableEq, Repr

/-- What the program does to its surroundings, in order: driver calls with the
status each returned, and allocation and release of sample buffers. -/
inductive Event
  | call (c : DriverCall) (status : PICO_STATUS)
  | malloc (buffer : BufferId) (elements : Int)
  | free (buffer : BufferId)
  deriving DecidableEq, Repr

/-- The events so far, oldest first. -/
abbrev Trace := List Event

/-- The driver, as the program sees it through statuses: the status it returns
to a call, which may depend on everything that happened before. -/
abbrev Driver := Trace → DriverCall → PICO_STATUS

/-- One driver call: the status returned and the trace extended by the call. -/
def callDriver (drv : Driver) (tr : Trace) (c : DriverCall) : PICO_STATUS × Trace :=
  (drv tr c, tr ++ [Event.call c (drv tr c)])

/-- A sequence of driver calls whose statuses the program does not act on. -/
def callEach (drv : Driver) (tr : Trace) (calls : List DriverCall) : Trace :=
  calls.foldl (fun t c => (callDriver drv t c).2) tr

/-- The read `unit->channelSettings[channel]` (an index past the array reads as
the all-zero settings). -/
def channelSetting (unit : UNIT) (channel : Int) : CHANNEL_SETTINGS :=
  if channel < 0 then ⟨0, 0, 0⟩ else unit.channelSettings.getD channel.toNat ⟨0, 0, 0⟩

/-! ## Device set-up -/

/-- The function `SetDefaults`: ETS is switched off and every channel below
`channelCount` is programmed with its current settings; no status is checked. -/
def SetDefaults (api : Api) (drv : Driver) (unit : UNIT) (tr : Trace) : Trace :=
  callEach drv tr
    (DriverCall.SetEts unit.handle api.PS2000A_ETS_OFF 0 0 ::
      (List.range unit.channelCount.toNat).map (fun i =>
        DriverCall.SetChannel unit.handle (api.PS2000A_CHANNEL_A + i)
          (channelSetting unit (api.PS2000A_CHANNEL_A + i)).enabled
          (channelSetting unit (api.PS2000A_CHANNEL_A + i)).DCcoupled
          (channelSetting unit (api.PS2000A_CHANNEL_A + i)).range))

/-- The function `ClearDataBuffers`: every channel below `channelCount` and every
port below `digitalPorts` is rebound to null buffers of length zero; failures are
only printed. -/
def ClearDataBuffers (api : Api) (drv : Driver) (unit : UNIT) (tr : Trace) : Trace :=
  callEach drv tr
    ((List.range unit.channelCount.toNat).map (fun i =>
        DriverCall.SetDataBuffers unit.handle (toInt16 i) none none 0 0
          api.PS2000A_RATIO_MODE_NONE) ++
      (List.range unit.digitalPorts.toNat).map (fun i =>
        DriverCall.SetDataBuffer unit.handle (i + api.PS2000A_DIGITAL_PORT0) none 0 0
          api.PS2000A_RATIO_MODE_NONE))

/-- What the driver writes through the output pointers of the calls made by
`OpenDevice`: the handle, the text of the variant-info line, and the full-scale
code, which is `none` when `ps2000aMaximumValue` writes nothing. -/
structure OpenOutputs where
  handle : Int
  variantInfo : List Char
  maximumValue : Option Int
  deriving DecidableEq, Repr

/-- The call `atoi` on the single character `line[1]`: its digit value, zero for
any other character. -/
def atoiChar (c : Char) : Int :=
  if c.isDigit then (c.toNat : Int) - 48 else 0

/-- The function `get_info`: the variant defaults, then, for an open handle, the
eleven information lines are read and the variant line decides the channel
count (four when `line[1]` is the digit 4), the first range of the two-channel
variants, and the digital ports (two when the line contains `MSO`). -/
def get_info (api : Api) (drv : Driver) (out : OpenOutputs) (unit : UNIT) (tr : Trace) :
    UNIT × Trace :=
  let unit₀ : UNIT :=
    { unit with firstRange := api.PS2000A_20MV, lastRange := api.PS2000A_20V,
                channelCount := 2, digitalPorts := 0 }
  if unit.handle = 0 then (unit₀, tr)
  else
    let tr' := callEach drv tr
      ((List.range 11).map (fun i => DriverCall.GetUnitInfo unit.handle i))
    if 0 ≤ api.PICO_VARIANT_INFO ∧ api.PICO_VARIANT_INFO < 11 then
      let line := out.variantInfo
      let numChannels := atoiChar (line.getD 1 (Char.ofNat 0))
      let unit₁ : UNIT := if numChannels = 4 then { unit₀ with channelCount := 4 } else unit₀
      let unit₂ : UNIT :=
        if numChannels = 2 ∧
            (line.length = 4 ∨ (line.length = 5 ∧ (line.drop 4).map Char.toUpper = ['A']) ∨
              line.map Char.toUpper = "2205MSO".toList) then
          { unit₁ with firstRange := api.PS2000A_50MV }
        else unit₁
      let unit₃ : UNIT :=
        if List.IsInfix "MSO".toList line then { unit₂ with digitalPorts := 2 } else unit₂
      (unit₃, tr')
    else (unit₀, tr')

/-! ## Trigger set-up -/

/-- The function `SetTrigger`: the trigger facets are submitted one after the
other, and the first status that is not `PICO_OK` is returned at once; the
digital directions are submitted only when `unit->digitalPorts` is non-zero. -/
def SetTrigger (drv : Driver) (unit : UNIT)
    (channelProperties : Option (List TRIGGER_CHANNEL_PROPERTIES)) (nChannelProperties : Int)
    (triggerConditions : Option (List TRIGGER_CONDITIONS)) (nTriggerConditions : Int)
    (directions : TRIGGER_DIRECTIONS) (pwq : PWQ) (delay auxOutputEnabled autoTriggerMs : Int)
    (digitalDirections : Option (List DIGITAL_CHANNEL_DIRECTIONS)) (nDigitalDirections : Int)
    (tr : Trace) : PICO_STATUS × Trace :=
  let r₁ := callDriver drv tr (.SetTriggerChannelProperties unit.handle channelProperties
    nChannelProperties auxOutputEnabled autoTriggerMs)
  if r₁.1 ≠ PICO_OK then r₁ else
  let r₂ := callDriver drv r₁.2 (.SetTriggerChannelConditions unit.handle triggerConditions
    nTriggerConditions)
  if r₂.1 ≠ PICO_OK then r₂ else
  let r₃ := callDriver drv r₂.2 (.SetTriggerChannelDirections unit.handle directions.channelA
    directions.channelB directions.channelC directions.channelD directions.ext directions.aux)
  if r₃.1 ≠ PICO_OK then r₃ else
  let r₄ := callDriver drv r₃.2 (.SetTriggerDelay unit.handle delay)
  if r₄.1 ≠ PICO_OK then r₄ else
  let r₅ := callDriver drv r₄.2 (.SetPulseWidthQualifier unit.handle pwq.conditions
    pwq.nConditions pwq.direction pwq.lower pwq.upper pwq.type)
  if r₅.1 ≠ PICO_OK then r₅ else
  if unit.digitalPorts ≠ 0 then
    let r₆ := callDriver drv r₅.2 (.SetTriggerDigitalPortProperties unit.handle
      digitalDirections nDigitalDirections)
    if r₆.1 ≠ PICO_OK then r₆ else r₆
  else r₅

/-- The channel settings after the two loops of `OpenDevice`: the channels below
`count` are DC coupled on the 5 V range, channel A enabled and the others
disabled; the entries from `count` on are left as they were. -/
def openSettings (api : Api) (old : List CHANNEL_SETTINGS) (count : Nat) :
    List CHANNEL_SETTINGS :=
  (List.range count).map (fun i =>
      ({ DCcoupled := TRUE, range := api.PS2000A_5V,
         enabled := if i = 0 then TRUE else FALSE } : CHANNEL_SETTINGS)) ++
    old.drop count

/-- The function `OpenDevice`: the unit is opened (a failure ends the program,
`none`), `get_info` fills the profile, `maxValue` is set from the local `value`,
which starts at zero and is passed to `ps2000aMaximumValue` whose status is not
looked at, the channels get their defaults and the trigger is disabled. -/
def OpenDevice (api : Api) (drv : Driver) (out : OpenOutputs) (unit : UNIT) (g : Globals)
    (tr : Trace) : Option (PICO_STATUS × UNIT × Globals × Trace) :=
  let value₀ : Int := 0
  let r₁ := callDriver drv tr .OpenUnit
  let unit₁ : UNIT := { unit with handle := out.handle }
  if r₁.1 ≠ PICO_OK then none
  else
    let r₂ := get_info api drv out unit₁ r₁.2
    let g' : Globals := { g with timebase := 1 }
    let r₃ := callDriver drv r₂.2 (.MaximumValue r₂.1.handle)
    let value : Int := match out.maximumValue with
      | some v => v
      | none => value₀
    let unit₂ : UNIT := { r₂.1 with maxValue := value }
    let unit₃ : UNIT :=
      { unit₂ with
          channelSettings := openSettings api unit₂.channelSettings unit₂.channelCount.toNat }
    let tr₄ := SetDefaults api drv unit₃ r₃.2
    let r₅ := SetTrigger drv unit₃ none 0 none 0
      { channelA := 0, channelB := 0, channelC := 0, channelD := 0, ext := 0, aux := 0 }
      { conditions := none, nConditions := 0, direction := 0, lower := 0, upper := 0,
        type := 0 }
      0 0 0 none 0 tr₄
    some (r₁.1, unit₃, g', r₅.2)

/-- The enumerators with the values of the vendor headers, for concrete runs. -/
def vendorApi : Api :=
  { PICO_VARIANT_INFO := 3, PS2000A_CHANNEL_A := 0, PS2000A_DIGITAL_PORT0 := 128,
    PS2000A_20MV := 1, PS2000A_50MV := 2, PS2000A_5V := 8, PS2000A_20V := 10,
    PS2000A_ETS_OFF := 0, PS2000A_ETS_FAST := 1, PS2000A_RATIO_MODE_NONE := 0, PS2000A_RATIO_MODE_AGGREGATE := 1,
    PS2000A_US := 3, PS2000A_MS := 4, PS2000A_LEVEL := 0,
    PS2000A_CONDITION_DONT_CARE := 0, PS2000A_CONDITION_TRUE := 1,
    PS2000A_ABOVE := 0, PS2000A_RISING := 2, PS2000A_NONE := 2,
    PS2000A_DIGITAL_CHANNEL_0 := 0, PS2000A_DIGITAL_CHANNEL_4 := 4,
    PS2000A_DIGITAL_DIRECTION_RISING := 3, PS2000A_DIGITAL_DIRECTION_HIGH := 2,
    PICO_CANCELLED := 58 }

/-- The contents of a `UNIT` before `OpenDevice` filled it. -/
def blankUnit : UNIT :=
  { handle := 0, firstRange := 0, lastRange := 0, channelCount := 0, maxValue := 0,
    channelSettings := [⟨0, 0, 0⟩, ⟨0, 0, 0⟩, ⟨0, 0, 0⟩, ⟨0, 0, 0⟩], digitalPorts := 0 }

/-- A driver that fails `ps2000aMaximumValue` with status 12 and accepts every
other call. -/
def rejectMaximumValue : Driver := fun _ c =>
  match c with
  | .MaximumValue _ => 12
  | _ => PICO_OK

/-- The facet submissions `SetTrigger` is to make when nothing fails, in order:
channel properties, channel conditions, channel directions, delay, pulse-width
qualifier and, for a unit with digital ports, the digital-port directions. -/
def triggerFacets (unit : UNIT)
    (channelProperties : Option (List TRIGGER_CHANNEL_PROPERTIES)) (nChannelProperties : Int)
    (triggerConditions : Option (List TRIGGER_CONDITIONS)) (nTriggerConditions : Int)
    (directions : TRIGGER_DIRECTIONS) (pwq : PWQ) (delay auxOutputEnabled autoTriggerMs : Int)
    (digitalDirections : Option (List DIGITAL_CHANNEL_DIRECTIONS)) (nDigitalDirections : Int) :
    List DriverCall :=
  [.SetTriggerChannelProperties unit.handle channelProperties nChannelProperties
      auxOutputEnabled autoTriggerMs,
   .SetTriggerChannelConditions unit.handle triggerConditions nTriggerConditions,
   .SetTriggerChannelDirections unit.handle directions.channelA directions.channelB
      directions.channelC directions.channelD directions.ext directions.aux,
   .SetTriggerDelay unit.handle delay,
   .SetPulseWidthQualifier unit.handle pwq.conditions pwq.nConditions pwq.direction
      pwq.lower pwq.upper pwq.type] ++
  (if unit.digitalPorts ≠ 0 then
    [.SetTriggerDigitalPortProperties unit.handle digitalDirections nDigitalDirections]
   else [])

/-- A driver that accepts every call. -/
def acceptAll : Driver := fun _ _ => PICO_OK

/-- A driver that rejects the channel directions with status 13 and accepts every
other call. -/
def rejectDirections : Driver := fun _ c =>
  match c with
  | .SetTriggerChannelDirections .. => 13
  | _ => PICO_OK

/-- The pulse-width qualifier after `memset(&pulseWidth, 0, sizeof(PWQ))`. -/
def zeroPwq : PWQ :=
  { conditions := none, nConditions := 0, direction := 0, lower := 0, upper := 0, type := 0 }

/-- The directions after `memset(&directions, 0, sizeof(TRIGGER_DIRECTIONS))`. -/
def zeroDirections : TRIGGER_DIRECTIONS :=
  { channelA := 0, channelB := 0, channelC := 0, channelD := 0, ext := 0, aux := 0 }

/-! ## The streaming callback -/

/-- An array of pointers to sample buffers: the buffer each slot points to, or
`none` for a null pointer. -/
abbrev BufferTable := Nat → Option (List Int)

/-- The struct `BUFFER_INFO` handed to the streaming callback; a null array
pointer is `none`. -/
structure BUFFER_INFO where
  unit : UNIT
  mode : MODE
  driverBuffers : Option BufferTable
  appBuffers : Option BufferTable
  driverDigBuffers : Option BufferTable
  appDigBuffers : Option BufferTable

/-- The test `unit->channelSettings[channel].enabled` (an index past the array
reads as disabled). -/
def channelEnabled (unit : UNIT) (channel : Nat) : Bool :=
  match unit.channelSettings[channel]? with
  | some settings => settings.enabled ≠ 0
  | none => false

/-- The call `memcpy_s(&dest[startIndex], noOfSamples * sizeof(int16_t),
&src[startIndex], noOfSamples * sizeof(int16_t))`: the new contents of `dest`, or
`none` when the copied region does not lie inside both buffers. -/
def memcpy_s (dest src : List Int) (startIndex noOfSamples : Int) : Option (List Int) :=
  if 0 ≤ startIndex ∧ 0 ≤ noOfSamples ∧ startIndex + noOfSamples ≤ dest.length ∧
      startIndex + noOfSamples ≤ src.length then
    some (dest.take startIndex.toNat ++ (src.drop startIndex.toNat).take noOfSamples.toNat ++
      dest.drop (startIndex.toNat + noOfSamples.toNat))
  else none

/-- The guarded copy of one slot: `if (app[slot] && driver[slot]) memcpy_s(...)`. -/
def copySlot (app driver : BufferTable) (slot : Nat) (startIndex noOfSamples : Int) :
    Option BufferTable :=
  match app slot, driver slot with
  | some a, some d =>
    match memcpy_s a d startIndex noOfSamples with
    | some a' => some (fun k => if k = slot then some a' else app k)
    | none => none
  | _, _ => some app

/-- The two guarded copies of the slots `channel * 2` and `channel * 2 + 1`. -/
def copyPair (app driver : BufferTable) (channel : Nat) (startIndex noOfSamples : Int) :
    Option BufferTable :=
  (copySlot app driver (channel * 2) startIndex noOfSamples).bind
    (fun app₁ => copySlot app₁ driver (channel * 2 + 1) startIndex noOfSamples)

/-- The loop of the `ANALOGUE` branch of `CallBackStreaming` over the channels
below `count`: the pair of every enabled channel is copied. -/
def copyAnalogue (unit : UNIT) (app driver : BufferTable) (startIndex noOfSamples : Int)
    (count : Nat) : Option BufferTable :=
  (List.range count).foldlM
    (fun table channel =>
      if channelEnabled unit channel then copyPair table driver channel startIndex noOfSamples
      else some table)
    app

/-- The loop of the `AGGREGATED` branch over the ports below `count`: the pair of
every port is copied. -/
def copyAggregated (app driver : BufferTable) (startIndex noOfSamples : Int) (count : Nat) :
    Option BufferTable :=
  (List.range count).foldlM
    (fun table channel => copyPair table driver channel startIndex noOfSamples) app

/-- The loop of the `DIGITAL` branch over the ports below `count`: the buffer of
every port is copied. -/
def copyDigital (app driver : BufferTable) (startIndex noOfSamples : Int) (count : Nat) :
    Option BufferTable :=
  (List.range count).foldlM
    (fun table digiPort => copySlot table driver digiPort startIndex noOfSamples) app

/-- The function `CallBackStreaming`: the globals are set from the notification,
and when `pParameter` is not null and `noOfSamples` is not zero the notified
region of each driver buffer of the mode is copied to the matching application
buffer.  The result is `none` when a copy leaves its buffers. -/
def CallBackStreaming (g : Globals)
    (_handle noOfSamples startIndex overflow triggerAt triggered autoStop : Int)
    (pParameter : Option BUFFER_INFO) : Option (Globals × Option BUFFER_INFO) :=
  let g' : Globals :=
    { g with g_sampleCount := noOfSamples, g_startIndex := startIndex,
             g_autoStopped := autoStop, g_overflow := overflow, g_ready := TRUE,
             g_trig := triggered, g_trigAt := triggerAt }
  match pParameter with
  | none => some (g', none)
  | some bufferInfo =>
    if noOfSamples = 0 then some (g', some bufferInfo)
    else
      match bufferInfo.mode with
      | .ANALOGUE =>
        match bufferInfo.appBuffers, bufferInfo.driverBuffers with
        | some app, some driver =>
          (copyAnalogue bufferInfo.unit app driver startIndex noOfSamples
              bufferInfo.unit.channelCount.toNat).map
            (fun app' => (g', some { bufferInfo with appBuffers := some app' }))
        | _, _ => some (g', some bufferInfo)
      | .AGGREGATED =>
        match bufferInfo.appDigBuffers, bufferInfo.driverDigBuffers with
        | some app, some driver =>
          (copyAggregated app driver startIndex noOfSamples
              bufferInfo.unit.digitalPorts.toNat).map
            (fun app' => (g', some { bufferInfo with appDigBuffers := some app' }))
        | _, _ => some (g', some bufferInfo)
      | .DIGITAL =>
        match bufferInfo.appDigBuffers, bufferInfo.driverDigBuffers with
        | some app, some driver =>
          (copyDigital app driver startIndex noOfSamples
              bufferInfo.unit.digitalPorts.toNat).map
            (fun app' => (g', some { bufferInfo with appDigBuffers := some app' }))
        | _, _ => some (g', some bufferInfo)
      | .MIXED => some (g', some bufferInfo)

/-- The contents of a snapshot buffer `a` after the region of `noOfSamples`
elements from `startIndex` on was replaced by the same region of `d`. -/
def replaced (a d : List Int) (startIndex noOfSamples : Nat) : List Int :=
  a.take startIndex ++ (d.drop startIndex).take noOfSamples ++
    a.drop (startIndex + noOfSamples)

/-! ## The streaming controller -/

/-- The arguments of one invocation of `CallBackStreaming` by the driver. -/
structure Notification where
  noOfSamples : Int
  startIndex : Int
  overflow : Int
  triggerAt : Int
  triggered : Int
  autoStop : Int
  deriving DecidableEq, Repr

/-- What the surroundings do during one iteration of the poll loop: whether the
clock shows three seconds or more since the start (`elapsed >= 3`), the samples
the driver has written into its analogue and digital buffers (by slot and index),
and the notification `ps2000aGetStreamingLatestValues` delivers through the
callback, if it delivers one. -/
structure Poll where
  elapsed3 : Bool
  driverData : Nat → Nat → Int
  driverDigData : Nat → Nat → Int
  notification : Option Notification

/-- The buffers of a table after the driver wrote `data` into them. -/
def driverWrite (table : BufferTable) (data : Nat → Nat → Int) : BufferTable :=
  fun slot => (table slot).map (fun b => (List.range b.length).map (data slot))

/-- The variables of `StreamDataHandler` that live across the poll loop. -/
structure StreamState where
  g : Globals
  bufferInfo : BUFFER_INFO
  totalSamples : Int
  triggeredAt : Int
  index : Int
  tr : Trace

/-- One iteration of the poll loop of `StreamDataHandler`: the time budget is
checked, `g_ready` is cleared, the driver is polled (which may run the callback),
`index` is counted up, and when the callback ran with a positive sample count
`triggeredAt` is recorded if the trigger fired and the samples are added to
`totalSamples`.  The printing of the samples is not modelled. -/
def pollStep (drv : Driver) (st : StreamState) (p : Poll) : Option StreamState :=
  let g₁ : Globals := if p.elapsed3 then { st.g with g_autoStopped := TRUE } else st.g
  let g₂ : Globals := { g₁ with g_ready := FALSE }
  let r := callDriver drv st.tr (.GetStreamingLatestValues st.bufferInfo.unit.handle)
  let written : BUFFER_INFO :=
    { st.bufferInfo with
        driverBuffers := st.bufferInfo.driverBuffers.map (fun t => driverWrite t p.driverData),
        driverDigBuffers :=
          st.bufferInfo.driverDigBuffers.map (fun t => driverWrite t p.driverDigData) }
  let called : Option (Globals × Option BUFFER_INFO) :=
    match p.notification with
    | none => some (g₂, some written)
    | some n =>
      CallBackStreaming g₂ st.bufferInfo.unit.handle n.noOfSamples n.startIndex n.overflow
        n.triggerAt n.triggered n.autoStop (some written)
  match called with
  | none => none
  | some (g₃, info) =>
    let bufferInfo := info.getD written
    let index := toInt32 (st.index + 1)
    if g₃.g_ready ≠ 0 ∧ g₃.g_sampleCount > 0 then
      let triggeredAt :=
        if g₃.g_trig ≠ 0 then toUInt32 (st.totalSamples + g₃.g_trigAt) else st.triggeredAt
      let totalSamples := toInt32 (st.totalSamples + g₃.g_sampleCount)
      some { g := g₃, bufferInfo := bufferInfo, totalSamples := totalSamples,
             triggeredAt := triggeredAt, index := index, tr := r.2 }
    else
      some { g := g₃, bufferInfo := bufferInfo, totalSamples := st.totalSamples,
             triggeredAt := st.triggeredAt, index := index, tr := r.2 }

/-- The poll loop `while (!g_autoStopped) { ... }` run on a script of polls: the
state at the exit of the loop, or `none` when the script ends before the loop
does (or a copy of the callback leaves its buffers). -/
def pollLoop (drv : Driver) : List Poll → StreamState → Option StreamState
  | polls, st =>
    if st.g.g_autoStopped ≠ 0 then some st
    else
      match polls with
      | [] => none
      | p :: rest =>
        match pollStep drv st p with
        | none => none
        | some st' => pollLoop drv rest st'

/-- The contents of a freshly allocated buffer of `elements` samples: whatever
the memory `init` holds there. -/
def freshBuffer (init : BufferId → Nat → Int) (b : BufferId) (elements : Nat) : List Int :=
  (List.range elements).map (init b)

/-- The allocation loop of the `ANALOGUE` branch of `StreamDataHandler`: for every
enabled channel the two driver buffers are allocated and bound with
`ps2000aSetDataBuffers`, then the two application buffers are allocated. -/
def streamBindAnalogue (api : Api) (drv : Driver) (unit : UNIT) (sampleCount : Int)
    (tr : Trace) : Trace :=
  (List.range unit.channelCount.toNat).foldl
    (fun t i =>
      if channelEnabled unit i then
        let t₁ := t ++ [Event.malloc (.buffers (i * 2)) sampleCount,
                        Event.malloc (.buffers (i * 2 + 1)) sampleCount]
        let t₂ := (callDriver drv t₁ (.SetDataBuffers unit.handle i (some (.buffers (i * 2)))
          (some (.buffers (i * 2 + 1))) sampleCount 0 api.PS2000A_RATIO_MODE_AGGREGATE)).2
        t₂ ++ [Event.malloc (.appBuffers (i * 2)) sampleCount,
               Event.malloc (.appBuffers (i * 2 + 1)) sampleCount]
      else t)
    tr

/-- The allocation loop of the `AGGREGATED` branch: for every digital port two
driver buffers are allocated and bound with `ps2000aSetDataBuffers`, then two
application buffers are allocated. -/
def streamBindAggregated (api : Api) (drv : Driver) (unit : UNIT) (sampleCount : Int)
    (tr : Trace) : Trace :=
  (List.range unit.digitalPorts.toNat).foldl
    (fun t i =>
      let t₁ := t ++ [Event.malloc (.digiBuffers (i * 2)) sampleCount,
                      Event.malloc (.digiBuffers (i * 2 + 1)) sampleCount]
      let t₂ := (callDriver drv t₁ (.SetDataBuffers unit.handle
        (i + api.PS2000A_DIGITAL_PORT0) (some (.digiBuffers (i * 2)))
        (some (.digiBuffers (i * 2 + 1))) sampleCount 0 api.PS2000A_RATIO_MODE_AGGREGATE)).2
      t₂ ++ [Event.malloc (.appDigiBuffers (i * 2)) sampleCount,
             Event.malloc (.appDigiBuffers (i * 2 + 1)) sampleCount])
    tr

/-- The allocation loop of the `DIGITAL` branch: for every digital port one driver
buffer is allocated and bound with `ps2000aSetDataBuffer`, then one application
buffer is allocated. -/
def streamBindDigital (api : Api) (drv : Driver) (unit : UNIT) (sampleCount : Int)
    (tr : Trace) : Trace :=
  (List.range unit.digitalPorts.toNat).foldl
    (fun t i =>
      let t₁ := t ++ [Event.malloc (.digiBuffers i) sampleCount]
      let t₂ := (callDriver drv t₁ (.SetDataBuffer unit.handle
        (i + api.PS2000A_DIGITAL_PORT0) (some (.digiBuffers i)) sampleCount 0
        api.PS2000A_RATIO_MODE_NONE)).2
      t₂ ++ [Event.malloc (.appDigiBuffers i) sampleCount])
    tr

/-- The buffers the mode's allocation loop of `StreamDataHandler` leaves in one of
its four pointer arrays; `driverSide` tells the driver arrays from the
application arrays and `digital` the digital arrays from the analogue ones.  A
slot the loop did not fill reads as null. -/
def streamTable (init : BufferId → Nat → Int) (unit : UNIT) (mode : MODE) (sampleCount : Nat)
    (digital driverSide : Bool) : BufferTable :=
  fun slot =>
    let id : BufferId :=
      match digital, driverSide with
      | false, true => .buffers slot
      | false, false => .appBuffers slot
      | true, true => .digiBuffers slot
      | true, false => .appDigiBuffers slot
    let filled : Bool :=
      match mode, digital with
      | .ANALOGUE, false =>
        decide (slot / 2 < unit.channelCount.toNat) && channelEnabled unit (slot / 2)
      | .AGGREGATED, true => decide (slot / 2 < unit.digitalPorts.toNat)
      | .DIGITAL, true => decide (slot < unit.digitalPorts.toNat)
      | _, _ => false
    if filled then some (freshBuffer init id sampleCount) else none

/-- The releases at the end of `StreamDataHandler`, by mode. -/
def streamFrees (unit : UNIT) (mode : MODE) : List Event :=
  match mode with
  | .ANALOGUE =>
    ((List.range unit.channelCount.toNat).filter (fun i => channelEnabled unit i)).flatMap
      (fun i => [Event.free (.buffers (i * 2)), Event.free (.buffers (i * 2 + 1)),
                 Event.free (.appBuffers (i * 2)), Event.free (.appBuffers (i * 2 + 1))])
  | .DIGITAL =>
    (List.range unit.digitalPorts.toNat).flatMap
      (fun i => [Event.free (.digiBuffers i), Event.free (.appDigiBuffers i)])
  | .AGGREGATED =>
    (List.range (unit.digitalPorts * 2).toNat).flatMap
      (fun i => [Event.free (.digiBuffers i), Event.free (.appDigiBuffers i)])
  | .MIXED => []

/-- The settings `StreamDataHandler` chooses by mode: `downsampleRatio`,
`timeUnits`, `sampleInterval`, `ratioMode`, `postTrigger` and `autostop`.  For
`MIXED` the source leaves them uninitialised (`none`). -/
def streamSettings (api : Api) (mode : MODE) : Option (Int × Int × Int × Int × Int × Int) :=
  match mode with
  | .ANALOGUE => some (20, api.PS2000A_US, 1, api.PS2000A_RATIO_MODE_AGGREGATE, 1000000, TRUE)
  | .AGGREGATED => some (10, api.PS2000A_MS, 10, api.PS2000A_RATIO_MODE_AGGREGATE, 10, FALSE)
  | .DIGITAL => some (1, api.PS2000A_MS, 10, api.PS2000A_RATIO_MODE_NONE, 10, FALSE)
  | .MIXED => none

/-- What the surroundings contribute to one run of `StreamDataHandler`: the
contents of freshly allocated memory and the script of polls. -/
structure StreamInputs where
  init : BufferId → Nat → Int
  polls : List Poll

/-- What `StreamDataHandler` leaves behind: the state at the exit of the poll
loop, whether the branch `Data collection aborted` and the overflow report were
taken, the globals and the whole trace. -/
structure StreamResult where
  final : StreamState
  aborted : Bool
  overflowReported : Bool
  g : Globals
  tr : Trace

/-- The function `StreamDataHandler`: the buffers of the mode are allocated and
bound, streaming is started with `ps2000aRunStreaming` (its status is only
printed), the poll loop runs until `g_autoStopped` is set, the driver is stopped,
the buffers are released and `ClearDataBuffers` is called.  The result is `none`
when the script of polls ends before the loop does. -/
def StreamDataHandler (api : Api) (drv : Driver) (inp : StreamInputs) (unit : UNIT)
    (preTrigger : Int) (mode : MODE) (g : Globals) (tr : Trace) : Option StreamResult :=
  let sampleCount : Int := 40000
  let tr₁ :=
    match mode with
    | .ANALOGUE => streamBindAnalogue api drv unit sampleCount tr
    | .AGGREGATED => streamBindAggregated api drv unit sampleCount tr
    | .DIGITAL => streamBindDigital api drv unit sampleCount tr
    | .MIXED => tr
  let bufferInfo : BUFFER_INFO :=
    { unit := unit, mode := mode,
      driverBuffers := some (streamTable inp.init unit mode sampleCount.toNat false true),
      appBuffers := some (streamTable inp.init unit mode sampleCount.toNat false false),
      driverDigBuffers := some (streamTable inp.init unit mode sampleCount.toNat true true),
      appDigBuffers := some (streamTable inp.init unit mode sampleCount.toNat true false) }
  match streamSettings api mode with
  | none => none
  | some (downsampleRatio, timeUnits, sampleInterval, ratioMode, postTrigger, autostop) =>
    let g₁ : Globals := { g with g_autoStopped := FALSE }
    let r₂ := callDriver drv tr₁ (.RunStreaming unit.handle sampleInterval timeUnits
      preTrigger (toUInt32 (postTrigger - preTrigger)) autostop downsampleRatio ratioMode
      (toUInt32 sampleCount))
    match pollLoop drv inp.polls
        { g := g₁, bufferInfo := bufferInfo, totalSamples := 0, triggeredAt := 0, index := 0,
          tr := r₂.2 } with
    | none => none
    | some final =>
      let r₃ := callDriver drv final.tr (.Stop unit.handle)
      let tr₄ := r₃.2 ++ streamFrees unit mode
      let tr₅ := ClearDataBuffers api drv unit tr₄
      some { final := final, aborted := decide (final.g.g_autoStopped = 0),
             overflowReported := decide (final.g.g_overflow ≠ 0), g := final.g, tr := tr₅ }

/-! ## The block controller -/

/-- The constant `BUFFER_SIZE`. -/
def BUFFER_SIZE : Int := 1024

/-- The function `CallBackBlock`: the ready flag is set unless the driver reports
`PICO_CANCELLED`. -/
def CallBackBlock (api : Api) (g : Globals) (status : PICO_STATUS) : Globals :=
  if status ≠ api.PICO_CANCELLED then { g with g_ready := TRUE } else g

/-- What the surroundings show at one evaluation of the condition of a wait loop
`while (!g_ready && !_kbhit())`: the status of a completion callback delivered
since the previous evaluation, if one was, and whether a key is waiting. -/
structure WaitStep where
  callback : Option PICO_STATUS
  kbhit : Bool
  deriving DecidableEq, Repr

/-- The wait loop `while (!g_ready && !_kbhit()) Sleep(0);` on a script of
evaluations of its condition: the globals when the loop exits, or `none` when the
script ends with the loop still waiting. -/
def waitReady (api : Api) : List WaitStep → Globals → Option Globals
  | [], _ => none
  | w :: rest, g =>
    let g₁ := match w.callback with
      | some status => CallBackBlock api g status
      | none => g
    if g₁.g_ready ≠ 0 then some g₁
    else if w.kbhit then some g₁
    else waitReady api rest g₁

/-- The loop `while (ps2000aGetTimebase(..., timebase, ...) != PICO_OK) timebase++;`
with a bound on the number of iterations: the timebase the driver accepted and
the trace, or `none` when the bound is reached. -/
def findTimebase (drv : Driver) (handle sampleCount oversample : Int) :
    Nat → Int → Trace → Option (Int × Trace)
  | 0, _, _ => none
  | fuel + 1, timebase, tr =>
    let r := callDriver drv tr (.GetTimebase handle timebase sampleCount oversample 0)
    if r.1 ≠ PICO_OK then
      findTimebase drv handle sampleCount oversample fuel (toUInt32 (timebase + 1)) r.2
    else some (timebase, r.2)

/-- The allocation loop of the analogue buffers of `BlockDataHandler`: for every
enabled channel two buffers are allocated and bound with
`ps2000aSetDataBuffers`. -/
def blockBindAnalogue (api : Api) (drv : Driver) (unit : UNIT) (sampleCount : Int)
    (tr : Trace) : Trace :=
  (List.range unit.channelCount.toNat).foldl
    (fun t i =>
      if channelEnabled unit i then
        let t₁ := t ++ [Event.malloc (.buffers (i * 2)) sampleCount,
                        Event.malloc (.buffers (i * 2 + 1)) sampleCount]
        (callDriver drv t₁ (.SetDataBuffers unit.handle i (some (.buffers (i * 2)))
          (some (.buffers (i * 2 + 1))) sampleCount 0 api.PS2000A_RATIO_MODE_NONE)).2
      else t)
    tr

/-- The allocation loop of the digital buffers of `BlockDataHandler`: for every
port one buffer is allocated and bound with `ps2000aSetDataBuffer`. -/
def blockBindDigital (api : Api) (drv : Driver) (unit : UNIT) (sampleCount : Int)
    (tr : Trace) : Trace :=
  (List.range unit.digitalPorts.toNat).foldl
    (fun t i =>
      let t₁ := t ++ [Event.malloc (.digiBuffers i) sampleCount]
      (callDriver drv t₁ (.SetDataBuffer unit.handle (i + api.PS2000A_DIGITAL_PORT0)
        (some (.digiBuffers i)) sampleCount 0 api.PS2000A_RATIO_MODE_NONE)).2)
    tr

/-- The releases at the end of `BlockDataHandler`. -/
def blockFrees (unit : UNIT) (mode : MODE) (etsModeSet : Int) : List Event :=
  (if mode = .ANALOGUE ∨ mode = .MIXED then
    ((List.range unit.channelCount.toNat).filter (fun i => channelEnabled unit i)).flatMap
      (fun i => [Event.free (.buffers (i * 2)), Event.free (.buffers (i * 2 + 1))])
   else []) ++
  (if mode = .ANALOGUE ∧ etsModeSet = TRUE then [Event.free .etsTime] else []) ++
  (if mode = .DIGITAL ∨ mode = .MIXED then
    (List.range unit.digitalPorts.toNat).map (fun i => Event.free (.digiBuffers i))
   else [])

/-- What the surroundings contribute to one run of `BlockDataHandler`: a bound on
the iterations of the timebase search, the status of a completion callback
delivered while `ps2000aRunBlock` is still executing, if one is, the script of
the wait loop, and the sample count `ps2000aGetValues` writes back. -/
structure BlockInputs where
  timebaseFuel : Nat
  duringRun : Option PICO_STATUS
  wait : List WaitStep
  valuesReturned : Int
  deriving DecidableEq, Repr

/-- What `BlockDataHandler` leaves behind: the globals, whether the data were
fetched (the ready branch), the sample count after `ps2000aGetValues` and the
bound of the export loops, and the whole trace. -/
structure BlockResult where
  g : Globals
  fetched : Bool
  sampleCount : Int
  tr : Trace
  deriving DecidableEq, Repr

/-- The function `BlockDataHandler`: the buffers of the mode are allocated and
bound, the timebase is searched, the ready flag is cleared and the block started
with `ps2000aRunBlock` (a completion callback may arrive while it executes), the
wait loop runs until the callback or a key press;
if the block is ready the values are fetched with `ps2000aGetValues` (the sample
count is clipped to `BUFFER_SIZE` in the analogue modes); then the driver is
stopped, the buffers are released and `ClearDataBuffers` is called.  Printing
and the export files are not modelled.  The result is `none` when the timebase
search or the wait does not end within the inputs. -/
def BlockDataHandler (api : Api) (drv : Driver) (inp : BlockInputs) (unit : UNIT)
    (_offset : Int) (mode : MODE) (etsModeSet : Int) (g : Globals) (tr : Trace) :
    Option BlockResult :=
  let sampleCount : Int := BUFFER_SIZE
  let ratioMode := api.PS2000A_RATIO_MODE_NONE
  let tr₁ := if mode = .ANALOGUE ∨ mode = .MIXED then
      blockBindAnalogue api drv unit sampleCount tr else tr
  let tr₂ := if mode = .ANALOGUE ∧ etsModeSet = TRUE then
      (callDriver drv (tr₁ ++ [Event.malloc .etsTime sampleCount])
        (.SetEtsTimeBuffer unit.handle (some .etsTime) sampleCount)).2
    else tr₁
  let tr₃ := if mode = .DIGITAL ∨ mode = .MIXED then
      blockBindDigital api drv unit sampleCount tr₂ else tr₂
  match findTimebase drv unit.handle sampleCount g.oversample inp.timebaseFuel g.timebase tr₃ with
  | none => none
  | some (timebase, tr₄) =>
    let g₁ : Globals := { g with timebase := timebase, g_ready := FALSE }
    let r₅ := callDriver drv tr₄ (.RunBlock unit.handle 0 sampleCount timebase g.oversample 0)
    let g₁' : Globals := match inp.duringRun with
      | some status => CallBackBlock api g₁ status
      | none => g₁
    match waitReady api inp.wait g₁' with
    | none => none
    | some g₂ =>
      let fetched : Bool := decide (g₂.g_ready ≠ 0)
      let r₆ : Int × Trace :=
        if g₂.g_ready ≠ 0 then
          let r := callDriver drv r₅.2 (.GetValues unit.handle 0 sampleCount 10 ratioMode 0)
          let returned := toInt32 inp.valuesReturned
          (if mode = .ANALOGUE ∨ mode = .MIXED then min returned BUFFER_SIZE else returned, r.2)
        else (sampleCount, r₅.2)
      let r₇ := callDriver drv r₆.2 (.Stop unit.handle)
      let tr₈ := r₇.2 ++ blockFrees unit mode etsModeSet
      let tr₉ := ClearDataBuffers api drv unit tr₈
      some { g := g₂, fetched := fetched, sampleCount := r₆.1, tr := tr₉ }

/-! ## The acquisition entry points -/

/-- The state an entry point leaves: the unit, the globals and the trace. -/
structure Session where
  unit : UNIT
  g : Globals
  tr : Trace
  deriving DecidableEq, Repr

/-- The initialiser of `sourceDetails` in the triggered entry points: a level
trigger on channel A with the same threshold and hysteresis up and down. -/
def sourceDetails (api : Api) (triggerVoltage hysteresis : Int) : TRIGGER_CHANNEL_PROPERTIES :=
  { thresholdUpper := triggerVoltage, thresholdUpperHysteresis := hysteresis,
    thresholdLower := triggerVoltage, thresholdLowerHysteresis := hysteresis,
    channel := api.PS2000A_CHANNEL_A, thresholdMode := api.PS2000A_LEVEL }

/-- The initialiser of `conditions` with the given conditions on channel A and on
the digital source, every other source being "don't care". -/
def conditionsOn (api : Api) (channelA digital : Int) : TRIGGER_CONDITIONS :=
  { channelA := channelA, channelB := api.PS2000A_CONDITION_DONT_CARE,
    channelC := api.PS2000A_CONDITION_DONT_CARE, channelD := api.PS2000A_CONDITION_DONT_CARE,
    external := api.PS2000A_CONDITION_DONT_CARE, aux := api.PS2000A_CONDITION_DONT_CARE,
    pulseWidthQualifier := api.PS2000A_CONDITION_DONT_CARE, digital := digital }

/-- The initialiser of `directions` with the given direction on channel A and
`PS2000A_NONE` on every other source. -/
def directionsOn (api : Api) (channelA : Int) : TRIGGER_DIRECTIONS :=
  { channelA := channelA, channelB := api.PS2000A_NONE, channelC := api.PS2000A_NONE,
    channelD := api.PS2000A_NONE, ext := api.PS2000A_NONE, aux := api.PS2000A_NONE }

/-- The array `digDirections` of the digital entry points: channel 0 rising,
channel 4 high. -/
def digDirections (api : Api) : List DIGITAL_CHANNEL_DIRECTIONS :=
  [{ channel := api.PS2000A_DIGITAL_CHANNEL_0,
     direction := api.PS2000A_DIGITAL_DIRECTION_RISING },
   { channel := api.PS2000A_DIGITAL_CHANNEL_4,
     direction := api.PS2000A_DIGITAL_DIRECTION_HIGH }]

/-- The threshold message of the triggered entry points evaluates
`adc_to_mv(thresholdUpper, range of channel A)` when `scaleVoltages` is set: the
entry point goes on only if that value is defined. -/
def thresholdPrinted (api : Api) (unit : UNIT) (g : Globals) (thresholdUpper : Int) : Bool :=
  if g.scaleVoltages ≠ 0 then
    (adc_to_mv thresholdUpper (channelSetting unit api.PS2000A_CHANNEL_A).range unit).isSome
  else true

/-- The function `DisableAnalogue`: every channel is switched off with its coupling
and range kept. -/
def DisableAnalogue (drv : Driver) (unit : UNIT) (tr : Trace) : Trace :=
  callEach drv tr
    ((List.range unit.channelCount.toNat).map (fun ch =>
      DriverCall.SetChannel unit.handle ch 0 (channelSetting unit ch).DCcoupled
        (channelSetting unit ch).range))

/-- The loop `unit->channelSettings[channel].enabled = TRUE` over the channels
below `channelCount`. -/
def enableAll (unit : UNIT) : UNIT :=
  { unit with
      channelSettings :=
        (List.range unit.channelSettings.length).map (fun i =>
          if i < unit.channelCount.toNat then
            { channelSetting unit i with enabled := TRUE }
          else channelSetting unit i) }

/-- The function `CollectBlockImmediate`: defaults, trigger disabled (the status
of `SetTrigger` is dropped), then `BlockDataHandler`. -/
def CollectBlockImmediate (api : Api) (drv : Driver) (inp : BlockInputs) (unit : UNIT)
    (g : Globals) (tr : Trace) : Option Session :=
  let tr₁ := SetDefaults api drv unit tr
  let r₂ := SetTrigger drv unit none 0 none 0 zeroDirections zeroPwq 0 0 0 none 0 tr₁
  (BlockDataHandler api drv inp unit 0 .ANALOGUE FALSE g r₂.2).map
    (fun b => { unit := unit, g := b.g, tr := b.tr })

/-- The function `CollectBlockTriggered`: defaults, a rising-edge trigger at
1000 mV on channel A (the status of `SetTrigger` is dropped), then
`BlockDataHandler`. -/
def CollectBlockTriggered (api : Api) (drv : Driver) (inp : BlockInputs) (unit : UNIT)
    (g : Globals) (tr : Trace) : Option Session :=
  match mv_to_adc 1000 (channelSetting unit api.PS2000A_CHANNEL_A).range unit with
  | none => none
  | some triggerVoltage =>
    if thresholdPrinted api unit g triggerVoltage then
      let tr₁ := SetDefaults api drv unit tr
      let r₂ := SetTrigger drv unit (some [sourceDetails api triggerVoltage (256 * 10)]) 1
        (some [conditionsOn api api.PS2000A_CONDITION_TRUE api.PS2000A_CONDITION_DONT_CARE]) 1
        (directionsOn api api.PS2000A_RISING) zeroPwq 0 0 0 none 0 tr₁
      (BlockDataHandler api drv inp unit 0 .ANALOGUE FALSE g r₂.2).map
        (fun b => { unit := unit, g := b.g, tr := b.tr })
    else none

/-- The function `CollectBlockEts`: defaults, the trigger of
`CollectBlockTriggered` with the directions zeroed but for channel A (the status
of `SetTrigger` is overwritten), ETS switched on, `BlockDataHandler` with the
ETS flag the driver granted, ETS switched off. -/
def CollectBlockEts (api : Api) (drv : Driver) (inp : BlockInputs) (unit : UNIT)
    (g : Globals) (tr : Trace) : Option Session :=
  match mv_to_adc 1000 (channelSetting unit api.PS2000A_CHANNEL_A).range unit with
  | none => none
  | some triggerVoltage =>
    if thresholdPrinted api unit g triggerVoltage then
      let tr₁ := SetDefaults api drv unit tr
      let r₂ := SetTrigger drv unit (some [sourceDetails api triggerVoltage (256 * 10)]) 1
        (some [conditionsOn api api.PS2000A_CONDITION_TRUE api.PS2000A_CONDITION_DONT_CARE]) 1
        { zeroDirections with channelA := api.PS2000A_RISING } zeroPwq 0 0 0 none 0 tr₁
      let r₃ := callDriver drv r₂.2 (.SetEts unit.handle api.PS2000A_ETS_FAST 20 4)
      let etsModeSet : Int := if r₃.1 = PICO_OK then TRUE else FALSE
      (BlockDataHandler api drv inp unit (BUFFER_SIZE / 10 - 5) .ANALOGUE etsModeSet g
          r₃.2).map
        (fun b =>
          { unit := unit, g := b.g,
            tr := (callDriver drv b.tr (.SetEts unit.handle api.PS2000A_ETS_OFF 20 4)).2 })
    else none

/-- The function `ANDAnalogueDigitalTriggered`: every channel is enabled, defaults,
a trigger on channel A above 1000 mV and on the digital channels; the block is
collected in `MIXED` mode only if `SetTrigger` returned `PICO_OK`; the analogue
channels are switched off at the end. -/
def ANDAnalogueDigitalTriggered (api : Api) (drv : Driver) (inp : BlockInputs) (unit : UNIT)
    (g : Globals) (tr : Trace) : Option Session :=
  match mv_to_adc 1000 (channelSetting unit api.PS2000A_CHANNEL_A).range unit with
  | none => none
  | some triggerVoltage =>
    if thresholdPrinted api unit g triggerVoltage then
      let unit₁ := enableAll unit
      let tr₁ := SetDefaults api drv unit₁ tr
      let r₂ := SetTrigger drv unit₁ (some [sourceDetails api triggerVoltage (256 * 10)]) 1
        (some [conditionsOn api api.PS2000A_CONDITION_TRUE api.PS2000A_CONDITION_TRUE]) 1
        (directionsOn api api.PS2000A_ABOVE) zeroPwq 0 0 0 (some (digDirections api)) 2 tr₁
      if r₂.1 = PICO_OK then
        (BlockDataHandler api drv inp unit₁ 0 .MIXED FALSE g r₂.2).map
          (fun b => { unit := unit₁, g := b.g, tr := DisableAnalogue drv unit₁ b.tr })
      else some { unit := unit₁, g := g, tr := DisableAnalogue drv unit₁ r₂.2 }
    else none

/-- The function `ORAnalogueDigitalTriggered`: as `ANDAnalogueDigitalTriggered`, with
two alternative conditions (channel A, or the digital channels) and a rising
edge on channel A. -/
def ORAnalogueDigitalTriggered (api : Api) (drv : Driver) (inp : BlockInputs) (unit : UNIT)
    (g : Globals) (tr : Trace) : Option Session :=
  match mv_to_adc 1000 (channelSetting unit api.PS2000A_CHANNEL_A).range unit with
  | none => none
  | some triggerVoltage =>
    if thresholdPrinted api unit g triggerVoltage then
      let unit₁ := enableAll unit
      let tr₁ := SetDefaults api drv unit₁ tr
      let r₂ := SetTrigger drv unit₁ (some [sourceDetails api triggerVoltage (256 * 10)]) 1
        (some [conditionsOn api api.PS2000A_CONDITION_TRUE api.PS2000A_CONDITION_DONT_CARE,
               conditionsOn api api.PS2000A_CONDITION_DONT_CARE api.PS2000A_CONDITION_TRUE]) 2
        (directionsOn api api.PS2000A_RISING) zeroPwq 0 0 0 (some (digDirections api)) 2 tr₁
      if r₂.1 = PICO_OK then
        (BlockDataHandler api drv inp unit₁ 0 .MIXED FALSE g r₂.2).map
          (fun b => { unit := unit₁, g := b.g, tr := DisableAnalogue drv unit₁ b.tr })
      else some { unit := unit₁, g := g, tr := DisableAnalogue drv unit₁ r₂.2 }
    else none

/-- The function `DigitalBlockTriggered`: a trigger on the digital channels; the
block is collected in `DIGITAL` mode only if `SetTrigger` returned `PICO_OK`. -/
def DigitalBlockTriggered (api : Api) (drv : Driver) (inp : BlockInputs) (unit : UNIT)
    (g : Globals) (tr : Trace) : Option Session :=
  let r₁ := SetTrigger drv unit none 0
    (some [conditionsOn api api.PS2000A_CONDITION_DONT_CARE api.PS2000A_CONDITION_TRUE]) 1
    zeroDirections zeroPwq 0 0 0 (some (digDirections api)) 2 tr
  if r₁.1 = PICO_OK then
    (BlockDataHandler api drv inp unit 0 .DIGITAL FALSE g r₁.2).map
      (fun b => { unit := unit, g := b.g, tr := b.tr })
  else some { unit := unit, g := g, tr := r₁.2 }

/-- The function `DigitalBlockImmediate`: trigger disabled (the status of
`SetTrigger` is dropped), then `BlockDataHandler` in `DIGITAL` mode. -/
def DigitalBlockImmediate (api : Api) (drv : Driver) (inp : BlockInputs) (unit : UNIT)
    (g : Globals) (tr : Trace) : Option Session :=
  let r₁ := SetTrigger drv unit none 0 none 0 zeroDirections zeroPwq 0 0 0
    (some [{ channel := 0, direction := 0 }]) 0 tr
  (BlockDataHandler api drv inp unit 0 .DIGITAL FALSE g r₁.2).map
    (fun b => { unit := unit, g := b.g, tr := b.tr })

/-- The function `CollectStreamingImmediate`: defaults, trigger disabled (the
status of `SetTrigger` is dropped), then `StreamDataHandler`. -/
def CollectStreamingImmediate (api : Api) (drv : Driver) (inp : StreamInputs) (unit : UNIT)
    (g : Globals) (tr : Trace) : Option Session :=
  let tr₁ := SetDefaults api drv unit tr
  let r₂ := SetTrigger drv unit none 0 none 0 zeroDirections zeroPwq 0 0 0 none 0 tr₁
  (StreamDataHandler api drv inp unit 0 .ANALOGUE g r₂.2).map
    (fun s => { unit := unit, g := s.g, tr := s.tr })

/-- The function `CollectStreamingTriggered`: defaults, a rising-edge trigger at
1000 mV on channel A (the status of `SetTrigger` is dropped), then
`StreamDataHandler`. -/
def CollectStreamingTriggered (api : Api) (drv : Driver) (inp : StreamInputs) (unit : UNIT)
    (g : Globals) (tr : Trace) : Option Session :=
  match mv_to_adc 1000 (channelSetting unit api.PS2000A_CHANNEL_A).range unit with
  | none => none
  | some triggerVoltage =>
    let tr₁ := SetDefaults api drv unit tr
    let r₂ := SetTrigger drv unit (some [sourceDetails api triggerVoltage (256 * 10)]) 1
      (some [conditionsOn api api.PS2000A_CONDITION_TRUE api.PS2000A_CONDITION_DONT_CARE]) 1
      (directionsOn api api.PS2000A_RISING) zeroPwq 0 0 0 none 0 tr₁
    (StreamDataHandler api drv inp unit 0 .ANALOGUE g r₂.2).map
      (fun s => { unit := unit, g := s.g, tr := s.tr })

/-- The function `DigitalStreamingAggregated`: trigger disabled (the status of
`SetTrigger` is dropped), then `StreamDataHandler` in `AGGREGATED` mode. -/
def DigitalStreamingAggregated (api : Api) (drv : Driver) (inp : StreamInputs) (unit : UNIT)
    (g : Globals) (tr : Trace) : Option Session :=
  let r₁ := SetTrigger drv unit none 0 none 0 zeroDirections zeroPwq 0 0 0 none 0 tr
  (StreamDataHandler api drv inp unit 0 .AGGREGATED g r₁.2).map
    (fun s => { unit := unit, g := s.g, tr := s.tr })

/-- The function `DigitalStreamingImmediate`: trigger disabled (the status of
`SetTrigger` is dropped), then `StreamDataHandler` in `DIGITAL` mode. -/
def DigitalStreamingImmediate (api : Api) (drv : Driver) (inp : StreamInputs) (unit : UNIT)
    (g : Globals) (tr : Trace) : Option Session :=
  let r₁ := SetTrigger drv unit none 0 none 0 zeroDirections zeroPwq 0 0 0 none 0 tr
  (StreamDataHandler api drv inp unit 0 .DIGITAL g r₁.2).map
    (fun s => { unit := unit, g := s.g, tr := s.tr })

/-- What the surroundings contribute to one run of `CollectRapidBlock`: the
segment count `ps2000aGetMaxSegments` writes, the status of a completion
callback delivered while `ps2000aRunBlock` is still executing, if one is, the
script of the wait loop, and the count `ps2000aGetNoOfCaptures` writes. -/
structure RapidInputs where
  maxSegments : Int
  duringRun : Option PICO_STATUS
  wait : List WaitStep
  completedCaptures : Int
  deriving DecidableEq, Repr

/-- The enabled channels below `channelCount`, in order. -/
def enabledChannels (unit : UNIT) : List Nat :=
  (List.range unit.channelCount.toNat).filter (fun ch => channelEnabled unit ch)

/-- The function `CollectRapidBlock`: defaults, a rising-edge trigger at 100 mV on
channel A (the status of `SetTrigger` is dropped), ten captures or as many as the
device has segments, the run is started and only then the ready flag cleared,
the wait loop; after a key press the driver is stopped and the number of
completed captures replaces the number of captures (the function returns when it
is zero); then one buffer per enabled channel and capture is allocated and bound,
the values are fetched in bulk, the driver is stopped and the buffers are
released. -/
def CollectRapidBlock (api : Api) (drv : Driver) (inp : RapidInputs) (unit : UNIT)
    (g : Globals) (tr : Trace) : Option Session :=
  let nSamples : Int := 1000
  match mv_to_adc 100 (channelSetting unit api.PS2000A_CHANNEL_A).range unit with
  | none => none
  | some triggerVoltage =>
    if thresholdPrinted api unit g triggerVoltage then
      let tr₁ := SetDefaults api drv unit tr
      let r₂ := SetTrigger drv unit (some [sourceDetails api triggerVoltage 256]) 1
        (some [conditionsOn api api.PS2000A_CONDITION_TRUE api.PS2000A_CONDITION_DONT_CARE]) 1
        (directionsOn api api.PS2000A_RISING) zeroPwq 0 0 0 none 0 tr₁
      let r₃ := callDriver drv r₂.2 (.GetMaxSegments unit.handle)
      let maxSegments := toUInt32 inp.maxSegments
      let nCaptures₀ : Int := if 10 > maxSegments then maxSegments else 10
      let r₄ := callDriver drv r₃.2 (.MemorySegments unit.handle nCaptures₀)
      let r₅ := callDriver drv r₄.2 (.SetNoOfCaptures unit.handle nCaptures₀)
      let r₆ := callDriver drv r₅.2 (.RunBlock unit.handle 0 nSamples 160 1 0)
      let g₁ : Globals := { g with timebase := 160 }
      let g₂ : Globals := match inp.duringRun with
        | some status => CallBackBlock api g₁ status
        | none => g₁
      let g₃ : Globals := { g₂ with g_ready := 0 }
      match waitReady api inp.wait g₃ with
      | none => none
      | some g₄ =>
        let aborted : Bool := decide (g₄.g_ready = 0)
        let tr₇ := if aborted then
            (callDriver drv (callDriver drv r₆.2 (.Stop unit.handle)).2
              (.GetNoOfCaptures unit.handle)).2
          else r₆.2
        if aborted ∧ toUInt32 inp.completedCaptures = 0 then
          some { unit := unit, g := g₄, tr := tr₇ }
        else
          let nCaptures : Int :=
            if aborted then toUInt16 (toUInt32 inp.completedCaptures) else nCaptures₀
          let captures := List.range nCaptures.toNat
          let tr₈ := tr₇ ++
            [Event.malloc .rapidArray unit.channelCount,
             Event.malloc .overflow (unit.channelCount * nCaptures)] ++
            (List.range unit.channelCount.toNat).map
              (fun ch => Event.malloc (.rapidRow ch) nCaptures) ++
            (enabledChannels unit).flatMap (fun ch =>
              captures.map (fun capture => Event.malloc (.rapidBuffers ch capture) nSamples))
          let tr₉ := callEach drv tr₈
            ((enabledChannels unit).flatMap (fun ch =>
              captures.map (fun capture =>
                DriverCall.SetDataBuffer unit.handle ch (some (.rapidBuffers ch capture))
                  nSamples capture api.PS2000A_RATIO_MODE_NONE)))
          let r₁₀ := callDriver drv tr₉ (.GetValuesBulk unit.handle nSamples 0
            (toUInt32 (nCaptures - 1)) 1 api.PS2000A_RATIO_MODE_NONE (some .overflow))
          let r₁₁ := callDriver drv r₁₀.2 (.Stop unit.handle)
          let tr₁₂ := r₁₁.2 ++ [Event.free .overflow] ++
            (enabledChannels unit).flatMap (fun ch =>
              captures.map (fun capture => Event.free (.rapidBuffers ch capture))) ++
            (List.range unit.channelCount.toNat).map (fun ch => Event.free (.rapidRow ch)) ++
            [Event.free .rapidArray]
          some { unit := unit, g := g₄, tr := tr₁₂ }
    else none

/-- What a guarded copy leaves in a slot that held `x` while the driver slot held
`y`: the replaced region when both buffers exist, `x` itself otherwise. -/
def slotResult (x y : Option (List Int)) (startIndex noOfSamples : Nat) : Option (List Int) :=
  match x, y with
  | some a, some d => some (replaced a d startIndex noOfSamples)
  | _, _ => x

/-- The snapshot table expected after the `ANALOGUE` copy loop ran over the
channels below `count`: the two slots of every enabled channel hold the result
of the guarded copy, every other slot is as before. -/
def analogueResult (unit : UNIT) (app driver : BufferTable) (startIndex noOfSamples : Nat)
    (count : Nat) : BufferTable :=
  fun slot =>
    if slot / 2 < count ∧ channelEnabled unit (slot / 2) = true then
      slotResult (app slot) (driver slot) startIndex noOfSamples
    else app slot

/-- Four-element driver buffers in the two slots of channel A. -/
def sampleDriverTable : BufferTable := fun slot =>
  if slot = 0 then some [11, 12, 13, 14] else if slot = 1 then some [21, 22, 23, 24] else none

/-- Four-element snapshot buffers in the two slots of channel A. -/
def sampleAppTable : BufferTable := fun slot =>
  if slot = 0 then some [0, 0, 0, 0] else if slot = 1 then some [0, 0, 0, 0] else none

/-- A `BUFFER_INFO` for `ANALOGUE` streaming of the sample unit. -/
def sampleBufferInfo : BUFFER_INFO :=
  { unit := sampleUnit 32512, mode := .ANALOGUE,
    driverBuffers := some sampleDriverTable, appBuffers := some sampleAppTable,
    driverDigBuffers := none, appDigBuffers := none }

/-- The globals before the first notification of a run. -/
def sampleGlobals : Globals :=
  { timebase := 8, oversample := 1, scaleVoltages := 1, g_ready := 0, g_sampleCount := 0, g_startIndex := 0,
    g_autoStopped := 0, g_trig := 0, g_trigAt := 0, g_overflow := 0 }

/-- A poll-loop state in the middle of an `ANALOGUE` run of the sample unit, five
samples collected so far. -/
def sampleStreamState : StreamState :=
  { g := sampleGlobals, bufferInfo := sampleBufferInfo, totalSamples := 5, triggeredAt := 0,
    index := 1, tr := [] }

/-- A notification of two samples from index 1 with the trigger fired at offset 1. -/
def sampleNotification : Notification :=
  { noOfSamples := 2, startIndex := 1, overflow := 0, triggerAt := 1, triggered := 1,
    autoStop := 0 }

/-- A poll that delivers the sample notification. -/
def samplePoll : Poll :=
  { elapsed3 := false, driverData := fun slot i => 10 * slot + i,
    driverDigData := fun _ _ => 0, notification := some sampleNotification }

/-- The iterations the poll loop executes on a script of polls, in order: for
each the state before it, the poll, and the state after it.  The list ends where
the loop exits (or the script ends, or a copy of the callback leaves its
buffers). -/
def pollSteps (drv : Driver) : List Poll → StreamState → List (StreamState × Poll × StreamState)
  | polls, st =>
    if st.g.g_autoStopped ≠ 0 then []
    else
      match polls with
      | [] => []
      | p :: rest =>
        match pollStep drv st p with
        | none => []
        | some st' => (st, p, st') :: pollSteps drv rest st'

/-- The samples a poll adds to the total: the sample count of its notification
when that is positive. -/
def Poll.samples (p : Poll) : Int :=
  match p.notification with
  | some n => if 0 < n.noOfSamples then n.noOfSamples else 0
  | none => 0

/-- A state at the start of the poll loop of an `ANALOGUE` run of the sample unit:
nothing collected yet. -/
def startStreamState : StreamState :=
  { g := sampleGlobals, bufferInfo := sampleBufferInfo, totalSamples := 0, triggeredAt := 0,
    index := 0, tr := [] }

/-- A poll that delivers the given notification, the clock below three seconds. -/
def pollOf (n : Notification) : Poll :=
  { elapsed3 := false, driverData := fun slot i => 10 * slot + i,
    driverDigData := fun _ _ => 0, notification := some n }

/-- A poll that finds three seconds elapsed and delivers the given notification. -/
def latePollOf (n : Notification) : Poll :=
  { elapsed3 := true, driverData := fun slot i => 10 * slot + i,
    driverDigData := fun _ _ => 0, notification := some n }

/-- A poll that finds three seconds elapsed and delivers no notification. -/
def latePollSilent : Poll :=
  { elapsed3 := true, driverData := fun _ _ => 0, driverDigData := fun _ _ => 0,
    notification := none }

/-! ## Traces without statuses -/

/-- What an event is, apart from the status a driver call returned. -/
inductive Action
  | call (c : DriverCall)
  | malloc (buffer : BufferId) (elements : Int)
  | free (buffer : BufferId)
  deriving DecidableEq, Repr

/-- The action of an event. -/
def Event.action : Event → Action
  | .call c _ => .call c
  | .malloc b n => .malloc b n
  | .free b => .free b

/-- The actions of a trace, in order. -/
def actions (tr : Trace) : List Action := tr.map Event.action

/-- The allocation and the binding `BlockDataHandler` makes for the analogue
channel `c`: the buffers of the slots `2c` and `2c+1` are allocated and bound to
the channel as its maximum and minimum buffer. -/
def blockPairActions (api : Api) (unit : UNIT) (sampleCount : Int) (c : Nat) : List Action :=
  [.malloc (.buffers (c * 2)) sampleCount,
   .malloc (.buffers (c * 2 + 1)) sampleCount,
   .call (.SetDataBuffers unit.handle c (some (.buffers (c * 2))) (some (.buffers (c * 2 + 1)))
     sampleCount 0 api.PS2000A_RATIO_MODE_NONE)]

/-- The allocations and the binding `StreamDataHandler` makes for the analogue
channel `c`: the driver buffers of the slots `2c` and `2c+1` are allocated and
bound to the channel, then the two snapshot buffers of the same slots are
allocated. -/
def streamPairActions (api : Api) (unit : UNIT) (sampleCount : Int) (c : Nat) : List Action :=
  [.malloc (.buffers (c * 2)) sampleCount,
   .malloc (.buffers (c * 2 + 1)) sampleCount,
   .call (.SetDataBuffers unit.handle c (some (.buffers (c * 2))) (some (.buffers (c * 2 + 1)))
     sampleCount 0 api.PS2000A_RATIO_MODE_AGGREGATE),
   .malloc (.appBuffers (c * 2)) sampleCount,
   .malloc (.appBuffers (c * 2 + 1)) sampleCount]

/-- The allocations and the binding `StreamDataHandler` makes in `AGGREGATED` mode
for the digital port `i`: the driver buffers of the slots `2i` and `2i+1` are
allocated and bound to the port, then the two snapshot buffers of the same slots
are allocated. -/
def aggregatedPairActions (api : Api) (unit : UNIT) (sampleCount : Int) (i : Nat) :
    List Action :=
  [.malloc (.digiBuffers (i * 2)) sampleCount,
   .malloc (.digiBuffers (i * 2 + 1)) sampleCount,
   .call (.SetDataBuffers unit.handle (i + api.PS2000A_DIGITAL_PORT0)
     (some (.digiBuffers (i * 2))) (some (.digiBuffers (i * 2 + 1))) sampleCount 0
     api.PS2000A_RATIO_MODE_AGGREGATE),
   .malloc (.appDigiBuffers (i * 2)) sampleCount,
   .malloc (.appDigiBuffers (i * 2 + 1)) sampleCount]

/-- The allocations and the binding `StreamDataHandler` makes in `DIGITAL` mode for
the digital port `i`. -/
def streamPortActions (api : Api) (unit : UNIT) (sampleCount : Int) (i : Nat) : List Action :=
  [.malloc (.digiBuffers i) sampleCount,
   .call (.SetDataBuffer unit.handle (i + api.PS2000A_DIGITAL_PORT0) (some (.digiBuffers i))
     sampleCount 0 api.PS2000A_RATIO_MODE_NONE),
   .malloc (.appDigiBuffers i) sampleCount]

/-- The allocation and the binding `BlockDataHandler` makes for the digital port
`i`. -/
def blockPortActions (api : Api) (unit : UNIT) (sampleCount : Int) (i : Nat) : List Action :=
  [.malloc (.digiBuffers i) sampleCount,
   .call (.SetDataBuffer unit.handle (i + api.PS2000A_DIGITAL_PORT0) (some (.digiBuffers i))
     sampleCount 0 api.PS2000A_RATIO_MODE_NONE)]

/-- The calls of `ClearDataBuffers`. -/
def clearCalls (api : Api) (unit : UNIT) : List DriverCall :=
  (List.range unit.channelCount.toNat).map (fun i =>
      DriverCall.SetDataBuffers unit.handle (toInt16 i) none none 0 0
        api.PS2000A_RATIO_MODE_NONE) ++
    (List.range unit.digitalPorts.toNat).map (fun i =>
      DriverCall.SetDataBuffer unit.handle (i + api.PS2000A_DIGITAL_PORT0) none 0 0
        api.PS2000A_RATIO_MODE_NONE)

/-- The actions `BlockDataHandler` adds to the trace, in order: the buffers of the
mode are allocated and bound, the timebases in `tried` are offered to
`ps2000aGetTimebase`, the block is started with the accepted `timebase`, the
values are fetched when the block became ready, the driver is stopped, the
buffers are released and `ClearDataBuffers` is called. -/
def blockActions (api : Api) (unit : UNIT) (mode : MODE) (etsModeSet oversample : Int)
    (tried : List Int) (timebase : Int) (fetched : Bool) : List Action :=
  (if mode = .ANALOGUE ∨ mode = .MIXED then
    (enabledChannels unit).flatMap (blockPairActions api unit BUFFER_SIZE) else []) ++
  (if mode = .ANALOGUE ∧ etsModeSet = TRUE then
    [Action.malloc .etsTime BUFFER_SIZE,
     Action.call (.SetEtsTimeBuffer unit.handle (some .etsTime) BUFFER_SIZE)] else []) ++
  (if mode = .DIGITAL ∨ mode = .MIXED then
    (List.range unit.digitalPorts.toNat).flatMap (blockPortActions api unit BUFFER_SIZE)
   else []) ++
  tried.map (fun t => Action.call (.GetTimebase unit.handle t BUFFER_SIZE oversample 0)) ++
  [Action.call (.RunBlock unit.handle 0 BUFFER_SIZE timebase oversample 0)] ++
  (if fetched then
    [Action.call (.GetValues unit.handle 0 BUFFER_SIZE 10 api.PS2000A_RATIO_MODE_NONE 0)]
   else []) ++
  [Action.call (.Stop unit.handle)] ++
  (blockFrees unit mode etsModeSet).map Event.action ++
  (clearCalls api unit).map Action.call

/-- The actions `StreamDataHandler` adds to the trace, in order: the buffers of
the mode are allocated and bound, streaming is started, the driver is polled
`polled` times and stopped, the buffers are released and `ClearDataBuffers` is
called. -/
def streamActions (api : Api) (unit : UNIT) (mode : MODE) (preTrigger : Int) (polled : Nat) :
    List Action :=
  (match mode with
    | .ANALOGUE => (enabledChannels unit).flatMap (streamPairActions api unit 40000)
    | .AGGREGATED =>
      (List.range unit.digitalPorts.toNat).flatMap (aggregatedPairActions api unit 40000)
    | .DIGITAL => (List.range unit.digitalPorts.toNat).flatMap (streamPortActions api unit 40000)
    | .MIXED => []) ++
  (match streamSettings api mode with
    | some (downsampleRatio, timeUnits, sampleInterval, ratioMode, postTrigger, autostop) =>
      [Action.call (.RunStreaming unit.handle sampleInterval timeUnits preTrigger
        (toUInt32 (postTrigger - preTrigger)) autostop downsampleRatio ratioMode 40000)]
    | none => []) ++
  List.replicate polled (Action.call (.GetStreamingLatestValues unit.handle)) ++
  [Action.call (.Stop unit.handle)] ++
  (streamFrees unit mode).map Event.action ++
  (clearCalls api unit).map Action.call

/-- The calls of `SetDefaults`. -/
def defaultCalls (api : Api) (unit : UNIT) : List DriverCall :=
  DriverCall.SetEts unit.handle api.PS2000A_ETS_OFF 0 0 ::
    (List.range unit.channelCount.toNat).map (fun i =>
      DriverCall.SetChannel unit.handle (api.PS2000A_CHANNEL_A + i)
        (channelSetting unit (api.PS2000A_CHANNEL_A + i)).enabled
        (channelSetting unit (api.PS2000A_CHANNEL_A + i)).DCcoupled
        (channelSetting unit (api.PS2000A_CHANNEL_A + i)).range)

/-- The facets `CollectRapidBlock` hands to `SetTrigger`. -/
def rapidFacets (api : Api) (unit : UNIT) (triggerVoltage : Int) : List DriverCall :=
  triggerFacets unit (some [sourceDetails api triggerVoltage 256]) 1
    (some [conditionsOn api api.PS2000A_CONDITION_TRUE api.PS2000A_CONDITION_DONT_CARE]) 1
    (directionsOn api api.PS2000A_RISING) zeroPwq 0 0 0 none 0

/-- The actions of `CollectRapidBlock` up to the start of the run: the defaults,
the first `facets` trigger facets, the segment set-up for `nCaptures` captures and
`ps2000aRunBlock` for 1000 samples on timebase 160. -/
def rapidSetUp (api : Api) (unit : UNIT) (triggerVoltage : Int) (facets : Nat)
    (nCaptures : Int) : List Action :=
  (defaultCalls api unit).map Action.call ++
  ((rapidFacets api unit triggerVoltage).take facets).map Action.call ++
  [Action.call (.GetMaxSegments unit.handle),
   Action.call (.MemorySegments unit.handle nCaptures),
   Action.call (.SetNoOfCaptures unit.handle nCaptures),
   Action.call (.RunBlock unit.handle 0 1000 160 1 0)]

/-- The actions of `CollectRapidBlock` after the wait: the arrays and one buffer
of 1000 samples per enabled channel and capture are allocated, every buffer is
bound to its channel and segment with `ps2000aSetDataBuffer`, the values are
fetched in bulk, the driver is stopped and everything is released. -/
def rapidFetch (api : Api) (unit : UNIT) (nCaptures : Int) : List Action :=
  [Action.malloc .rapidArray unit.channelCount,
   Action.malloc .overflow (unit.channelCount * nCaptures)] ++
  (List.range unit.channelCount.toNat).map (fun ch => Action.malloc (.rapidRow ch) nCaptures) ++
  (enabledChannels unit).flatMap (fun ch =>
    (List.range nCaptures.toNat).map (fun capture =>
      Action.malloc (.rapidBuffers ch capture) 1000)) ++
  (enabledChannels unit).flatMap (fun ch =>
    (List.range nCaptures.toNat).map (fun capture =>
      Action.call (.SetDataBuffer unit.handle ch (some (.rapidBuffers ch capture)) 1000 capture
        api.PS2000A_RATIO_MODE_NONE))) ++
  [Action.call (.GetValuesBulk unit.handle 1000 0 (toUInt32 (nCaptures - 1)) 1
     api.PS2000A_RATIO_MODE_NONE (some .overflow)),
   Action.call (.Stop unit.handle),
   Action.free .overflow] ++
  (enabledChannels unit).flatMap (fun ch =>
    (List.range nCaptures.toNat).map (fun capture => Action.free (.rapidBuffers ch capture))) ++
  (List.range unit.channelCount.toNat).map (fun ch => Action.free (.rapidRow ch)) ++
  [Action.free .rapidArray]

/-! ## Allocation and binding of the sample buffers -/

/-- Whether a buffer is one of the analogue sample buffers: a driver buffer
`buffers[k]` or a snapshot buffer `appBuffers[k]`. -/
def BufferId.analogue : BufferId → Bool
  | .buffers _ => true
  | .appBuffers _ => true
  | _ => false

/-- Whether an action allocates an analogue sample buffer or hands one to the
driver in a bind call. -/
def Action.analogue : Action → Bool
  | .malloc b _ => b.analogue
  | .call (.SetDataBuffers _ _ bufferMax bufferMin _ _ _) =>
    (bufferMax.toList ++ bufferMin.toList).any BufferId.analogue
  | .call (.SetDataBuffer _ _ buffer _ _ _) => buffer.toList.any BufferId.analogue
  | _ => false

/-- The channel, the buffers and the length a bind call (`ps2000aSetDataBuffers` or
`ps2000aSetDataBuffer`) hands to the driver; a null pointer is no buffer. -/
def DriverCall.binding : DriverCall → Option (Int × List BufferId × Int)
  | .SetDataBuffers _ channel bufferMax bufferMin bufferLth _ _ =>
    some (channel, bufferMax.toList ++ bufferMin.toList, bufferLth)
  | .SetDataBuffer _ channel buffer bufferLth _ _ => some (channel, buffer.toList, bufferLth)
  | _ => none

/-- The sample count a run-start call requests: the pre-trigger plus the
post-trigger samples of `ps2000aRunBlock`, the overview buffer size of
`ps2000aRunStreaming`. -/
def DriverCall.runStart : DriverCall → Option Int
  | .RunBlock _ noOfPreTriggerSamples noOfPostTriggerSamples _ _ _ =>
    some (noOfPreTriggerSamples + noOfPostTriggerSamples)
  | .RunStreaming _ _ _ _ _ _ _ _ overviewBufferSize => some overviewBufferSize
  | _ => none

/-- The actions `added` by an acquisition agree on the sample count `N`: every bind
call that passes a buffer passes the length `N`, every buffer it passes is
allocated in `added` with `N` elements and with no other size, and the run is
started in `added`, for `N` samples each time. -/
def sizedFor (N : Int) (added : List Action) : Prop :=
  (∀ c channel buffers len, Action.call c ∈ added →
    c.binding = some (channel, buffers, len) → buffers ≠ [] →
    len = N ∧ ∀ b ∈ buffers, Action.malloc b N ∈ added ∧
      ∀ n, Action.malloc b n ∈ added → n = N) ∧
  (∃ c, Action.call c ∈ added ∧ c.runStart = some N) ∧
  (∀ c n, Action.call c ∈ added → c.runStart = some n → n = N)

/-- What one action does to the buffers the driver holds for `channel`: a bind call
on the channel replaces them by the buffers it passes (by nothing when it passes
null pointers); any other action leaves them. -/
def holdStep (channel : Int) (held : List BufferId) (a : Action) : List BufferId :=
  match a with
  | .call c =>
    match c.binding with
    | some (ch, buffers, _) => if ch = channel then buffers else held
    | none => held
  | _ => held

/-- The buffers the driver is left holding for `channel` by a sequence of actions
that starts with nothing bound. -/
def heldBuffers (acts : List Action) (channel : Int) : List BufferId :=
  acts.foldl (holdStep channel) []

/-- Whether an action is a bind call that passes null pointers only. -/
def Action.clears : Action → Bool
  | .call c =>
    match c.binding with
    | some (_, buffers, _) => buffers.isEmpty
    | none => false
  | _ => false

/-- Inputs of a rapid block run on a device with 32 segments whose completion
callback arrives with `PICO_OK` before any key press. -/
def readyRapidInputs : RapidInputs :=
  { maxSegments := 32, duringRun := none, wait := [{ callback := some PICO_OK, kbhit := false }],
    completedCaptures := 0 }

/-- The digital snapshot table expected after the `AGGREGATED` copy loop ran over
the ports below `count`: the two slots of every port hold the result of the
guarded copy, every other slot is as before. -/
def aggregatedResult (app driver : BufferTable) (startIndex noOfSamples : Nat) (count : Nat) :
    BufferTable :=
  fun slot =>
    if slot / 2 < count then slotResult (app slot) (driver slot) startIndex noOfSamples
    else app slot

/-- The trace of `BlockDataHandler` when the timebase search begins: the buffers of
the mode are allocated and bound. -/
def blockBound (api : Api) (drv : Driver) (unit : UNIT) (mode : MODE) (etsModeSet : Int)
    (tr : Trace) : Trace :=
  let tr₁ := if mode = .ANALOGUE ∨ mode = .MIXED then
      blockBindAnalogue api drv unit BUFFER_SIZE tr else tr
  let tr₂ := if mode = .ANALOGUE ∧ etsModeSet = TRUE then
      (callDriver drv (tr₁ ++ [Event.malloc .etsTime BUFFER_SIZE])
        (.SetEtsTimeBuffer unit.handle (some .etsTime) BUFFER_SIZE)).2
    else tr₁
  if mode = .DIGITAL ∨ mode = .MIXED then
    blockBindDigital api drv unit BUFFER_SIZE tr₂ else tr₂

/-- The globals of `BlockDataHandler` when the wait loop begins: the accepted
timebase is stored, the ready flag is cleared, and a completion callback
delivered while `ps2000aRunBlock` executes has run. -/
def blockArmed (api : Api) (inp : BlockInputs) (g : Globals) (timebase : Int) : Globals :=
  match inp.duringRun with
  | some status => CallBackBlock api { g with timebase := timebase, g_ready := FALSE } status
  | none => { g with timebase := timebase, g_ready := FALSE }

/-- The value of `sampleCount` that bounds the export loops of `BlockDataHandler`:
what `ps2000aGetValues` wrote back, clipped to `BUFFER_SIZE` in the analogue
modes; the initial `BUFFER_SIZE` when nothing was fetched. -/
def blockSampleCount (inp : BlockInputs) (mode : MODE) (fetched : Bool) : Int :=
  if fetched then
    if mode = .ANALOGUE ∨ mode = .MIXED then min (toInt32 inp.valuesReturned) BUFFER_SIZE
    else toInt32 inp.valuesReturned
  else BUFFER_SIZE

/-- The actions of `BlockDataHandler` from the start of the run on. -/
def blockTail (api : Api) (unit : UNIT) (mode : MODE) (etsModeSet oversample timebase : Int)
    (fetched : Bool) : List Action :=
  [Action.call (.RunBlock unit.handle 0 BUFFER_SIZE timebase oversample 0)] ++
  (if fetched then
    [Action.call (.GetValues unit.handle 0 BUFFER_SIZE 10 api.PS2000A_RATIO_MODE_NONE 0)]
   else []) ++
  [Action.call (.Stop unit.handle)] ++
  (blockFrees unit mode etsModeSet).map Event.action ++
  (clearCalls api unit).map Action.call

/-! ## The digital display values -/

/-- The bit pattern of a sample promoted to `int`: its value modulo 2^32. -/
def bits (x : Int) : Nat := (x % 4294967296).toNat

/-- The 16-bit pattern of a sample: its value modulo 2^16. -/
def bits16 (x : Int) : Nat := (x % 65536).toNat

/-- The read `table[slot][i]` of one sample: `none` for a null buffer or an index
past its end. -/
def sampleAt (table : BufferTable) (slot i : Nat) : Option Int :=
  (table slot).bind (fun b => b[i]?)

/-- The `uint16_t` value `portValue` of the `DIGITAL` branch of the print loop of
`StreamDataHandler`, from the samples of port 0 and port 1:
`portValue = 0x00ff & port1; portValue <<= 8; portValue |= 0x00ff & port0;`. -/
def streamPortValue (port0 port1 : Int) : Nat :=
  let portValue₁ := (0x00ff &&& bits port1) % 65536
  let portValue₂ := (portValue₁ <<< 8) % 65536
  (portValue₂ ||| (0x00ff &&& bits port0)) % 65536

/-- The value the `DIGITAL` branch displays at sample index `i`, read from
`appDigiBuffers[1][i]` and `appDigiBuffers[0][i]`. -/
def streamDigitalValue (appDigiBuffers : BufferTable) (i : Nat) : Option Nat :=
  match sampleAt appDigiBuffers 1 i, sampleAt appDigiBuffers 0 i with
  | some port1, some port0 => some (streamPortValue port0 port1)
  | _, _ => none

/-- The `uint16_t` value `portValueOR` of the `AGGREGATED` branch:
`portValueOR = 0x00ff & slot2; portValueOR <<= 8; portValueOR |= 0x00ff & slot0;`. -/
def portValueOR (slot0 slot2 : Int) : Nat :=
  let portValueOR₁ := (0x00ff &&& bits slot2) % 65536
  let portValueOR₂ := (portValueOR₁ <<< 8) % 65536
  (portValueOR₂ ||| (0x00ff &&& bits slot0)) % 65536

/-- The `uint16_t` value `portValueAND` of the `AGGREGATED` branch:
`portValueAND = 0x00ff & slot3; portValueAND <<= 8; portValueAND |= 0x00ff & slot1;`. -/
def portValueAND (slot1 slot3 : Int) : Nat :=
  let portValueAND₁ := (0x00ff &&& bits slot3) % 65536
  let portValueAND₂ := (portValueAND₁ <<< 8) % 65536
  (portValueAND₂ ||| (0x00ff &&& bits slot1)) % 65536

/-- The pair of values the `AGGREGATED` branch displays at sample index `i`: the
OR word from `appDigiBuffers[2][i]` and `appDigiBuffers[0][i]`, the AND word from
`appDigiBuffers[3][i]` and `appDigiBuffers[1][i]`. -/
def streamAggregatedValues (appDigiBuffers : BufferTable) (i : Nat) : Option (Nat × Nat) :=
  match sampleAt appDigiBuffers 2 i, sampleAt appDigiBuffers 0 i,
      sampleAt appDigiBuffers 3 i, sampleAt appDigiBuffers 1 i with
  | some slot2, some slot0, some slot3, some slot1 =>
    some (portValueOR slot0 slot2, portValueAND slot1 slot3)
  | _, _, _, _ => none

/-- The `uint16_t` value `digiValue` of `BlockDataHandler` (display and export
loops), from the samples of port 0 and port 1:
`digiValue = 0x00ff & port1; digiValue <<= 8; digiValue |= port0;`. -/
def blockDigiValue (port0 port1 : Int) : Nat :=
  let digiValue₁ := (0x00ff &&& bits port1) % 65536
  let digiValue₂ := (digiValue₁ <<< 8) % 65536
  (digiValue₂ ||| bits port0) % 65536

/-- The value `BlockDataHandler` displays and exports at sample index `i`, read
from `digiBuffer[1][i]` and `digiBuffer[0][i]`. -/
def blockDigitalValue (digiBuffer : BufferTable) (i : Nat) : Option Nat :=
  match sampleAt digiBuffer 1 i, sampleAt digiBuffer 0 i with
  | some port1, some port0 => some (blockDigiValue port0 port1)
  | _, _ => none

/-- The bit test of the display and export loops:
`(0x8000 >> bit) & value ? 1 : 0`. -/
def unpackBit (value bit : Nat) : Nat :=
  if (0x8000 >>> bit) &&& value ≠ 0 then 1 else 0

/-- The word of the claims: the low byte of the 16-bit sample of port 1 above the
low byte of the 16-bit sample of port 0, `((p1 & 0xFF) << 8) | (p0 & 0xFF)`. -/
def packLowBytes (port0 port1 : Int) : Nat :=
  ((bits16 port1 &&& 0xFF) <<< 8) ||| (bits16 port0 &&& 0xFF)

/-- Digital snapshot buffers of three samples in the four slots of the two ports. -/
def sampleDigitalTable : BufferTable := fun slot =>
  if slot = 0 then some [0x00F0, 0x01FF, -1]
  else if slot = 1 then some [0x0010, 0x0100, 0]
  else if slot = 2 then some [0x00A5, 0x7F00, 3]
  else if slot = 3 then some [0x0005, 0x0000, 1]
  else none

/-- The sample unit as a mixed-signal variant with two digital ports. -/
def sampleMsoUnit : UNIT := { sampleUnit 32512 with digitalPorts := 2 }

/-- Inputs of a block run in which the first timebase is accepted, the completion
callback arrives with `PICO_OK` before any key press, and 1024 samples come back. -/
def readyBlockInputs : BlockInputs :=
  { timebaseFuel := 1, duringRun := none,
    wait := [{ callback := some PICO_OK, kbhit := false }],
    valuesReturned := 1024 }

/-- A poll whose notification carries no samples and reports auto-stop. -/
def stopPoll : Poll :=
  { elapsed3 := false, driverData := fun _ _ => 0, driverDigData := fun _ _ => 0,
    notification := some { noOfSamples := 0, startIndex := 0, overflow := 0, triggerAt := 0,
                           triggered := 0, autoStop := 1 } }

/-- Inputs of a streaming run that the driver stops at the first poll. -/
def stopStreamInputs : StreamInputs :=
  { init := fun _ _ => 0, polls := [stopPoll] }

/-! ## Cancelled runs, release of the buffers and the order of the driver calls -/

/-- Inputs of a block run that the operator cancels: the first timebase is
accepted, no completion callback arrives and a key is pressed. -/
def cancelledBlockInputs : BlockInputs :=
  { timebaseFuel := 1, duringRun := none, wait := [{ callback := none, kbhit := true }],
    valuesReturned := 0 }

/-- Inputs of a block run that the driver cancels: the completion callback arrives
with `PICO_CANCELLED` (status 58 in the vendor header), then a key is pressed. -/
def driverCancelledBlockInputs : BlockInputs :=
  { timebaseFuel := 1, duringRun := none,
    wait := [{ callback := some 58, kbhit := false }, { callback := none, kbhit := true }],
    valuesReturned := 1024 }

/-- In a list of actions, every release comes after a `ps2000aStop` call on the
handle. -/
def stopBeforeFrees (handle : Int) (added : List Action) : Prop :=
  ∀ pre b post, added = pre ++ Action.free b :: post → Action.call (.Stop handle) ∈ pre

/-- A driver that rejects the timebases below 11 and accepts every other call. -/
def acceptFrom11 : Driver := fun _ c =>
  match c with
  | .GetTimebase _ timebase _ _ _ => if timebase < 11 then 14 else PICO_OK
  | _ => PICO_OK

/-- Inputs of a block run with room for ten timebases, whose completion callback
arrives with `PICO_OK` before any key press. -/
def searchBlockInputs : BlockInputs :=
  { timebaseFuel := 10, duringRun := none,
    wait := [{ callback := some PICO_OK, kbhit := false }], valuesReturned := 1024 }

/-- The sample indices the summary loop of `BlockDataHandler` reads:
`for (i = offset; i < offset+10; i++)`. -/
def summaryIndices (offset : Int) : List Int :=
  (List.range 10).map (fun (k : Nat) => offset + (k : Int))

/-- The sample indices an export loop of `BlockDataHandler` reads:
`for (i = 0; i < sampleCount; i++)`. -/
def exportIndices (sampleCount : Int) : List Int :=
  (List.range sampleCount.toNat).map (fun (k : Nat) => (k : Int))

/-- The sample indices `BlockDataHandler` reads from its buffers (with the export
files open): those of the summary loop and of the export loops when the block
was fetched, none otherwise. -/
def blockReadIndices (offset : Int) (res : BlockResult) : List Int :=
  if res.fetched then summaryIndices offset ++ exportIndices res.sampleCount else []

/-- Inputs of a block run whose completion callback arrives with `PICO_OK` and in
which `ps2000aGetValues` writes back a sample count of 2000. -/
def oversizedBlockInputs : BlockInputs :=
  { timebaseFuel := 1, duringRun := none,
    wait := [{ callback := some PICO_OK, kbhit := false }], valuesReturned := 2000 }

/-- The number of captures `CollectRapidBlock` requests: ten, or the number of
segments `ps2000aGetMaxSegments` wrote when that is smaller. -/
def rapidRequested (inp : RapidInputs) : Int :=
  if 10 > toUInt32 inp.maxSegments then toUInt32 inp.maxSegments else 10

/-- The value of `nCaptures` in `CollectRapidBlock` after the wait: the completed
captures, cast to `uint16_t`, when the run was aborted, the requested captures
otherwise. -/
def rapidCaptures (inp : RapidInputs) (aborted : Bool) : Int :=
  if aborted then toUInt16 (toUInt32 inp.completedCaptures) else rapidRequested inp

/-- The globals of `CollectRapidBlock` when the wait loop begins: the timebase is
160, a completion callback delivered while `ps2000aRunBlock` executes has run, and
then the ready flag is cleared. -/
def rapidArmed (api : Api) (inp : RapidInputs) (g : Globals) : Globals :=
  { (match inp.duringRun with
      | some status => CallBackBlock api { g with timebase := 160 } status
      | none => { g with timebase := 160 }) with g_ready := 0 }

/-- Whether an action allocates memory or fetches samples from the driver. -/
def Action.allocatesOrReads : Action → Bool
  | .malloc _ _ => true
  | .call (.GetValues ..) => true
  | .call (.GetValuesBulk ..) => true
  | _ => false

/-- Inputs of a rapid block run on a device with 32 segments that the operator
cancels with a key press when four captures are complete. -/
def cancelledRapidInputs : RapidInputs :=
  { maxSegments := 32, duringRun := none, wait := [{ callback := none, kbhit := true }],
    completedCaptures := 4 }

/-- Inputs of a block run in which the completion callback arrives with `PICO_OK`
while `ps2000aRunBlock` executes and not again. -/
def duringRunBlockInputs : BlockInputs :=
  { timebaseFuel := 1, duringRun := some PICO_OK,
    wait := [{ callback := none, kbhit := false }, { callback := none, kbhit := true }],
    valuesReturned := 1024 }

/-- Inputs of a rapid block run in which the completion callback arrives with
`PICO_OK` while `ps2000aRunBlock` executes and not again; a key is pressed later
and no capture is reported complete. -/
def duringRunRapidInputs : RapidInputs :=
  { maxSegments := 32, duringRun := some PICO_OK,
    wait := [{ callback := none, kbhit := false }, { callback := none, kbhit := true }],
    completedCaptures := 0 }

/-- The three steps of a session the ordering of the driver calls is about. -/
inductive Step
  | arm
  | bind
  | run
  deriving DecidableEq, Repr

/-- The step a driver call belongs to: a trigger facet submitted by `SetTrigger`
arms the trigger, a bind call that passes a buffer binds, `ps2000aRunBlock` and
`ps2000aRunStreaming` start the run; every other call, a bind call with null
pointers among them, belongs to none. -/
def DriverCall.step : DriverCall → Option Step
  | .SetTriggerChannelProperties .. => some .arm
  | .SetTriggerChannelConditions .. => some .arm
  | .SetTriggerChannelDirections .. => some .arm
  | .SetTriggerDelay .. => some .arm
  | .SetPulseWidthQualifier .. => some .arm
  | .SetTriggerDigitalPortProperties .. => some .arm
  | .SetDataBuffers _ _ bufferMax bufferMin _ _ _ =>
    if bufferMax.isSome || bufferMin.isSome then some .bind else none
  | .SetDataBuffer _ _ buffer _ _ _ => if buffer.isSome then some .bind else none
  | .RunBlock .. => some .run
  | .RunStreaming .. => some .run
  | _ => none

/-- The step of an action; allocations and releases belong to none. -/
def Action.step : Action → Option Step
  | .call c => c.step
  | _ => none

/-- The steps of a list of actions, in order. -/
def steps (l : List Action) : List Step := l.filterMap Action.step

/-- The trace `tr'` extends `tr` by actions whose steps are `l`. -/
def stepsFrom (tr tr' : Trace) (l : List Step) : Prop :=
  ∃ added, actions tr' = actions tr ++ added ∧ steps added = l

/-- The session arms the trigger, then binds its buffers, then starts the run. -/
def armBindRun (tr : Trace) (s : Session) : Prop :=
  ∃ a b : Nat, stepsFrom tr s.tr (List.replicate a .arm ++ List.replicate b .bind ++ [.run])

/-- The session only arms the trigger: it binds nothing and starts no run. -/
def armOnly (tr : Trace) (s : Session) : Prop :=
  ∃ a : Nat, stepsFrom tr s.tr (List.replicate a .arm)

/-- The session arms the trigger, then starts the run, then binds its buffers. -/
def armRunBind (tr : Trace) (s : Session) : Prop :=
  ∃ a b : Nat, stepsFrom tr s.tr (List.replicate a .arm ++ .run :: List.replicate b .bind)

/-- The place of a step in the order of the specification: bind, then arm, then
run-start. -/
def Step.specRank : Step → Nat
  | .bind => 0
  | .arm => 1
  | .run => 2

/-- The order of the specification on a list of steps: every bind comes before every
arm and every arm before every run-start. -/
def specBindArmRun (l : List Step) : Prop :=
  l.Pairwise (fun x y => x.specRank ≤ y.specRank)

/-- The order of the specification can be checked on a list of steps. -/
instance (l : List Step) : Decidable (specBindArmRun l) := by
  unfold specBindArmRun
  infer_instance

/-! ## Facts about machine integers and the range table -/

theorem toInt16_of_mem {x : Int} (h₁ : -32768 ≤ x) (h₂ : x ≤ 32767) : toInt16 x = x := by
  unfold toInt16; omega

theorem toInt32_of_mem {x : Int} (h₁ : -2147483648 ≤ x) (h₂ : x ≤ 2147483647) :
    toInt32 x = x := by
  unfold toInt32; omega

theorem toInt16_mem (x : Int) : -32768 ≤ toInt16 x ∧ toInt16 x ≤ 32767 := by
  unfold toInt16; omega

/-- Every index of the table holds a range between 10 mV and 50 V; the first
eleven hold at most 20 V. -/
theorem rangeAt_of_index {r : Int} (h₀ : 0 ≤ r) (h₁ : r ≤ 11) :
    ∃ range, inputRanges[r.toNat]? = some range ∧ rangeAt r = some range ∧
      10 ≤ range ∧ range ≤ 50000 ∧ (r ≤ 10 → range ≤ 20000) := by
  interval_cases r <;> simp [rangeAt, inputRanges]

/-- Truncating division twice, on non-negative codes: the loss of the round trip. -/
theorem ediv_roundTrip_bound {c M R : Int} (hc : 0 ≤ c) (hM : 0 < M) (hR : 0 < R) :
    0 ≤ c * R / M * M / R ∧ c * R / M * M / R ≤ c ∧
      (c - c * R / M * M / R) * R ≤ M + R - 2 := by
  have hcR : 0 ≤ c * R := Int.mul_nonneg hc hR.le
  have h1 := Int.ediv_add_emod (c * R) M
  have h2 := Int.emod_nonneg (c * R) hM.ne'
  have h3 := Int.emod_lt_of_pos (c * R) hM
  have hq : 0 ≤ c * R / M := Int.ediv_nonneg hcR hM.le
  have hb : 0 ≤ c * R / M * M := Int.mul_nonneg hq hM.le
  have h4 := Int.ediv_add_emod (c * R / M * M) R
  have h5 := Int.emod_nonneg (c * R / M * M) hR.ne'
  have h6 := Int.emod_lt_of_pos (c * R / M * M) hR
  have hcode : 0 ≤ c * R / M * M / R := Int.ediv_nonneg hb hR.le
  refine ⟨hcode, ?_, ?_⟩
  · have : R * (c * R / M * M / R) ≤ R * c := by nlinarith
    exact le_of_mul_le_mul_left this hR
  · nlinarith

/-- The product of a 16-bit code and a table range fits in 32 bits. -/
theorem code_mul_range_mem {c range : Int} (hc₁ : -32768 ≤ c) (hc₂ : c ≤ 32767)
    (hR₁ : 10 ≤ range) (hR₂ : range ≤ 50000) :
    -2147483648 < c * range ∧ c * range < 2147483648 := by
  constructor <;> nlinarith

/-- The value of `adc_to_mv` on a 16-bit code: the exact truncating quotient. -/
theorem adc_to_mv_of_code {c r range : Int} {unit : UNIT} (hrange : rangeAt r = some range)
    (hr₁ : 0 ≤ r) (hr₂ : r ≤ 11) (hR₁ : 10 ≤ range) (hR₂ : range ≤ 50000)
    (hc₁ : -32768 ≤ c) (hc₂ : c ≤ 32767) (hM : unit.maxValue ≠ 0) :
    adc_to_mv c r unit = some ((c * range).tdiv unit.maxValue) := by
  obtain ⟨hp₁, hp₂⟩ := code_mul_range_mem hc₁ hc₂ hR₁ hR₂
  have e1 : toInt32 r = r := toInt32_of_mem (by omega) (by omega)
  have e2 : toInt32 c = c := toInt32_of_mem (by omega) (by omega)
  have e3 : toInt32 (c * range) = c * range := toInt32_of_mem (by omega) (by omega)
  have e4 : ¬ (c * range = -2147483648 ∧ unit.maxValue = -1) := by omega
  simp only [adc_to_mv, e1, hrange, e2, e3, if_neg hM, if_neg e4]

/-- The value of `mv_to_adc` on 16-bit arguments: the truncating quotient, narrowed
to 16 bits. -/
theorem mv_to_adc_of_mem {m r range : Int} {unit : UNIT} (hrange : rangeAt r = some range)
    (hr₁ : 0 ≤ r) (hr₂ : r ≤ 11) (hR₁ : 10 ≤ range)
    (hm₁ : -32768 ≤ m) (hm₂ : m ≤ 32767)
    (hM₁ : -32768 ≤ unit.maxValue) (hM₂ : unit.maxValue ≤ 32767) :
    mv_to_adc m r unit = some (toInt16 ((m * unit.maxValue).tdiv range)) := by
  have e1 : toInt16 r = r := toInt16_of_mem (by omega) (by omega)
  have e2 : toInt16 m = m := toInt16_of_mem hm₁ hm₂
  have hp : -2147483648 ≤ m * unit.maxValue ∧ m * unit.maxValue ≤ 2147483647 := by
    constructor <;> nlinarith
  have e3 : toInt32 (m * unit.maxValue) = m * unit.maxValue := toInt32_of_mem hp.1 hp.2
  have e4 : range ≠ 0 := by omega
  simp only [mv_to_adc, e1, hrange, e2, e3, if_neg e4]

/-- The two truncating divisions of the round trip, for a non-negative code. -/
theorem tdiv_roundTrip_of_nonneg {c M R : Int} (hc : 0 ≤ c) (hM : 0 < M) (hR : 0 < R) :
    (c * R).tdiv M = c * R / M ∧ ((c * R).tdiv M * M).tdiv R = c * R / M * M / R := by
  have hcR : 0 ≤ c * R := Int.mul_nonneg hc hR.le
  have e1 : (c * R).tdiv M = c * R / M := Int.tdiv_eq_ediv hcR hM.le
  have hq : 0 ≤ c * R / M := Int.ediv_nonneg hcR hM.le
  refine ⟨e1, ?_⟩
  rw [e1]
  exact Int.tdiv_eq_ediv (Int.mul_nonneg hq hM.le) hR.le

/-- The two truncating divisions of the round trip are odd functions of the code. -/
theorem tdiv_roundTrip_neg (c M R : Int) :
    ((-c) * R).tdiv M = -((c * R).tdiv M) ∧
      (((-c) * R).tdiv M * M).tdiv R = -(((c * R).tdiv M * M).tdiv R) := by
  have e1 : ((-c) * R).tdiv M = -((c * R).tdiv M) := by
    rw [Int.neg_mul, Int.neg_tdiv]
  refine ⟨e1, ?_⟩
  rw [e1, Int.neg_mul, Int.neg_tdiv]

/-- The loss of the exact round trip, for a code of either sign. -/
theorem tdiv_roundTrip_bound {c M R : Int} (hM : 0 < M) (hR : 0 < R) :
    |((c * R).tdiv M * M).tdiv R| ≤ |c| ∧
      (0 ≤ c → 0 ≤ ((c * R).tdiv M * M).tdiv R) ∧
      (c ≤ 0 → ((c * R).tdiv M * M).tdiv R ≤ 0) ∧
      |c - ((c * R).tdiv M * M).tdiv R| * R ≤ M + R - 2 ∧
      |(c * R).tdiv M| * M ≤ |c| * R := by
  have key : ∀ d : Int, 0 ≤ d →
      0 ≤ ((d * R).tdiv M * M).tdiv R ∧ ((d * R).tdiv M * M).tdiv R ≤ d ∧
      (d - ((d * R).tdiv M * M).tdiv R) * R ≤ M + R - 2 ∧
      0 ≤ (d * R).tdiv M ∧ (d * R).tdiv M * M ≤ d * R := by
    intro d hd
    obtain ⟨e1, e2⟩ := tdiv_roundTrip_of_nonneg hd hM hR
    obtain ⟨b1, b2, b3⟩ := ediv_roundTrip_bound hd hM hR
    rw [e2, e1]
    refine ⟨b1, b2, b3, Int.ediv_nonneg (Int.mul_nonneg hd hR.le) hM.le, ?_⟩
    exact Int.ediv_mul_le _ hM.ne'
  rcases le_total 0 c with hc | hc
  · obtain ⟨k1, k2, k3, k4, k5⟩ := key c hc
    refine ⟨?_, fun _ => k1, fun h => ?_, ?_, ?_⟩
    · rw [abs_of_nonneg k1, abs_of_nonneg hc]; exact k2
    · have : c = 0 := le_antisymm h hc
      subst this
      simp
    · rw [abs_of_nonneg (by omega)]; exact k3
    · rw [abs_of_nonneg k4, abs_of_nonneg hc]; exact k5
  · obtain ⟨k1, k2, k3, k4, k5⟩ := key (-c) (by omega)
    obtain ⟨n1, n2⟩ := tdiv_roundTrip_neg c M R
    rw [n2] at k1 k2 k3
    rw [n1] at k4 k5
    refine ⟨?_, fun h => ?_, fun _ => by omega, ?_, ?_⟩
    · rw [abs_of_nonpos (by omega), abs_of_nonpos hc]; omega
    · have : c = 0 := le_antisymm hc h
      subst this
      simp
    · rw [abs_of_nonpos (by omega)]
      have : -(c - ((c * R).tdiv M * M).tdiv R) = -c - -((c * R).tdiv M * M).tdiv R := by ring
      rw [this]; exact k3
    · rw [abs_of_nonpos (by omega), abs_of_nonpos hc]
      have : -(c * R).tdiv M * M ≤ -c * R := k5
      exact this

/-! ## Unit conversion: the claims -/

/-- C1, as stated, fails: on the 5 V range of a device with full-scale code 32512
the code 100 comes back as 97 (two truncating divisions), and on the 50 V range
the full-scale code 32512 comes back as -10102 (50000 mV do not fit the `int16_t`
argument of `mv_to_adc`). -/
theorem roundTrip_not_within_one :
    (roundTrip 100 8 (sampleUnit 32512) = some 97 ∧ ¬ |(97 : Int) - 100| ≤ 1) ∧
    (roundTrip 32512 11 (sampleUnit 32512) = some (-10102) ∧
      ¬ |(-10102 : Int) - 32512| ≤ 1) := by
  refine ⟨⟨by decide, by decide⟩, ⟨by decide, by decide⟩⟩

/-- C1 (amended): for a full-scale code `maxValue` in 1..32767, a range index `r`
in 0..10 and a code `c` with `|c| ≤ maxValue`, the round trip
`mv_to_adc(adc_to_mv(c, r), r)` is defined, has the sign of `c`, is no larger in
magnitude, and `|c - code| * inputRanges[r] ≤ maxValue + inputRanges[r] - 2`; in
particular it is within one code of `c` when `inputRanges[r] ≥ maxValue`. -/
theorem roundTrip_within_bound (c r : Int) (unit : UNIT)
    (hM : 0 < unit.maxValue) (hM16 : unit.maxValue ≤ 32767)
    (hr₀ : 0 ≤ r) (hr₁ : r ≤ 10) (hc : |c| ≤ unit.maxValue) :
    ∃ range code, inputRanges[r.toNat]? = some range ∧
      roundTrip c r unit = some code ∧
      |code| ≤ |c| ∧ (0 ≤ c → 0 ≤ code) ∧ (c ≤ 0 → code ≤ 0) ∧
      |c - code| * range ≤ unit.maxValue + range - 2 ∧
      (unit.maxValue ≤ range → |c - code| ≤ 1) := by
  obtain ⟨range, hidx, hrange, hR₁, hR₂, hR₃⟩ := rangeAt_of_index hr₀ (by omega : r ≤ 11)
  have hR₄ : range ≤ 20000 := hR₃ hr₁
  obtain ⟨hc₁, hc₂⟩ := abs_le.mp hc
  have hadc : adc_to_mv c r unit = some ((c * range).tdiv unit.maxValue) :=
    adc_to_mv_of_code hrange hr₀ (by omega) hR₁ hR₂ (by omega) (by omega) hM.ne'
  obtain ⟨b1, b2, b3, b4, b5⟩ :=
    tdiv_roundTrip_bound (c := c) hM (by omega : (0 : Int) < range)
  have hmv : |(c * range).tdiv unit.maxValue| ≤ range := by
    have h1 : |c| * range ≤ unit.maxValue * range :=
      Int.mul_le_mul_of_nonneg_right hc (by omega)
    have h2 : |(c * range).tdiv unit.maxValue| * unit.maxValue ≤ range * unit.maxValue := by
      rw [Int.mul_comm range]; exact le_trans b5 h1
    exact le_of_mul_le_mul_right h2 hM
  obtain ⟨hmv₁, hmv₂⟩ := abs_le.mp hmv
  have hmv_to : mv_to_adc ((c * range).tdiv unit.maxValue) r unit
      = some (toInt16 (((c * range).tdiv unit.maxValue * unit.maxValue).tdiv range)) :=
    mv_to_adc_of_mem hrange hr₀ (by omega) hR₁ (by omega) (by omega) (by omega) hM16
  obtain ⟨hcode₁, hcode₂⟩ := abs_le.mp (le_trans b1 hc)
  have hnarrow : toInt16 (((c * range).tdiv unit.maxValue * unit.maxValue).tdiv range)
      = ((c * range).tdiv unit.maxValue * unit.maxValue).tdiv range :=
    toInt16_of_mem (by omega) (by omega)
  refine ⟨range, ((c * range).tdiv unit.maxValue * unit.maxValue).tdiv range, hidx, ?_,
    b1, b2, b3, b4, ?_⟩
  · simp only [roundTrip, hadc, Option.some_bind, hmv_to, hnarrow]
  · intro hle
    by_contra hcon
    have h2 : 2 ≤ |c - ((c * range).tdiv unit.maxValue * unit.maxValue).tdiv range| := by
      omega
    have h3 : 2 * range ≤
        |c - ((c * range).tdiv unit.maxValue * unit.maxValue).tdiv range| * range :=
      Int.mul_le_mul_of_nonneg_right h2 (by omega)
    omega

/-- The amended round-trip bound at the code 100 on the 5 V range of a device with
full-scale code 32512. -/
theorem roundTrip_within_bound_witness :
    ∃ range code, inputRanges[(8 : Int).toNat]? = some range ∧
      roundTrip 100 8 (sampleUnit 32512) = some code ∧
      |code| ≤ |(100 : Int)| ∧ ((0 : Int) ≤ 100 → 0 ≤ code) ∧ ((100 : Int) ≤ 0 → code ≤ 0) ∧
      |100 - code| * range ≤ (sampleUnit 32512).maxValue + range - 2 ∧
      ((sampleUnit 32512).maxValue ≤ range → |100 - code| ≤ 1) :=
  roundTrip_within_bound 100 8 (sampleUnit 32512) (by decide) (by decide) (by decide)
    (by decide) (by decide)

/-- C2, as stated, fails: for 1000 mV on the 50 mV range of a device with full-scale
code 32512 the quotient is 650240, and `mv_to_adc` returns -5120. -/
theorem mv_to_adc_not_quotient :
    inputRanges[2]? = some 50 ∧
    ((1000 : Int) * (sampleUnit 32512).maxValue).tdiv 50 = 650240 ∧
    mv_to_adc 1000 2 (sampleUnit 32512) = some (-5120) := by
  refine ⟨by decide, by decide, by decide⟩

/-- C2 (amended): for a 16-bit millivolt value `m`, a range index `r` in 0..11 and a
16-bit `maxValue`, `mv_to_adc(m, r)` returns the truncating quotient
`(m * maxValue) / inputRanges[r]` narrowed to `int16_t`; it is the quotient itself
whenever the quotient lies in -32768..32767. -/
theorem mv_to_adc_quotient (m r : Int) (unit : UNIT)
    (hm₁ : -32768 ≤ m) (hm₂ : m ≤ 32767) (hr₀ : 0 ≤ r) (hr₁ : r ≤ 11)
    (hM₁ : -32768 ≤ unit.maxValue) (hM₂ : unit.maxValue ≤ 32767) :
    ∃ range, inputRanges[r.toNat]? = some range ∧
      mv_to_adc m r unit = some (toInt16 ((m * unit.maxValue).tdiv range)) ∧
      (-32768 ≤ (m * unit.maxValue).tdiv range ∧ (m * unit.maxValue).tdiv range ≤ 32767 →
        mv_to_adc m r unit = some ((m * unit.maxValue).tdiv range)) := by
  obtain ⟨range, hidx, hrange, hR₁, _, _⟩ := rangeAt_of_index hr₀ hr₁
  have h := @mv_to_adc_of_mem m r range unit hrange hr₀ hr₁ hR₁ hm₁ hm₂ hM₁ hM₂
  refine ⟨range, hidx, h, fun hq => ?_⟩
  rw [h, toInt16_of_mem hq.1 hq.2]

/-- The amended C2 at 1000 mV on the 5 V range of a device with full-scale code
32512, where the threshold is 6502. -/
theorem mv_to_adc_quotient_witness :
    ∃ range, inputRanges[(8 : Int).toNat]? = some range ∧
      mv_to_adc 1000 8 (sampleUnit 32512)
        = some (toInt16 ((1000 * (sampleUnit 32512).maxValue).tdiv range)) ∧
      (-32768 ≤ (1000 * (sampleUnit 32512).maxValue).tdiv range ∧
          (1000 * (sampleUnit 32512).maxValue).tdiv range ≤ 32767 →
        mv_to_adc 1000 8 (sampleUnit 32512)
          = some ((1000 * (sampleUnit 32512).maxValue).tdiv range)) :=
  mv_to_adc_quotient 1000 8 (sampleUnit 32512) (by decide) (by decide) (by decide)
    (by decide) (by decide) (by decide)

/-- C3: for a 16-bit code `c`, a range index `r` in 0..11 and `maxValue ≠ 0`, the
product `c * inputRanges[r]` lies strictly inside the `int32_t` range and
`adc_to_mv(c, r)` is the truncating quotient `(c * inputRanges[r]) / maxValue` of
the exact product. -/
theorem adc_to_mv_exact (c r : Int) (unit : UNIT)
    (hc₁ : -32768 ≤ c) (hc₂ : c ≤ 32767) (hr₀ : 0 ≤ r) (hr₁ : r ≤ 11)
    (hM : unit.maxValue ≠ 0) :
    ∃ range, inputRanges[r.toNat]? = some range ∧
      -2147483648 < c * range ∧ c * range < 2147483648 ∧
      adc_to_mv c r unit = some ((c * range).tdiv unit.maxValue) := by
  obtain ⟨range, hidx, hrange, hR₁, hR₂, _⟩ := rangeAt_of_index hr₀ hr₁
  obtain ⟨hp₁, hp₂⟩ := code_mul_range_mem hc₁ hc₂ hR₁ hR₂
  exact ⟨range, hidx, hp₁, hp₂, adc_to_mv_of_code hrange hr₀ hr₁ hR₁ hR₂ hc₁ hc₂ hM⟩

/-- C3 at the most negative code on the 50 V range. -/
theorem adc_to_mv_exact_witness :
    ∃ range, inputRanges[(11 : Int).toNat]? = some range ∧
      -2147483648 < (-32768 : Int) * range ∧ (-32768 : Int) * range < 2147483648 ∧
      adc_to_mv (-32768) 11 (sampleUnit 32512)
        = some (((-32768 : Int) * range).tdiv (sampleUnit 32512).maxValue) :=
  adc_to_mv_exact (-32768) 11 (sampleUnit 32512) (by decide) (by decide) (by decide)
    (by decide) (by decide)

/-- With a full-scale code of zero `adc_to_mv` has no value, whatever its
arguments: the division is by zero (or the table access is out of range). -/
theorem adc_to_mv_zero_maxValue (raw ch : Int) (unit : UNIT) (h : unit.maxValue = 0) :
    adc_to_mv raw ch unit = none := by
  unfold adc_to_mv
  cases rangeAt (toInt32 ch) <;> simp [h]

/-- The half of C4 that holds: `mv_to_adc` has a value for every argument, every
range index of the table and every profile. -/
theorem mv_to_adc_defined (mv r : Int) (unit : UNIT) (hr₀ : 0 ≤ r) (hr₁ : r ≤ 11) :
    (mv_to_adc mv r unit).isSome = true := by
  obtain ⟨range, _, hrange, hR₁, _, _⟩ := rangeAt_of_index hr₀ hr₁
  have e1 : toInt16 r = r := toInt16_of_mem (by omega) (by omega)
  have e4 : range ≠ 0 := by omega
  simp [mv_to_adc, e1, hrange, e4]

/-- The full-scale code `OpenDevice` leaves in the unit is the value
`ps2000aMaximumValue` wrote, and zero when it wrote nothing. -/
theorem OpenDevice_maxValue {api : Api} {drv : Driver} {out : OpenOutputs} {unit : UNIT}
    {g : Globals} {tr : Trace} {r : PICO_STATUS × UNIT × Globals × Trace}
    (h : OpenDevice api drv out unit g tr = some r) :
    r.2.1.maxValue = out.maximumValue.getD 0 := by
  unfold OpenDevice at h
  simp only at h
  split_ifs at h
  simp only [Option.some.injEq] at h
  subst h
  cases out.maximumValue <;> rfl

/-- C4, the code at the failing input: when `ps2000aMaximumValue` fails and writes
nothing, `OpenDevice` still returns `PICO_OK` and leaves `maxValue = 0`, and
`adc_to_mv` then has no value (division by zero), here for the code 100 on the 5 V
range. -/
theorem OpenDevice_then_adc_to_mv_undefined :
    (OpenDevice vendorApi rejectMaximumValue ⟨1, "2206B".toList, none⟩ blankUnit
        sampleGlobals []).map (fun r => (r.1, r.2.1.maxValue, adc_to_mv 100 8 r.2.1))
      = some (PICO_OK, 0, none) := by
  decide

/-! ## Trigger set-up: the claims -/

/-- C5: when every driver call succeeds, `SetTrigger` returns `PICO_OK` and issues
exactly, once each and in this order, the channel properties, the channel
conditions, the channel directions, the trigger delay, the pulse-width qualifier
and then the digital-port directions if and only if `unit->digitalPorts` is
non-zero. -/
theorem SetTrigger_order (drv : Driver) (unit : UNIT)
    (channelProperties : Option (List TRIGGER_CHANNEL_PROPERTIES)) (nChannelProperties : Int)
    (triggerConditions : Option (List TRIGGER_CONDITIONS)) (nTriggerConditions : Int)
    (directions : TRIGGER_DIRECTIONS) (pwq : PWQ) (delay auxOutputEnabled autoTriggerMs : Int)
    (digitalDirections : Option (List DIGITAL_CHANNEL_DIRECTIONS)) (nDigitalDirections : Int)
    (tr : Trace) (hok : ∀ t c, drv t c = PICO_OK) :
    SetTrigger drv unit channelProperties nChannelProperties triggerConditions
        nTriggerConditions directions pwq delay auxOutputEnabled autoTriggerMs
        digitalDirections nDigitalDirections tr
      = (PICO_OK, tr ++
          [Event.call (.SetTriggerChannelProperties unit.handle channelProperties
              nChannelProperties auxOutputEnabled autoTriggerMs) PICO_OK,
           Event.call (.SetTriggerChannelConditions unit.handle triggerConditions
              nTriggerConditions) PICO_OK,
           Event.call (.SetTriggerChannelDirections unit.handle directions.channelA
              directions.channelB directions.channelC directions.channelD directions.ext
              directions.aux) PICO_OK,
           Event.call (.SetTriggerDelay unit.handle delay) PICO_OK,
           Event.call (.SetPulseWidthQualifier unit.handle pwq.conditions pwq.nConditions
              pwq.direction pwq.lower pwq.upper pwq.type) PICO_OK] ++
          (if unit.digitalPorts ≠ 0 then
            [Event.call (.SetTriggerDigitalPortProperties unit.handle digitalDirections
              nDigitalDirections) PICO_OK]
           else [])) := by
  by_cases hd : unit.digitalPorts = 0 <;>
    simp [SetTrigger, callDriver, hok, hd]

/-- C5 on a unit with two digital ports and a driver that accepts every call. -/
theorem SetTrigger_order_witness :
    SetTrigger acceptAll { sampleUnit 32512 with digitalPorts := 2 } none 0 none 0
        zeroDirections zeroPwq 0 0 0 none 0 []
      = (PICO_OK, [] ++
          [Event.call (.SetTriggerChannelProperties 1 none 0 0 0) PICO_OK,
           Event.call (.SetTriggerChannelConditions 1 none 0) PICO_OK,
           Event.call (.SetTriggerChannelDirections 1 0 0 0 0 0 0) PICO_OK,
           Event.call (.SetTriggerDelay 1 0) PICO_OK,
           Event.call (.SetPulseWidthQualifier 1 none 0 0 0 0 0) PICO_OK] ++
          (if ({ sampleUnit 32512 with digitalPorts := 2 } : UNIT).digitalPorts ≠ 0 then
            [Event.call (.SetTriggerDigitalPortProperties 1 none 0) PICO_OK]
           else [])) :=
  SetTrigger_order acceptAll { sampleUnit 32512 with digitalPorts := 2 } none 0 none 0
    zeroDirections zeroPwq 0 0 0 none 0 [] (fun _ _ => rfl)

/-- C6: whatever the driver answers, `SetTrigger` submits a prefix of the facet
sequence: every facet before the last submitted one was accepted, the returned
status is the driver's status for the last submitted facet, nothing is submitted
after it, and the status is `PICO_OK` only if the whole sequence was submitted (and
accepted).  In particular, when the directions are rejected after the properties
and conditions were accepted, the trace ends with the directions call. -/
theorem SetTrigger_fail_fast (drv : Driver) (unit : UNIT)
    (channelProperties : Option (List TRIGGER_CHANNEL_PROPERTIES)) (nChannelProperties : Int)
    (triggerConditions : Option (List TRIGGER_CONDITIONS)) (nTriggerConditions : Int)
    (directions : TRIGGER_DIRECTIONS) (pwq : PWQ) (delay auxOutputEnabled autoTriggerMs : Int)
    (digitalDirections : Option (List DIGITAL_CHANNEL_DIRECTIONS)) (nDigitalDirections : Int)
    (tr : Trace) :
    ∃ (done : List DriverCall) (last : DriverCall) (rest : List DriverCall)
      (status : PICO_STATUS),
      triggerFacets unit channelProperties nChannelProperties triggerConditions
        nTriggerConditions directions pwq delay auxOutputEnabled autoTriggerMs
        digitalDirections nDigitalDirections = done ++ last :: rest ∧
      SetTrigger drv unit channelProperties nChannelProperties triggerConditions
        nTriggerConditions directions pwq delay auxOutputEnabled autoTriggerMs
        digitalDirections nDigitalDirections tr
        = (status, tr ++ done.map (fun c => Event.call c PICO_OK) ++ [Event.call last status]) ∧
      status = drv (tr ++ done.map (fun c => Event.call c PICO_OK)) last ∧
      (status = PICO_OK → rest = []) ∧
      (status ≠ PICO_OK →
        last = .SetTriggerChannelDirections unit.handle directions.channelA
          directions.channelB directions.channelC directions.channelD directions.ext
          directions.aux →
        done = [.SetTriggerChannelProperties unit.handle channelProperties
            nChannelProperties auxOutputEnabled autoTriggerMs,
          .SetTriggerChannelConditions unit.handle triggerConditions nTriggerConditions]) := by
  by_cases h₁ : drv tr (.SetTriggerChannelProperties unit.handle channelProperties
      nChannelProperties auxOutputEnabled autoTriggerMs) = PICO_OK
  swap
  · exact ⟨[], _, _, _, rfl, by simp [SetTrigger, callDriver, h₁], by simp,
      fun h => absurd h h₁, by simp⟩
  by_cases h₂ : drv (tr ++ [Event.call (.SetTriggerChannelProperties unit.handle
      channelProperties nChannelProperties auxOutputEnabled autoTriggerMs) PICO_OK])
      (.SetTriggerChannelConditions unit.handle triggerConditions nTriggerConditions) = PICO_OK
  swap
  · exact ⟨[_], _, _, _, rfl, by simp [SetTrigger, callDriver, h₁, h₂], by simp,
      fun h => absurd h h₂, by simp⟩
  by_cases h₃ : drv (tr ++ [Event.call (.SetTriggerChannelProperties unit.handle
      channelProperties nChannelProperties auxOutputEnabled autoTriggerMs) PICO_OK,
      Event.call (.SetTriggerChannelConditions unit.handle triggerConditions
        nTriggerConditions) PICO_OK])
      (.SetTriggerChannelDirections unit.handle directions.channelA directions.channelB
        directions.channelC directions.channelD directions.ext directions.aux) = PICO_OK
  swap
  · exact ⟨[_, _], _, _, _, rfl, by simp [SetTrigger, callDriver, h₁, h₂, h₃], by simp,
      fun h => absurd h h₃, by simp⟩
  by_cases h₄ : drv (tr ++ [Event.call (.SetTriggerChannelProperties unit.handle
      channelProperties nChannelProperties auxOutputEnabled autoTriggerMs) PICO_OK,
      Event.call (.SetTriggerChannelConditions unit.handle triggerConditions
        nTriggerConditions) PICO_OK,
      Event.call (.SetTriggerChannelDirections unit.handle directions.channelA
        directions.channelB directions.channelC directions.channelD directions.ext
        directions.aux) PICO_OK])
      (.SetTriggerDelay unit.handle delay) = PICO_OK
  swap
  · exact ⟨[_, _, _], _, _, _, rfl, by simp [SetTrigger, callDriver, h₁, h₂, h₃, h₄],
      by simp, fun h => absurd h h₄, by simp⟩
  by_cases h₅ : drv (tr ++ [Event.call (.SetTriggerChannelProperties unit.handle
      channelProperties nChannelProperties auxOutputEnabled autoTriggerMs) PICO_OK,
      Event.call (.SetTriggerChannelConditions unit.handle triggerConditions
        nTriggerConditions) PICO_OK,
      Event.call (.SetTriggerChannelDirections unit.handle directions.channelA
        directions.channelB directions.channelC directions.channelD directions.ext
        directions.aux) PICO_OK,
      Event.call (.SetTriggerDelay unit.handle delay) PICO_OK])
      (.SetPulseWidthQualifier unit.handle pwq.conditions pwq.nConditions pwq.direction
        pwq.lower pwq.upper pwq.type) = PICO_OK
  swap
  · exact ⟨[_, _, _, _], _, _, _, rfl,
      by simp [SetTrigger, callDriver, h₁, h₂, h₃, h₄, h₅], by simp,
      fun h => absurd h h₅, by simp⟩
  by_cases hd : unit.digitalPorts = 0
  · refine ⟨[.SetTriggerChannelProperties unit.handle channelProperties nChannelProperties
        auxOutputEnabled autoTriggerMs,
      .SetTriggerChannelConditions unit.handle triggerConditions nTriggerConditions,
      .SetTriggerChannelDirections unit.handle directions.channelA directions.channelB
        directions.channelC directions.channelD directions.ext directions.aux,
      .SetTriggerDelay unit.handle delay],
      .SetPulseWidthQualifier unit.handle pwq.conditions pwq.nConditions pwq.direction
        pwq.lower pwq.upper pwq.type, [], PICO_OK, ?_, ?_, ?_, fun _ => rfl, by simp⟩
    · simp [triggerFacets, hd]
    · simp [SetTrigger, callDriver, h₁, h₂, h₃, h₄, h₅, hd]
    · simp [h₅]
  · refine ⟨[.SetTriggerChannelProperties unit.handle channelProperties nChannelProperties
        auxOutputEnabled autoTriggerMs,
      .SetTriggerChannelConditions unit.handle triggerConditions nTriggerConditions,
      .SetTriggerChannelDirections unit.handle directions.channelA directions.channelB
        directions.channelC directions.channelD directions.ext directions.aux,
      .SetTriggerDelay unit.handle delay,
      .SetPulseWidthQualifier unit.handle pwq.conditions pwq.nConditions pwq.direction
        pwq.lower pwq.upper pwq.type],
      .SetTriggerDigitalPortProperties unit.handle digitalDirections nDigitalDirections, [],
      _, ?_, ?_, rfl, fun _ => rfl, by simp⟩
    · simp [triggerFacets, hd]
    · simp [SetTrigger, callDriver, h₁, h₂, h₃, h₄, h₅, hd]

/-! ## Traces without statuses: facts -/

theorem actions_append (a b : Trace) : actions (a ++ b) = actions a ++ actions b := by
  simp [actions]

theorem actions_callDriver (drv : Driver) (tr : Trace) (c : DriverCall) :
    actions (callDriver drv tr c).2 = actions tr ++ [Action.call c] := by
  simp [callDriver, actions, Event.action]

theorem actions_callEach (drv : Driver) (calls : List DriverCall) (tr : Trace) :
    actions (callEach drv tr calls) = actions tr ++ calls.map Action.call := by
  unfold callEach
  induction calls generalizing tr with
  | nil => simp
  | cons c rest ih =>
    rw [List.foldl_cons, ih, actions_callDriver]
    simp

/-- A loop that appends, at each index, actions that depend on the index only. -/
theorem actions_foldl (f : Trace → Nat → Trace) (g : Nat → List Action)
    (h : ∀ t i, actions (f t i) = actions t ++ g i) (l : List Nat) (tr : Trace) :
    actions (l.foldl f tr) = actions tr ++ l.flatMap g := by
  induction l generalizing tr with
  | nil => simp
  | cons i rest ih =>
    rw [List.foldl_cons, ih, h]
    simp

theorem flatMap_ite_eq_filter (p : Nat → Bool) (g : Nat → List Action) (l : List Nat) :
    l.flatMap (fun i => if p i = true then g i else []) = (l.filter p).flatMap g := by
  induction l with
  | nil => simp
  | cons i rest ih =>
    by_cases hp : p i = true
    · simp [hp, ih]
    · simp [hp, ih]

theorem actions_ClearDataBuffers (api : Api) (drv : Driver) (unit : UNIT) (tr : Trace) :
    actions (ClearDataBuffers api drv unit tr)
      = actions tr ++ (clearCalls api unit).map Action.call := by
  unfold ClearDataBuffers clearCalls
  rw [actions_callEach]

theorem actions_blockBindAnalogue (api : Api) (drv : Driver) (unit : UNIT) (n : Int)
    (tr : Trace) :
    actions (blockBindAnalogue api drv unit n tr)
      = actions tr ++ (enabledChannels unit).flatMap (blockPairActions api unit n) := by
  unfold blockBindAnalogue enabledChannels
  rw [← flatMap_ite_eq_filter]
  apply actions_foldl
  intro t i
  by_cases he : channelEnabled unit i = true
  · simp only [he, if_true, actions_callDriver, actions_append]
    simp [actions, Event.action, blockPairActions]
  · simp [he]

theorem actions_streamBindAnalogue (api : Api) (drv : Driver) (unit : UNIT) (n : Int)
    (tr : Trace) :
    actions (streamBindAnalogue api drv unit n tr)
      = actions tr ++ (enabledChannels unit).flatMap (streamPairActions api unit n) := by
  unfold streamBindAnalogue enabledChannels
  rw [← flatMap_ite_eq_filter]
  apply actions_foldl
  intro t i
  by_cases he : channelEnabled unit i = true
  · simp only [he, if_true, actions_callDriver, actions_append]
    simp [actions, Event.action, streamPairActions]
  · simp [he]

theorem actions_streamBindAggregated (api : Api) (drv : Driver) (unit : UNIT) (n : Int)
    (tr : Trace) :
    actions (streamBindAggregated api drv unit n tr)
      = actions tr ++
        (List.range unit.digitalPorts.toNat).flatMap (aggregatedPairActions api unit n) := by
  unfold streamBindAggregated
  apply actions_foldl
  intro t i
  simp only [actions_callDriver, actions_append]
  simp [actions, Event.action, aggregatedPairActions]

theorem actions_streamBindDigital (api : Api) (drv : Driver) (unit : UNIT) (n : Int)
    (tr : Trace) :
    actions (streamBindDigital api drv unit n tr)
      = actions tr ++
        (List.range unit.digitalPorts.toNat).flatMap (streamPortActions api unit n) := by
  unfold streamBindDigital
  apply actions_foldl
  intro t i
  simp only [actions_callDriver, actions_append]
  simp [actions, Event.action, streamPortActions]

theorem actions_blockBindDigital (api : Api) (drv : Driver) (unit : UNIT) (n : Int)
    (tr : Trace) :
    actions (blockBindDigital api drv unit n tr)
      = actions tr ++
        (List.range unit.digitalPorts.toNat).flatMap (blockPortActions api unit n) := by
  unfold blockBindDigital
  apply actions_foldl
  intro t i
  simp only [actions_callDriver, actions_append]
  simp [actions, Event.action, blockPortActions]

theorem actions_nil : actions [] = [] := rfl

theorem actions_cons (e : Event) (tr : Trace) : actions (e :: tr) = e.action :: actions tr := rfl

theorem actions_map (tr : Trace) : tr.map Event.action = actions tr := rfl

theorem actions_findTimebase (drv : Driver) (handle n os : Int) :
    ∀ (fuel : Nat) (tb : Int) (tr : Trace) (tb' : Int) (tr' : Trace),
      findTimebase drv handle n os fuel tb tr = some (tb', tr') →
      ∃ tried : List Int,
        actions tr' = actions tr ++
          tried.map (fun t => Action.call (.GetTimebase handle t n os 0)) := by
  intro fuel
  induction fuel with
  | zero => intro tb tr tb' tr' h; simp [findTimebase] at h
  | succ fuel ih =>
    intro tb tr tb' tr' h
    unfold findTimebase at h
    simp only [] at h
    split at h
    · obtain ⟨tried, ht⟩ := ih _ _ _ _ h
      refine ⟨tb :: tried, ?_⟩
      rw [ht, actions_callDriver]
      simp
    · simp only [Option.some.injEq, Prod.mk.injEq] at h
      refine ⟨[tb], ?_⟩
      rw [← h.2, actions_callDriver]
      simp

/-- The run of `BlockDataHandler`, step by step: the timebase search from the bound
trace, the wait from the armed globals, and what the result holds. -/
theorem BlockDataHandler_run {api : Api} {drv : Driver} {inp : BlockInputs} {unit : UNIT}
    {offset : Int} {mode : MODE} {etsModeSet : Int} {g : Globals} {tr : Trace}
    {res : BlockResult}
    (h : BlockDataHandler api drv inp unit offset mode etsModeSet g tr = some res) :
    ∃ (timebase : Int) (tr₄ : Trace),
      findTimebase drv unit.handle BUFFER_SIZE g.oversample inp.timebaseFuel g.timebase
        (blockBound api drv unit mode etsModeSet tr) = some (timebase, tr₄) ∧
      waitReady api inp.wait (blockArmed api inp g timebase) = some res.g ∧
      res.fetched = decide (res.g.g_ready ≠ 0) ∧
      res.sampleCount = blockSampleCount inp mode res.fetched ∧
      actions res.tr = actions tr₄ ++
        blockTail api unit mode etsModeSet g.oversample timebase res.fetched := by
  unfold BlockDataHandler at h
  simp only [] at h
  split at h
  · simp at h
  · rename_i timebase tr₄ hfind
    split at h
    · simp at h
    · rename_i g₂ hwait
      simp only [Option.some.injEq] at h
      subst h
      refine ⟨timebase, tr₄, hfind, hwait, rfl, ?_, ?_⟩
      · by_cases hr : g₂.g_ready ≠ 0
        · simp [blockSampleCount, hr]
        · simp [blockSampleCount, hr]
      · simp only [actions_ClearDataBuffers, actions_append, actions_callDriver]
        by_cases hr : g₂.g_ready ≠ 0
        · rw [if_pos hr]
          simp only [actions_callDriver]
          simp [blockTail, hr, actions_map]
        · rw [if_neg hr]
          simp only [actions_callDriver]
          simp [blockTail, hr, actions_map]

/-- The actions of the allocation and binding section of `BlockDataHandler`. -/
theorem actions_blockBound (api : Api) (drv : Driver) (unit : UNIT) (mode : MODE)
    (etsModeSet : Int) (tr : Trace) :
    actions (blockBound api drv unit mode etsModeSet tr) = actions tr ++
      ((if mode = .ANALOGUE ∨ mode = .MIXED then
        (enabledChannels unit).flatMap (blockPairActions api unit BUFFER_SIZE) else []) ++
      (if mode = .ANALOGUE ∧ etsModeSet = TRUE then
        [Action.malloc .etsTime BUFFER_SIZE,
         Action.call (.SetEtsTimeBuffer unit.handle (some .etsTime) BUFFER_SIZE)]
       else []) ++
      (if mode = .DIGITAL ∨ mode = .MIXED then
        (List.range unit.digitalPorts.toNat).flatMap
          (blockPortActions api unit BUFFER_SIZE)
       else [])) := by
  unfold blockBound
  cases mode <;> by_cases h2 : etsModeSet = TRUE <;>
    simp [h2, actions_blockBindDigital, actions_blockBindAnalogue, actions_callDriver,
      actions_append, actions_cons, actions_nil, Event.action]

theorem actions_BlockDataHandler {api : Api} {drv : Driver} {inp : BlockInputs} {unit : UNIT}
    {offset : Int} {mode : MODE} {etsModeSet : Int} {g : Globals} {tr : Trace}
    {res : BlockResult}
    (h : BlockDataHandler api drv inp unit offset mode etsModeSet g tr = some res) :
    ∃ (tried : List Int) (timebase : Int),
      actions res.tr = actions tr ++
        blockActions api unit mode etsModeSet g.oversample tried timebase res.fetched := by
  obtain ⟨timebase, tr₄, hfind, _, _, _, ht⟩ := BlockDataHandler_run h
  obtain ⟨tried, htried⟩ := actions_findTimebase _ _ _ _ _ _ _ _ _ hfind
  refine ⟨tried, timebase, ?_⟩
  rw [ht, htried, actions_blockBound]
  simp [blockActions, blockTail]

theorem CallBackStreaming_unit {g g' : Globals}
    {handle noOfSamples startIndex overflow triggerAt triggered autoStop : Int}
    {bufferInfo : BUFFER_INFO} {info : Option BUFFER_INFO}
    (h : CallBackStreaming g handle noOfSamples startIndex overflow triggerAt triggered
      autoStop (some bufferInfo) = some (g', info)) :
    ∃ after, info = some after ∧ after.unit = bufferInfo.unit := by
  unfold CallBackStreaming at h
  simp only at h
  split_ifs at h
  · simp at h; exact ⟨bufferInfo, h.2.symm, rfl⟩
  · cases hm : bufferInfo.mode <;> simp only [hm] at h
    · split at h
      · simp only [Option.map_eq_some'] at h
        obtain ⟨_, _, h⟩ := h
        simp at h; exact ⟨_, h.2.symm, rfl⟩
      · simp at h; exact ⟨bufferInfo, h.2.symm, rfl⟩
    · split at h
      · simp only [Option.map_eq_some'] at h
        obtain ⟨_, _, h⟩ := h
        simp at h; exact ⟨_, h.2.symm, rfl⟩
      · simp at h; exact ⟨bufferInfo, h.2.symm, rfl⟩
    · split at h
      · simp only [Option.map_eq_some'] at h
        obtain ⟨_, _, h⟩ := h
        simp at h; exact ⟨_, h.2.symm, rfl⟩
      · simp at h; exact ⟨bufferInfo, h.2.symm, rfl⟩
    · simp at h; exact ⟨bufferInfo, h.2.symm, rfl⟩

theorem pollStep_trace {drv : Driver} {st st' : StreamState} {p : Poll}
    (h : pollStep drv st p = some st') :
    st'.bufferInfo.unit = st.bufferInfo.unit ∧
    actions st'.tr = actions st.tr ++
      [Action.call (.GetStreamingLatestValues st.bufferInfo.unit.handle)] := by
  unfold pollStep at h
  cases hn : p.notification with
  | none =>
    simp only [hn] at h
    split_ifs at h <;>
    · simp only [Option.some.injEq] at h
      subst h
      exact ⟨rfl, actions_callDriver _ _ _⟩
  | some n =>
    simp only [hn] at h
    split at h
    · exact absurd h (by simp)
    · next g₃ info hcall =>
      obtain ⟨after, hafter, hunit⟩ := CallBackStreaming_unit hcall
      subst hafter
      split_ifs at h <;>
      · simp only [Option.some.injEq] at h
        subst h
        exact ⟨hunit, actions_callDriver _ _ _⟩

theorem pollLoop_trace (drv : Driver) :
    ∀ (polls : List Poll) (st final : StreamState), pollLoop drv polls st = some final →
      ∃ polled : Nat, final.bufferInfo.unit = st.bufferInfo.unit ∧
        actions final.tr = actions st.tr ++
          List.replicate polled (Action.call (.GetStreamingLatestValues st.bufferInfo.unit.handle)) := by
  intro polls
  induction polls with
  | nil =>
    intro st final h
    unfold pollLoop at h
    split_ifs at h
    · simp only [Option.some.injEq] at h
      subst h
      exact ⟨0, rfl, by simp⟩
  | cons p rest ih =>
    intro st final h
    unfold pollLoop at h
    split_ifs at h
    · simp only [Option.some.injEq] at h
      subst h
      exact ⟨0, rfl, by simp⟩
    · simp only at h
      split at h
      · simp at h
      · next st' hstep =>
        obtain ⟨hu, ht⟩ := pollStep_trace hstep
        obtain ⟨k, hu', ht'⟩ := ih _ _ h
        refine ⟨k + 1, hu'.trans hu, ?_⟩
        rw [ht', ht, hu, List.replicate_succ]
        simp

theorem actions_StreamDataHandler {api : Api} {drv : Driver} {inp : StreamInputs} {unit : UNIT}
    {preTrigger : Int} {mode : MODE} {g : Globals} {tr : Trace} {res : StreamResult}
    (h : StreamDataHandler api drv inp unit preTrigger mode g tr = some res) :
    ∃ polled : Nat,
      actions res.tr = actions tr ++ streamActions api unit mode preTrigger polled := by
  unfold StreamDataHandler at h
  simp only [] at h
  split at h
  · simp at h
  · next downsampleRatio timeUnits sampleInterval ratioMode postTrigger autostop hset =>
    split at h
    · simp at h
    · next final hloop =>
      obtain ⟨polled, hu, ht⟩ := pollLoop_trace _ _ _ _ hloop
      simp only [Option.some.injEq] at h
      subst h
      refine ⟨polled, ?_⟩
      simp only [actions_ClearDataBuffers, actions_append, actions_callDriver, ht]
      have h40 : toUInt32 40000 = 40000 := by decide
      cases mode <;>
        simp [streamActions, hset, actions_map, actions_streamBindAnalogue,
          actions_streamBindAggregated, actions_streamBindDigital, h40]

theorem actions_SetDefaults (api : Api) (drv : Driver) (unit : UNIT) (tr : Trace) :
    actions (SetDefaults api drv unit tr)
      = actions tr ++ (defaultCalls api unit).map Action.call := by
  unfold SetDefaults defaultCalls
  rw [actions_callEach]

theorem actions_SetTrigger (drv : Driver) (unit : UNIT)
    (channelProperties : Option (List TRIGGER_CHANNEL_PROPERTIES)) (nChannelProperties : Int)
    (triggerConditions : Option (List TRIGGER_CONDITIONS)) (nTriggerConditions : Int)
    (directions : TRIGGER_DIRECTIONS) (pwq : PWQ) (delay auxOutputEnabled autoTriggerMs : Int)
    (digitalDirections : Option (List DIGITAL_CHANNEL_DIRECTIONS)) (nDigitalDirections : Int)
    (tr : Trace) :
    ∃ facets : Nat,
      actions (SetTrigger drv unit channelProperties nChannelProperties triggerConditions
          nTriggerConditions directions pwq delay auxOutputEnabled autoTriggerMs
          digitalDirections nDigitalDirections tr).2
        = actions tr ++ ((triggerFacets unit channelProperties nChannelProperties
            triggerConditions nTriggerConditions directions pwq delay auxOutputEnabled
            autoTriggerMs digitalDirections nDigitalDirections).take facets).map Action.call := by
  unfold SetTrigger
  simp only []
  split_ifs with h1 h2 h3 h4 h5 h6
  · exact ⟨1, by simp [actions_callDriver, triggerFacets]⟩
  · exact ⟨2, by simp [actions_callDriver, triggerFacets]⟩
  · exact ⟨3, by simp [actions_callDriver, triggerFacets]⟩
  · exact ⟨4, by simp [actions_callDriver, triggerFacets]⟩
  · exact ⟨5, by simp [actions_callDriver, triggerFacets]⟩
  · exact ⟨6, by simp [actions_callDriver, triggerFacets, h6]⟩
  · exact ⟨6, by simp [actions_callDriver, triggerFacets, h6]⟩
  · exact ⟨5, by simp [actions_callDriver, triggerFacets, h6]⟩

theorem map_flatMap_map {α β γ δ : Type} (f : γ → δ) (g : α → β → γ) (l : List α)
    (r : List β) :
    (l.flatMap (fun a => r.map (g a))).map f = l.flatMap (fun a => r.map (fun b => f (g a b))) := by
  induction l with
  | nil => simp
  | cons a rest ih => simp [List.flatMap_cons, ih]

theorem actions_CollectRapidBlock {api : Api} {drv : Driver} {inp : RapidInputs} {unit : UNIT}
    {g : Globals} {tr : Trace} {s : Session}
    (h : CollectRapidBlock api drv inp unit g tr = some s) :
    ∃ (triggerVoltage : Int) (facets : Nat) (requested : Int) (aborted : Bool)
        (nCaptures : Int),
      actions s.tr = actions tr ++ rapidSetUp api unit triggerVoltage facets requested ++
        (if aborted then
          [Action.call (.Stop unit.handle), Action.call (.GetNoOfCaptures unit.handle)]
         else []) ++
        (if aborted ∧ toUInt32 inp.completedCaptures = 0 then []
         else rapidFetch api unit nCaptures) := by
  unfold CollectRapidBlock at h
  simp only [] at h
  split at h
  · simp at h
  · next triggerVoltage hv =>
    by_cases hp : thresholdPrinted api unit g triggerVoltage = true
    swap
    · rw [if_neg hp] at h; simp at h
    rw [if_pos hp] at h
    split at h
    · simp at h
    · next g₄ hwait =>
      obtain ⟨facets, hf⟩ := actions_SetTrigger drv unit
        (some [sourceDetails api triggerVoltage 256]) 1
        (some [conditionsOn api api.PS2000A_CONDITION_TRUE api.PS2000A_CONDITION_DONT_CARE]) 1
        (directionsOn api api.PS2000A_RISING) zeroPwq 0 0 0 none 0 (SetDefaults api drv unit tr)
      rw [actions_SetDefaults] at hf
      by_cases hearly : decide (g₄.g_ready = 0) = true ∧ toUInt32 inp.completedCaptures = 0
      · rw [if_pos hearly] at h
        simp only [Option.some.injEq] at h
        subst h
        refine ⟨triggerVoltage, facets,
          if 10 > toUInt32 inp.maxSegments then toUInt32 inp.maxSegments else 10, true, 0, ?_⟩
        simp only [hearly.1, if_true, actions_callDriver, hf]
        simp [rapidSetUp, rapidFacets, hearly.2]
      · rw [if_neg hearly] at h
        simp only [Option.some.injEq] at h
        subst h
        refine ⟨triggerVoltage, facets,
          if 10 > toUInt32 inp.maxSegments then toUInt32 inp.maxSegments else 10,
          decide (g₄.g_ready = 0),
          if decide (g₄.g_ready = 0) = true then toUInt16 (toUInt32 inp.completedCaptures)
          else if 10 > toUInt32 inp.maxSegments then toUInt32 inp.maxSegments else 10, ?_⟩
        simp only [actions_append, actions_callDriver, actions_callEach]
        by_cases hab : g₄.g_ready = 0
        · have hne : ¬ toUInt32 inp.completedCaptures = 0 :=
            fun hz => hearly ⟨by simpa using hab, hz⟩
          have hd : decide (g₄.g_ready = 0) = true := by simpa using hab
          simp only [hd, if_true, actions_callDriver, hf]
          simp [rapidSetUp, rapidFacets, rapidFetch, hne, actions, Event.action, map_flatMap_map,
            List.map_flatMap, Function.comp_def]
        · have hd : decide (g₄.g_ready = 0) = false := by simpa using hab
          simp only [hd, Bool.false_eq_true, if_false, actions_callDriver, hf]
          simp [rapidSetUp, rapidFacets, rapidFetch, actions, Event.action, map_flatMap_map,
            List.map_flatMap, Function.comp_def]

/-! ## The digital display values: facts -/

theorem and_255_eq_mod (x : Nat) : 255 &&& x = x % 256 := by
  rw [Nat.and_comm]
  exact Nat.and_pow_two_sub_one_eq_mod x 8

theorem and_255_eq_mod_right (x : Nat) : x &&& 255 = x % 256 :=
  Nat.and_pow_two_sub_one_eq_mod x 8

theorem bits_mod_256 (x : Int) : bits x % 256 = (x % 256).toNat := by
  unfold bits; omega

theorem bits16_mod_256 (x : Int) : bits16 x % 256 = (x % 256).toNat := by
  unfold bits16; omega

theorem bits_mod_65536 (x : Int) : bits x % 65536 = bits16 x := by
  unfold bits bits16; omega

theorem shiftLeft_eight_or (a b : Nat) (hb : b < 256) : (a <<< 8) ||| b = a * 256 + b := by
  rw [Nat.shiftLeft_eq]
  have h := @Nat.mul_add_lt_is_or 8 b (by simpa using hb) a
  have e : a * 2 ^ 8 = 2 ^ 8 * a := Nat.mul_comm _ _
  rw [e, ← h]
  omega

/-- The three statements that build a display word from two low bytes, in
arithmetic form. -/
theorem low_bytes_word (low high : Int) :
    ((((0x00ff &&& bits high) % 65536) <<< 8) % 65536 ||| (0x00ff &&& bits low)) % 65536
      = (high % 256).toNat * 256 + (low % 256).toNat := by
  have e : (0x00ff : Nat) = 255 := rfl
  simp only [e, and_255_eq_mod]
  have h1 := bits_mod_256 high
  have h0 := bits_mod_256 low
  have l1 : bits high % 256 < 256 := Nat.mod_lt _ (by norm_num)
  have l0 : bits low % 256 < 256 := Nat.mod_lt _ (by norm_num)
  rw [Nat.mod_eq_of_lt (by omega : bits high % 256 < 65536)]
  rw [Nat.shiftLeft_eq]
  rw [Nat.mod_eq_of_lt (by omega : bits high % 256 * 2 ^ 8 < 65536)]
  rw [← Nat.shiftLeft_eq, shiftLeft_eight_or _ _ l0]
  omega

/-- The word of the claims, in arithmetic form. -/
theorem packLowBytes_eq (port0 port1 : Int) :
    packLowBytes port0 port1 = (port1 % 256).toNat * 256 + (port0 % 256).toNat := by
  unfold packLowBytes
  have e : (0xFF : Nat) = 255 := rfl
  simp only [e, and_255_eq_mod_right]
  have l0 : bits16 port0 % 256 < 256 := Nat.mod_lt _ (by norm_num)
  rw [shiftLeft_eight_or _ _ l0, bits16_mod_256, bits16_mod_256]

/-- The block value, in arithmetic form: the whole 16-bit pattern of the port 0
sample is or-ed in. -/
theorem blockDigiValue_eq (port0 port1 : Int) :
    blockDigiValue port0 port1 = ((port1 % 256).toNat * 256) ||| bits16 port0 := by
  unfold blockDigiValue
  have e : (0x00ff : Nat) = 255 := rfl
  simp only [e, and_255_eq_mod]
  have l1 : bits port1 % 256 < 256 := Nat.mod_lt _ (by norm_num)
  rw [Nat.mod_eq_of_lt (by omega : bits port1 % 256 < 65536)]
  rw [Nat.shiftLeft_eq]
  rw [Nat.mod_eq_of_lt (by omega : bits port1 % 256 * 2 ^ 8 < 65536)]
  have e2 : (65536 : Nat) = 2 ^ 16 := by norm_num
  rw [bits_mod_256]
  apply Nat.eq_of_testBit_eq
  intro i
  rw [e2, Nat.testBit_mod_two_pow, Nat.testBit_or, Nat.testBit_or]
  have hb : bits port0 % 2 ^ 16 = bits16 port0 := by rw [← e2]; exact bits_mod_65536 port0
  have hlt : (port1 % 256).toNat * 2 ^ 8 < 2 ^ 16 := by omega
  by_cases hi : i < 16
  · have : (bits16 port0).testBit i = (bits port0).testBit i := by
      rw [← hb, Nat.testBit_mod_two_pow]; simp [hi]
    simp [hi, this]
  · have h1 : ((port1 % 256).toNat * 2 ^ 8).testBit i = false :=
      Nat.testBit_lt_two_pow (lt_of_lt_of_le hlt (Nat.pow_le_pow_right (by norm_num) (by omega)))
    have h2 : (bits16 port0).testBit i = false := by
      apply Nat.testBit_lt_two_pow
      have : bits16 port0 < 2 ^ 16 := by unfold bits16; omega
      exact lt_of_lt_of_le this (Nat.pow_le_pow_right (by norm_num) (by omega))
    have h1' : ((port1 % 256).toNat * 256).testBit i = false := by
      have e3 : (256 : Nat) = 2 ^ 8 := by norm_num
      rw [e3]; exact h1
    simp [hi, h1, h1', h2]

/-- The streaming value is the word of the low bytes. -/
theorem streamPortValue_eq (port0 port1 : Int) :
    streamPortValue port0 port1 = packLowBytes port0 port1 := by
  rw [packLowBytes_eq]
  exact low_bytes_word port0 port1

/-- The mask `0x8000 >> bit` is the power of two of the bit `15 - bit`. -/
theorem mask_eq_two_pow {k : Nat} (hk : k < 16) : 0x8000 >>> k = 2 ^ (15 - k) := by
  interval_cases k <;> rfl

/-- A power of two meets a word exactly when the word has that bit. -/
theorem two_pow_and_ne_zero (n w : Nat) : (2 ^ n &&& w ≠ 0) ↔ w / 2 ^ n % 2 = 1 := by
  have h : 2 ^ n &&& w = if w.testBit n then 2 ^ n else 0 := by
    apply Nat.eq_of_testBit_eq
    intro i
    rw [Nat.testBit_and, Nat.testBit_two_pow]
    by_cases hi : n = i
    · subst hi
      cases hw : w.testBit n <;> simp [Nat.testBit_two_pow_self]
    · cases hw : w.testBit n <;> simp [hi, Nat.testBit_two_pow_of_ne hi]
  rw [h, Nat.testBit_to_div_mod]
  by_cases hb : w / 2 ^ n % 2 = 1
  · simp [hb]
  · simp [hb]

/-- The bit test with the mask `0x8000 >> k` reads the binary digit `15 - k`. -/
theorem unpackBit_eq (w : Nat) {k : Nat} (hk : k < 16) :
    unpackBit w k = w / 2 ^ (15 - k) % 2 := by
  unfold unpackBit
  rw [mask_eq_two_pow hk]
  by_cases hb : w / 2 ^ (15 - k) % 2 = 1
  · rw [if_pos ((two_pow_and_ne_zero _ _).mpr hb), hb]
  · rw [if_neg (fun h => hb ((two_pow_and_ne_zero _ _).mp h))]
    omega

/-- The sixteen binary digits of a 16-bit word, weighted, add up to the word. -/
theorem binary_digits_sum (w : Nat) (hw : w < 65536) :
    w / 32768 % 2 * 32768 +
      (w / 16384 % 2 * 16384 +
        (w / 8192 % 2 * 8192 +
          (w / 4096 % 2 * 4096 +
            (w / 2048 % 2 * 2048 +
              (w / 1024 % 2 * 1024 +
                (w / 512 % 2 * 512 +
                  (w / 256 % 2 * 256 +
                    (w / 128 % 2 * 128 +
                      (w / 64 % 2 * 64 +
                        (w / 32 % 2 * 32 +
                          (w / 16 % 2 * 16 + (w / 8 % 2 * 8 + (w / 4 % 2 * 4 + (w / 2 % 2 * 2 + w % 2)))))))))))))) =
    w := by
  have h0 : w % 2 + 2 * (w / 2) = w := by omega
  have h1 : w / 2 % 2 + 2 * (w / 4) = w / 2 := by omega
  have h2 : w / 4 % 2 + 2 * (w / 8) = w / 4 := by omega
  have h3 : w / 8 % 2 + 2 * (w / 16) = w / 8 := by omega
  have h4 : w / 16 % 2 + 2 * (w / 32) = w / 16 := by omega
  have h5 : w / 32 % 2 + 2 * (w / 64) = w / 32 := by omega
  have h6 : w / 64 % 2 + 2 * (w / 128) = w / 64 := by omega
  have h7 : w / 128 % 2 + 2 * (w / 256) = w / 128 := by omega
  have h8 : w / 256 % 2 + 2 * (w / 512) = w / 256 := by omega
  have h9 : w / 512 % 2 + 2 * (w / 1024) = w / 512 := by omega
  have h10 : w / 1024 % 2 + 2 * (w / 2048) = w / 1024 := by omega
  have h11 : w / 2048 % 2 + 2 * (w / 4096) = w / 2048 := by omega
  have h12 : w / 4096 % 2 + 2 * (w / 8192) = w / 4096 := by omega
  have h13 : w / 8192 % 2 + 2 * (w / 16384) = w / 8192 := by omega
  have h14 : w / 16384 % 2 + 2 * (w / 32768) = w / 16384 := by omega
  have h15 : w / 32768 % 2 = w / 32768 := by omega
  linarith

/-! ## The digital display values: the claims -/

/-- C14: in streaming `DIGITAL` mode the displayed value is, for all samples `p0`
of port 0 and `p1` of port 1, the 16-bit word `((p1 & 0xFF) << 8) | (p0 & 0xFF)`;
this is the value shown at every index at which both snapshot buffers hold a
sample. -/
theorem streamPortValue_packs_low_bytes (port0 port1 : Int) :
    streamPortValue port0 port1 = packLowBytes port0 port1 ∧
    streamPortValue port0 port1 < 65536 ∧
    ∀ (appDigiBuffers : BufferTable) (i : Nat),
      sampleAt appDigiBuffers 0 i = some port0 → sampleAt appDigiBuffers 1 i = some port1 →
      streamDigitalValue appDigiBuffers i = some (packLowBytes port0 port1) := by
  refine ⟨streamPortValue_eq port0 port1, ?_, ?_⟩
  · rw [streamPortValue_eq, packLowBytes_eq]
    omega
  · intro table i h0 h1
    simp only [streamDigitalValue, h0, h1, streamPortValue_eq]

/-- C15, the code at a failing input: `BlockDataHandler` or-s the whole port 0
sample into the word, so a port 0 sample with bits above the low byte changes the
high byte of the value: for `p0 = 0x0100`, `p1 = 0` the block value is `0x0100`
where the word of the low bytes, and the streaming value, is 0; at index 1 of
the sample buffers (`p0 = 0x01FF`, `p1 = 0x0100`) the block value is `0x01FF` and
the streaming value `0x00FF`, and at index 2 (`p0 = -1`, `p1 = 0`) they are
`0xFFFF` and `0x00FF`. -/
theorem blockDigiValue_keeps_high_byte :
    blockDigiValue 0x0100 0 = 0x0100 ∧ packLowBytes 0x0100 0 = 0 ∧
    streamPortValue 0x0100 0 = 0 ∧
    blockDigitalValue sampleDigitalTable 1 = some 0x01FF ∧
    streamDigitalValue sampleDigitalTable 1 = some 0x00FF ∧
    blockDigitalValue sampleDigitalTable 2 = some 0xFFFF ∧
    streamDigitalValue sampleDigitalTable 2 = some 0x00FF := by
  refine ⟨by decide, by decide, by decide, by decide, by decide, by decide, by decide⟩

/-- The part of C15 that holds: when the port 0 sample has nothing above its low
byte, the block value is the word of the low bytes. -/
theorem blockDigiValue_of_low_byte (port0 port1 : Int) (h₀ : 0 ≤ port0) (h₁ : port0 ≤ 255) :
    blockDigiValue port0 port1 = packLowBytes port0 port1 := by
  rw [blockDigiValue_eq, packLowBytes_eq]
  have hb : bits16 port0 = (port0 % 256).toNat := by unfold bits16; omega
  have hlt : (port0 % 256).toNat < 256 := by omega
  rw [hb, ← shiftLeft_eight_or _ _ hlt, Nat.shiftLeft_eq]

/-- C16: for every 16-bit word `w`, packing `port0 = w & 0xFF` and
`port1 = w >> 8` gives back `w` (with the streaming and with the block packing),
the bit test with the mask `0x8000 >> k` reads bit `15 - k` of `w` for
`k = 0..15`, and the sixteen bits so read, weighted from bit 15 down to bit 0,
add up to `w`. -/
theorem pack_unpack_roundTrip (w : Nat) (hw : w < 65536) :
    streamPortValue ((w &&& 0xFF : Nat) : Int) ((w >>> 8 : Nat) : Int) = w ∧
    blockDigiValue ((w &&& 0xFF : Nat) : Int) ((w >>> 8 : Nat) : Int) = w ∧
    (∀ k, k < 16 → unpackBit w k = if w.testBit (15 - k) then 1 else 0) ∧
    ((List.range 16).map (fun k => unpackBit w k * 2 ^ (15 - k))).sum = w := by
  have e : (0xFF : Nat) = 255 := rfl
  have hlow : w &&& 0xFF = w % 256 := by rw [e]; exact and_255_eq_mod_right w
  have hhigh : w >>> 8 = w / 256 := by rw [Nat.shiftRight_eq_div_pow]
  have hs : streamPortValue ((w &&& 0xFF : Nat) : Int) ((w >>> 8 : Nat) : Int) = w := by
    rw [streamPortValue_eq, packLowBytes_eq, hlow, hhigh]
    omega
  refine ⟨hs, ?_, ?_, ?_⟩
  · rw [blockDigiValue_of_low_byte _ _ (by omega) (by rw [hlow]; omega), ← streamPortValue_eq]
    exact hs
  · intro k hk
    rw [unpackBit_eq w hk, Nat.testBit_to_div_mod]
    by_cases hb : w / 2 ^ (15 - k) % 2 = 1
    · simp [hb]
    · have : w / 2 ^ (15 - k) % 2 = 0 := by omega
      simp [this]
  · have hmap : ∀ k ∈ List.range 16,
        unpackBit w k * 2 ^ (15 - k) = w / 2 ^ (15 - k) % 2 * 2 ^ (15 - k) := by
      intro k hk
      rw [unpackBit_eq w (List.mem_range.mp hk)]
    rw [List.map_congr_left hmap]
    have hr : List.range 16 = [0, 1, 2, 3, 4, 5, 6, 7, 8, 9, 10, 11, 12, 13, 14, 15] := by
      decide
    rw [hr]
    simp only [List.map_cons, List.map_nil, List.sum_cons, List.sum_nil]
    norm_num
    exact binary_digits_sum w hw

/-- C16 at the word `0xA5C3`. -/
theorem pack_unpack_roundTrip_witness :
    streamPortValue ((0xA5C3 &&& 0xFF : Nat) : Int) ((0xA5C3 >>> 8 : Nat) : Int) = 0xA5C3 ∧
    blockDigiValue ((0xA5C3 &&& 0xFF : Nat) : Int) ((0xA5C3 >>> 8 : Nat) : Int) = 0xA5C3 ∧
    (∀ k, k < 16 → unpackBit 0xA5C3 k = if (0xA5C3 : Nat).testBit (15 - k) then 1 else 0) ∧
    ((List.range 16).map (fun k => unpackBit 0xA5C3 k * 2 ^ (15 - k))).sum = 0xA5C3 :=
  pack_unpack_roundTrip 0xA5C3 (by decide)

/-! ## The entry points and the trigger status -/

/-- C7, the code at a failing input: with a driver that rejects the channel
directions, `SetTrigger` returns status 13 after three facets, and
`CollectBlockTriggered` still binds its buffers and requests `ps2000aRunBlock`,
as `CollectStreamingTriggered` (the entry point `main` calls) still requests
`ps2000aRunStreaming`. -/
theorem run_start_after_rejected_trigger :
    (CollectBlockTriggered vendorApi rejectDirections readyBlockInputs (sampleUnit 32512)
        sampleGlobals []).map (fun s => s.tr)
      = some
        [Event.call (.SetEts 1 0 0 0) 0,
         Event.call (.SetChannel 1 0 1 1 8) 0,
         Event.call (.SetChannel 1 1 0 1 8) 0,
         Event.call (.SetTriggerChannelProperties 1 (some [⟨6502, 2560, 6502, 2560, 0, 0⟩])
           1 0 0) 0,
         Event.call (.SetTriggerChannelConditions 1 (some [⟨1, 0, 0, 0, 0, 0, 0, 0⟩]) 1) 0,
         Event.call (.SetTriggerChannelDirections 1 2 2 2 2 2 2) 13,
         Event.malloc (.buffers 0) 1024,
         Event.malloc (.buffers 1) 1024,
         Event.call (.SetDataBuffers 1 0 (some (.buffers 0)) (some (.buffers 1)) 1024 0 0) 0,
         Event.call (.GetTimebase 1 8 1024 1 0) 0,
         Event.call (.RunBlock 1 0 1024 8 1 0) 0,
         Event.call (.GetValues 1 0 1024 10 0 0) 0,
         Event.call (.Stop 1) 0,
         Event.free (.buffers 0),
         Event.free (.buffers 1),
         Event.call (.SetDataBuffers 1 0 none none 0 0 0) 0,
         Event.call (.SetDataBuffers 1 1 none none 0 0 0) 0] ∧
    (CollectStreamingTriggered vendorApi rejectDirections stopStreamInputs (sampleUnit 32512)
        sampleGlobals []).map (fun s => s.tr)
      = some
        [Event.call (.SetEts 1 0 0 0) 0,
         Event.call (.SetChannel 1 0 1 1 8) 0,
         Event.call (.SetChannel 1 1 0 1 8) 0,
         Event.call (.SetTriggerChannelProperties 1 (some [⟨6502, 2560, 6502, 2560, 0, 0⟩])
           1 0 0) 0,
         Event.call (.SetTriggerChannelConditions 1 (some [⟨1, 0, 0, 0, 0, 0, 0, 0⟩]) 1) 0,
         Event.call (.SetTriggerChannelDirections 1 2 2 2 2 2 2) 13,
         Event.malloc (.buffers 0) 40000,
         Event.malloc (.buffers 1) 40000,
         Event.call (.SetDataBuffers 1 0 (some (.buffers 0)) (some (.buffers 1)) 40000 0 1) 0,
         Event.malloc (.appBuffers 0) 40000,
         Event.malloc (.appBuffers 1) 40000,
         Event.call (.RunStreaming 1 1 3 0 1000000 1 20 1 40000) 0,
         Event.call (.GetStreamingLatestValues 1) 0,
         Event.call (.Stop 1) 0,
         Event.free (.buffers 0),
         Event.free (.buffers 1),
         Event.free (.appBuffers 0),
         Event.free (.appBuffers 1),
         Event.call (.SetDataBuffers 1 0 none none 0 0 0) 0,
         Event.call (.SetDataBuffers 1 1 none none 0 0 0) 0] := by
  constructor <;> decide

/-- The sibling entry point that does look at the status: with the same driver
`ANDAnalogueDigitalTriggered` skips `BlockDataHandler`, and no run-start is
requested. -/
theorem guarded_entry_point_skips_run_start :
    (ANDAnalogueDigitalTriggered vendorApi rejectDirections readyBlockInputs sampleMsoUnit
        sampleGlobals []).map (fun s => s.tr)
      = some
        [Event.call (.SetEts 1 0 0 0) 0,
         Event.call (.SetChannel 1 0 1 1 8) 0,
         Event.call (.SetChannel 1 1 1 1 8) 0,
         Event.call (.SetTriggerChannelProperties 1 (some [⟨6502, 2560, 6502, 2560, 0, 0⟩])
           1 0 0) 0,
         Event.call (.SetTriggerChannelConditions 1 (some [⟨1, 0, 0, 0, 0, 0, 0, 1⟩]) 1) 0,
         Event.call (.SetTriggerChannelDirections 1 0 2 2 2 2 2) 13,
         Event.call (.SetChannel 1 0 0 1 8) 0,
         Event.call (.SetChannel 1 1 0 1 8) 0] := by
  decide

/-! ## The streaming callback: facts -/

/-- The elements of a buffer after a region was replaced. -/
theorem getElem?_replaced {a d : List Int} {s n : Nat} (ha : s + n ≤ a.length)
    (hd : s + n ≤ d.length) (i : Nat) :
    (replaced a d s n)[i]? = if s ≤ i ∧ i < s + n then d[i]? else a[i]? := by
  unfold replaced
  have l1 : (List.take s a).length = s := by simp; omega
  have l2 : (List.take n (List.drop s d)).length = n := by simp; omega
  rcases Nat.lt_or_ge i s with h | h
  · rw [List.getElem?_append_left (by simp; omega), List.getElem?_append_left (by omega)]
    rw [List.getElem?_take_of_lt h, if_neg (by omega)]
  · rcases Nat.lt_or_ge i (s + n) with h' | h'
    · rw [List.getElem?_append_left (by simp; omega), List.getElem?_append_right (by omega)]
      rw [l1, List.getElem?_take_of_lt (by omega), List.getElem?_drop, if_pos ⟨h, h'⟩]
      congr 1; omega
    · rw [List.getElem?_append_right (by simp; omega)]
      rw [List.length_append, l1, l2, List.getElem?_drop, if_neg (by omega)]
      congr 1; omega

/-- A copy inside both buffers succeeds and replaces the region. -/
theorem memcpy_s_of_le {a d : List Int} {s n : Nat} (ha : s + n ≤ a.length)
    (hd : s + n ≤ d.length) :
    memcpy_s a d (s : Int) (n : Int) = some (replaced a d s n) := by
  unfold memcpy_s replaced
  rw [if_pos (by omega)]
  simp

/-- A guarded copy whose region lies inside the buffers changes its slot only. -/
theorem copySlot_eq (table driver : BufferTable) (slot s n : Nat)
    (h : ∀ a d, table slot = some a → driver slot = some d →
      s + n ≤ a.length ∧ s + n ≤ d.length) :
    copySlot table driver slot (s : Int) (n : Int)
      = some (fun k => if k = slot then slotResult (table slot) (driver slot) s n
          else table k) := by
  unfold copySlot slotResult
  cases hx : table slot with
  | none =>
    simp only [Option.some.injEq]
    funext k
    split
    · next hk => rw [hk, hx]
    · rfl
  | some a =>
    cases hy : driver slot with
    | none =>
      simp only [Option.some.injEq]
      funext k
      split
      · next hk => rw [hk, hx]
      · rfl
    | some d =>
      obtain ⟨h₁, h₂⟩ := h a d hx hy
      simp only [memcpy_s_of_le h₁ h₂]

/-- The `ANALOGUE` copy loop, in closed form, when every copied region lies
inside its buffers. -/
theorem copyAnalogue_eq (unit : UNIT) (app driver : BufferTable) (s n count : Nat)
    (h : ∀ slot a d, slot / 2 < count → channelEnabled unit (slot / 2) = true →
      app slot = some a → driver slot = some d → s + n ≤ a.length ∧ s + n ≤ d.length) :
    copyAnalogue unit app driver (s : Int) (n : Int) count
      = some (analogueResult unit app driver s n count) := by
  induction count with
  | zero =>
    simp only [copyAnalogue, List.range_zero, List.foldlM_nil, pure, Option.some.injEq]
    funext slot
    simp [analogueResult]
  | succ k ih =>
    have ih' := ih (fun slot a d hk => h slot a d (by omega))
    unfold copyAnalogue at ih' ⊢
    rw [List.range_succ, List.foldlM_append, ih']
    simp only [List.foldlM_cons, List.foldlM_nil, bind, Option.some_bind, pure]
    by_cases hen : channelEnabled unit k = true
    · have e0 : analogueResult unit app driver s n k (k * 2) = app (k * 2) := by
        simp [analogueResult]
      have e1 : analogueResult unit app driver s n k (k * 2 + 1) = app (k * 2 + 1) := by
        have : (k * 2 + 1) / 2 = k := by omega
        simp [analogueResult, this]
      have c0 := copySlot_eq (analogueResult unit app driver s n k) driver (k * 2) s n
        (by
          intro a d ha hd
          rw [e0] at ha
          exact h (k * 2) a d (by omega) (by simpa using hen) ha hd)
      have c1 := copySlot_eq
        (fun j => if j = k * 2 then
            slotResult (analogueResult unit app driver s n k (k * 2)) (driver (k * 2)) s n
          else analogueResult unit app driver s n k j) driver (k * 2 + 1) s n
        (by
          intro a d ha hd
          simp only [show k * 2 + 1 ≠ k * 2 by omega, if_false] at ha
          rw [e1] at ha
          have hk : (k * 2 + 1) / 2 = k := by omega
          exact h (k * 2 + 1) a d (by omega) (by rw [hk]; exact hen) ha hd)
      simp only [hen, if_true, copyPair, c0, Option.some_bind, c1, Option.some.injEq]
      funext slot
      by_cases h1 : slot = k * 2 + 1
      · subst h1
        have hk : (k * 2 + 1) / 2 = k := by omega
        simp [analogueResult, hk, hen]
      · by_cases h0 : slot = k * 2
        · subst h0
          simp [analogueResult, hen]
        · have hk : slot / 2 ≠ k := by omega
          have hlt : slot / 2 < k + 1 ↔ slot / 2 < k := by omega
          simp only [h1, h0, if_false, analogueResult, hlt]
    · rw [Bool.not_eq_true] at hen
      simp only [hen, Bool.false_eq_true, if_false, Option.some_bind, Option.some.injEq]
      funext slot
      by_cases hk : slot / 2 = k
      · have hnot : ¬ slot / 2 < k := by omega
        simp [analogueResult, hk, hen]
      · have hlt : slot / 2 < k + 1 ↔ slot / 2 < k := by omega
        simp only [analogueResult, hlt]

/-! ## The streaming callback: the claims -/

/-- C8: in `ANALOGUE` mode, for a notification of `n > 0` samples from index `s`
whose region lies inside the buffers, `CallBackStreaming` returns, and afterwards
each snapshot buffer of an enabled channel (slots `2c` and `2c+1`, with a matching
driver buffer) holds the driver's elements at the indices `s..s+n-1` and its own
previous elements everywhere else; every other snapshot slot, the digital snapshot
buffers and all driver buffers are unchanged. -/
theorem CallBackStreaming_analogue_copy (g : Globals)
    (handle overflow triggerAt triggered autoStop : Int) (s n : Nat)
    (bufferInfo : BUFFER_INFO) (app driver : BufferTable)
    (hmode : bufferInfo.mode = MODE.ANALOGUE)
    (happ : bufferInfo.appBuffers = some app) (hdrv : bufferInfo.driverBuffers = some driver)
    (hn : 0 < n)
    (hfit : ∀ slot a d, slot / 2 < bufferInfo.unit.channelCount.toNat →
      channelEnabled bufferInfo.unit (slot / 2) = true →
      app slot = some a → driver slot = some d → s + n ≤ a.length ∧ s + n ≤ d.length) :
    ∃ g' after app',
      CallBackStreaming g handle n s overflow triggerAt triggered autoStop (some bufferInfo)
        = some (g', some after) ∧
      after.unit = bufferInfo.unit ∧ after.mode = bufferInfo.mode ∧
      after.driverBuffers = bufferInfo.driverBuffers ∧
      after.driverDigBuffers = bufferInfo.driverDigBuffers ∧
      after.appDigBuffers = bufferInfo.appDigBuffers ∧
      after.appBuffers = some app' ∧
      (∀ slot a d, slot / 2 < bufferInfo.unit.channelCount.toNat →
        channelEnabled bufferInfo.unit (slot / 2) = true →
        app slot = some a → driver slot = some d →
        ∃ a', app' slot = some a' ∧
          ∀ i : Nat, a'[i]? = if s ≤ i ∧ i < s + n then d[i]? else a[i]?) ∧
      (∀ slot, ¬ (slot / 2 < bufferInfo.unit.channelCount.toNat ∧
          channelEnabled bufferInfo.unit (slot / 2) = true) → app' slot = app slot) ∧
      (∀ slot, app slot = none ∨ driver slot = none → app' slot = app slot) := by
  have hloop := copyAnalogue_eq bufferInfo.unit app driver s n
    bufferInfo.unit.channelCount.toNat hfit
  have hne : (n : Int) ≠ 0 := by omega
  refine ⟨{ g with g_sampleCount := n, g_startIndex := s, g_autoStopped := autoStop,
                   g_overflow := overflow, g_ready := TRUE, g_trig := triggered,
                   g_trigAt := triggerAt },
    { bufferInfo with appBuffers := some (analogueResult bufferInfo.unit app driver
      s n bufferInfo.unit.channelCount.toNat) },
    analogueResult bufferInfo.unit app driver s n bufferInfo.unit.channelCount.toNat,
    ?_, rfl, rfl, rfl, rfl, rfl, rfl, ?_, ?_, ?_⟩
  · simp only [CallBackStreaming, hne, if_false, hmode, happ, hdrv, hloop, Option.map_some']
  · intro slot a d h₁ h₂ ha hd
    obtain ⟨f₁, f₂⟩ := hfit slot a d h₁ h₂ ha hd
    refine ⟨replaced a d s n, ?_, fun i => getElem?_replaced f₁ f₂ i⟩
    simp only [analogueResult, h₁, h₂, and_self, if_true, ha, hd, slotResult]
  · intro slot hslot
    simp only [analogueResult, hslot, if_false]
  · intro slot hnone
    unfold analogueResult slotResult
    split
    · rcases hnone with h | h
      · simp [h]
      · cases happ' : app slot <;> simp [h]
    · rfl

/-- C8 on the sample unit (channel A enabled, channel B disabled): two samples
from index 1 are copied into both snapshot buffers of channel A. -/
theorem CallBackStreaming_analogue_copy_witness :
    ∃ g' after app',
      CallBackStreaming sampleGlobals 1 (2 : Nat) (1 : Nat) 0 0 0 0 (some sampleBufferInfo)
        = some (g', some after) ∧
      after.unit = sampleBufferInfo.unit ∧ after.mode = sampleBufferInfo.mode ∧
      after.driverBuffers = sampleBufferInfo.driverBuffers ∧
      after.driverDigBuffers = sampleBufferInfo.driverDigBuffers ∧
      after.appDigBuffers = sampleBufferInfo.appDigBuffers ∧
      after.appBuffers = some app' ∧
      (∀ slot a d, slot / 2 < sampleBufferInfo.unit.channelCount.toNat →
        channelEnabled sampleBufferInfo.unit (slot / 2) = true →
        sampleAppTable slot = some a → sampleDriverTable slot = some d →
        ∃ a', app' slot = some a' ∧
          ∀ i : Nat, a'[i]? = if 1 ≤ i ∧ i < 1 + 2 then d[i]? else a[i]?) ∧
      (∀ slot, ¬ (slot / 2 < sampleBufferInfo.unit.channelCount.toNat ∧
          channelEnabled sampleBufferInfo.unit (slot / 2) = true) →
        app' slot = sampleAppTable slot) ∧
      (∀ slot, sampleAppTable slot = none ∨ sampleDriverTable slot = none →
        app' slot = sampleAppTable slot) :=
  CallBackStreaming_analogue_copy sampleGlobals 1 0 0 0 0 1 2 sampleBufferInfo
    sampleAppTable sampleDriverTable rfl rfl rfl (by decide)
    (by
      intro slot a d _ _ ha hd
      unfold sampleAppTable at ha
      unfold sampleDriverTable at hd
      split_ifs at ha hd <;> cases ha <;> cases hd <;> decide)

/-- C9: in every mode and for every state of the buffers, a notification of zero
samples makes `CallBackStreaming` return with the callback parameter, and so every
snapshot buffer reachable through it, unchanged. -/
theorem CallBackStreaming_zero_samples (g : Globals)
    (handle startIndex overflow triggerAt triggered autoStop : Int)
    (pParameter : Option BUFFER_INFO) :
    ∃ g', CallBackStreaming g handle 0 startIndex overflow triggerAt triggered autoStop
        pParameter = some (g', pParameter) := by
  refine ⟨{ g with g_sampleCount := 0, g_startIndex := startIndex,
                   g_autoStopped := autoStop, g_overflow := overflow, g_ready := TRUE,
                   g_trig := triggered, g_trigAt := triggerAt }, ?_⟩
  cases pParameter with
  | none => rfl
  | some bufferInfo => simp [CallBackStreaming]

/-! ## The streaming poll loop: the claims -/

/-- The globals after a callback are the notification's values. -/
theorem CallBackStreaming_globals {g g' : Globals}
    {handle noOfSamples startIndex overflow triggerAt triggered autoStop : Int}
    {pParameter info : Option BUFFER_INFO}
    (h : CallBackStreaming g handle noOfSamples startIndex overflow triggerAt triggered
      autoStop pParameter = some (g', info)) :
    g' = { g with g_sampleCount := noOfSamples, g_startIndex := startIndex,
                  g_autoStopped := autoStop, g_overflow := overflow, g_ready := TRUE,
                  g_trig := triggered, g_trigAt := triggerAt } := by
  unfold CallBackStreaming at h
  cases pParameter with
  | none => simp at h; exact h.1.symm
  | some bufferInfo =>
    simp only at h
    split_ifs at h
    · simp at h; exact h.1.symm
    · cases hm : bufferInfo.mode <;> simp only [hm] at h
      · split at h
        · simp only [Option.map_eq_some'] at h
          obtain ⟨_, _, h⟩ := h
          simp at h; exact h.1.symm
        · simp at h; exact h.1.symm
      · split at h
        · simp only [Option.map_eq_some'] at h
          obtain ⟨_, _, h⟩ := h
          simp at h; exact h.1.symm
        · simp at h; exact h.1.symm
      · split at h
        · simp only [Option.map_eq_some'] at h
          obtain ⟨_, _, h⟩ := h
          simp at h; exact h.1.symm
        · simp at h; exact h.1.symm
      · simp at h; exact h.1.symm

/-- What one iteration of the poll loop does to the two counters. -/
theorem pollStep_counters {drv : Driver} {st st' : StreamState} {p : Poll}
    (h : pollStep drv st p = some st') :
    (∀ n, p.notification = some n → 0 < n.noOfSamples →
      st'.totalSamples = toInt32 (st.totalSamples + n.noOfSamples) ∧
      (n.triggered ≠ 0 → st'.triggeredAt = toUInt32 (st.totalSamples + n.triggerAt)) ∧
      (n.triggered = 0 → st'.triggeredAt = st.triggeredAt)) ∧
    (p.samples = 0 → st'.totalSamples = st.totalSamples ∧ st'.triggeredAt = st.triggeredAt) := by
  unfold pollStep at h
  cases hn : p.notification with
  | none =>
    simp only [hn] at h
    have hc : ¬ ((FALSE : Int) ≠ 0 ∧ (if p.elapsed3 = true then
        { st.g with g_autoStopped := TRUE } else st.g).g_sampleCount > 0) := by
      intro hh; exact hh.1 rfl
    rw [if_neg hc] at h
    simp only [Option.some.injEq] at h
    subst h
    exact ⟨fun n hn' => (by cases hn'), fun _ => ⟨rfl, rfl⟩⟩
  | some n =>
    simp only [hn] at h
    split at h
    · exact absurd h (by simp)
    · next g₃ info hcall =>
      have hg := CallBackStreaming_globals hcall
      have h1 : g₃.g_ready = TRUE := by rw [hg]
      have h2 : g₃.g_sampleCount = n.noOfSamples := by rw [hg]
      have h3 : g₃.g_trig = n.triggered := by rw [hg]
      have h4 : g₃.g_trigAt = n.triggerAt := by rw [hg]
      by_cases hpos : 0 < n.noOfSamples
      · have hc : g₃.g_ready ≠ 0 ∧ g₃.g_sampleCount > 0 := by
          rw [h1, h2]; exact ⟨by decide, hpos⟩
        rw [if_pos hc] at h
        simp only [Option.some.injEq] at h
        subst h
        refine ⟨fun m hm _ => ?_, fun hs => ?_⟩
        · cases hm
          refine ⟨by simp only [h2], fun ht => ?_, fun ht => ?_⟩
          · simp only [h3, h4, ne_eq, ht, not_false_eq_true, if_true]
          · simp only [h3, ht, ne_eq, not_true_eq_false, if_false]
        · exfalso
          simp only [Poll.samples, hn, hpos, if_true] at hs
          omega
      · have hc : ¬ (g₃.g_ready ≠ 0 ∧ g₃.g_sampleCount > 0) := by
          rw [h2]; intro hh; exact hpos hh.2
        rw [if_neg hc] at h
        simp only [Option.some.injEq] at h
        subst h
        exact ⟨fun m hm hm' => (by cases hm; exact absurd hm' hpos), fun _ => ⟨rfl, rfl⟩⟩

/-- C10: in an iteration of the poll loop whose notification reports the trigger
fired with a positive sample count (and whose copy stays inside the buffers, so
that the iteration is defined), `triggeredAt` becomes the total accumulated before
the poll plus the reported offset, as a `uint32_t` sum, exact whenever the sum is
below 2^32, and the total afterwards is the total before plus the sample count of
the poll, as an `int32_t` sum. -/
theorem pollStep_triggeredAt (drv : Driver) (st : StreamState) (p : Poll) (n : Notification)
    (hn : p.notification = some n) (htrig : n.triggered ≠ 0) (hpos : 0 < n.noOfSamples)
    (hdef : (pollStep drv st p).isSome = true) :
    ∃ st', pollStep drv st p = some st' ∧
      st'.triggeredAt = toUInt32 (st.totalSamples + n.triggerAt) ∧
      st'.totalSamples = toInt32 (st.totalSamples + n.noOfSamples) ∧
      (0 ≤ st.totalSamples + n.triggerAt → st.totalSamples + n.triggerAt < 4294967296 →
        st'.triggeredAt = st.totalSamples + n.triggerAt) ∧
      (-2147483648 ≤ st.totalSamples + n.noOfSamples →
        st.totalSamples + n.noOfSamples ≤ 2147483647 →
        st'.totalSamples = st.totalSamples + n.noOfSamples) := by
  obtain ⟨st', hst⟩ := Option.isSome_iff_exists.mp hdef
  refine ⟨st', hst, ?_⟩
  unfold pollStep at hst
  simp only [hn] at hst
  split at hst
  · exact absurd hst (by simp)
  · next g₃ info hcall =>
    have hg := CallBackStreaming_globals hcall
    have h1 : g₃.g_ready = TRUE := by rw [hg]
    have h2 : g₃.g_sampleCount = n.noOfSamples := by rw [hg]
    have h3 : g₃.g_trig = n.triggered := by rw [hg]
    have h4 : g₃.g_trigAt = n.triggerAt := by rw [hg]
    have hc : g₃.g_ready ≠ 0 ∧ g₃.g_sampleCount > 0 := by
      rw [h1, h2]; exact ⟨by decide, hpos⟩
    rw [if_pos hc] at hst
    simp only [Option.some.injEq] at hst
    subst hst
    simp only [h3, h4, h2, htrig, ne_eq, not_false_eq_true, if_true]
    refine ⟨trivial, trivial, ?_, ?_⟩
    · intro a b; unfold toUInt32; omega
    · intro a b; exact toInt32_of_mem a b

/-- C10 on the sample state: five samples so far and a trigger at offset 1 of a
two-sample poll give `triggeredAt = 6` and a total of 7. -/
theorem pollStep_triggeredAt_witness :
    ∃ st', pollStep acceptAll sampleStreamState samplePoll = some st' ∧
      st'.triggeredAt = toUInt32 (sampleStreamState.totalSamples + sampleNotification.triggerAt) ∧
      st'.totalSamples
        = toInt32 (sampleStreamState.totalSamples + sampleNotification.noOfSamples) ∧
      (0 ≤ sampleStreamState.totalSamples + sampleNotification.triggerAt →
        sampleStreamState.totalSamples + sampleNotification.triggerAt < 4294967296 →
        st'.triggeredAt = sampleStreamState.totalSamples + sampleNotification.triggerAt) ∧
      (-2147483648 ≤ sampleStreamState.totalSamples + sampleNotification.noOfSamples →
        sampleStreamState.totalSamples + sampleNotification.noOfSamples ≤ 2147483647 →
        st'.totalSamples = sampleStreamState.totalSamples + sampleNotification.noOfSamples) :=
  pollStep_triggeredAt acceptAll sampleStreamState samplePoll sampleNotification rfl
    (by decide) (by decide) (by decide)

/-- C11, as stated, fails: `triggeredAt` is the total before the poll plus the
reported offset, not a cumulative sample count (a first trigger at offset 1 of a
three-sample poll gives 1, with totals 0 before and 3 after), and with an offset
past the samples of its poll it decreases (3 after the first poll, 1 after the
second). -/
theorem triggeredAt_not_cumulative_count :
    (pollSteps acceptAll [pollOf ⟨3, 0, 0, 1, 1, 0⟩] startStreamState).map
        (fun x => (x.1.totalSamples, x.2.2.totalSamples, x.2.2.triggeredAt))
      = [(0, 3, 1)] ∧
    (pollSteps acceptAll [pollOf ⟨1, 0, 0, 3, 1, 0⟩, pollOf ⟨1, 1, 0, 0, 1, 0⟩]
        startStreamState).map (fun x => x.2.2.triggeredAt)
      = [3, 1] := by
  constructor <;> decide

/-- C11 (amended): along the iterations of the poll loop, when every reported
trigger offset lies within the samples of its poll (`0 ≤ triggerAt ≤ noOfSamples`)
and the total stays below 2^31, `triggeredAt` does not decrease from the state
before an iteration to the state after it; after an iteration whose notification
reports the trigger with a positive sample count (so at the first such poll too)
it is the total accumulated before that poll plus the reported offset, otherwise
it is unchanged; and the total after an iteration is the total before plus the
samples of the poll. -/
theorem triggeredAt_along_run (drv : Driver) (polls : List Poll) (st₀ : StreamState)
    (hinv : 0 ≤ st₀.triggeredAt ∧ st₀.triggeredAt ≤ st₀.totalSamples)
    (hoff : ∀ p ∈ polls, ∀ n, p.notification = some n → 0 < n.noOfSamples →
      n.triggered ≠ 0 → 0 ≤ n.triggerAt ∧ n.triggerAt ≤ n.noOfSamples)
    (hsum : st₀.totalSamples + (polls.map Poll.samples).sum ≤ 2147483647) :
    ∀ x ∈ pollSteps drv polls st₀,
      x.1.triggeredAt ≤ x.2.2.triggeredAt ∧
      (∀ n, x.2.1.notification = some n → 0 < n.noOfSamples → n.triggered ≠ 0 →
        x.2.2.triggeredAt = x.1.totalSamples + n.triggerAt) ∧
      (∀ n, x.2.1.notification = some n → 0 < n.noOfSamples → n.triggered = 0 →
        x.2.2.triggeredAt = x.1.triggeredAt) ∧
      (x.2.1.samples = 0 → x.2.2.triggeredAt = x.1.triggeredAt) ∧
      x.2.2.totalSamples = x.1.totalSamples + x.2.1.samples := by
  induction polls generalizing st₀ with
  | nil =>
    intro x hx
    unfold pollSteps at hx
    split_ifs at hx <;> simp at hx
  | cons p rest ih =>
    intro x hx
    unfold pollSteps at hx
    split_ifs at hx
    · simp at hx
    · cases hstep : pollStep drv st₀ p with
      | none => simp [hstep] at hx
      | some st' =>
        simp only [hstep, List.mem_cons] at hx
        obtain ⟨hc₁, hc₂⟩ := pollStep_counters hstep
        have hnonneg : 0 ≤ p.samples := by
          unfold Poll.samples
          cases p.notification with
          | none => simp
          | some n => simp only; split_ifs <;> omega
        have hrest : 0 ≤ (rest.map Poll.samples).sum := by
          apply List.sum_nonneg
          intro y hy
          obtain ⟨q, _, rfl⟩ := List.mem_map.mp hy
          unfold Poll.samples
          cases q.notification with
          | none => simp
          | some n => simp only; split_ifs <;> omega
        simp only [List.map_cons, List.sum_cons] at hsum
        -- the facts about this iteration
        have hthis : st₀.triggeredAt ≤ st'.triggeredAt ∧
            (∀ n, p.notification = some n → 0 < n.noOfSamples → n.triggered ≠ 0 →
              st'.triggeredAt = st₀.totalSamples + n.triggerAt) ∧
            (∀ n, p.notification = some n → 0 < n.noOfSamples → n.triggered = 0 →
              st'.triggeredAt = st₀.triggeredAt) ∧
            (p.samples = 0 → st'.triggeredAt = st₀.triggeredAt) ∧
            st'.totalSamples = st₀.totalSamples + p.samples ∧
            st'.triggeredAt ≤ st'.totalSamples := by
          cases hn : p.notification with
          | none =>
            have hs : p.samples = 0 := by simp [Poll.samples, hn]
            obtain ⟨e1, e2⟩ := hc₂ hs
            refine ⟨by omega, fun n hn' => (by cases hn'), fun n hn' => (by cases hn'),
              fun _ => e2, by omega, by omega⟩
          | some n =>
            by_cases hpos : 0 < n.noOfSamples
            · have hs : p.samples = n.noOfSamples := by simp [Poll.samples, hn, hpos]
              obtain ⟨e1, e2, e3⟩ := hc₁ n hn hpos
              have etot : st'.totalSamples = st₀.totalSamples + n.noOfSamples := by
                rw [e1]; exact toInt32_of_mem (by omega) (by omega)
              by_cases ht : n.triggered = 0
              · have e := e3 ht
                refine ⟨by omega, fun m hm _ hm' => ?_, fun m hm _ _ => e, fun _ => e,
                  by omega, by omega⟩
                cases hm
                exact absurd ht hm'
              · have e := e2 ht
                obtain ⟨o1, o2⟩ := hoff p (List.mem_cons_self _ _) n hn hpos ht
                have e' : st'.triggeredAt = st₀.totalSamples + n.triggerAt := by
                  rw [e]; unfold toUInt32; omega
                refine ⟨by omega, fun m hm _ _ => ?_, fun m hm _ hm' => ?_, fun h0 => ?_,
                  by omega, by omega⟩
                · cases hm; exact e'
                · cases hm; exact absurd hm' ht
                · omega
            · have hs : p.samples = 0 := by simp [Poll.samples, hn, hpos]
              obtain ⟨e1, e2⟩ := hc₂ hs
              refine ⟨by omega, fun m hm hm' => ?_, fun m hm hm' => ?_, fun _ => e2,
                by omega, by omega⟩
              · cases hm; exact absurd hm' hpos
              · cases hm; exact absurd hm' hpos
        obtain ⟨t1, t2, t3, t4, t5, t6⟩ := hthis
        rcases hx with rfl | hx
        · exact ⟨t1, t2, t3, t4, t5⟩
        · exact ih st' ⟨by omega, t6⟩
            (fun q hq => hoff q (List.mem_cons_of_mem _ hq)) (by omega) x hx

/-- The amended C11 on a run of two polls from the start state, both of which are
executed: three samples with the trigger at offset 1, then one sample without
trigger. -/
theorem triggeredAt_along_run_witness :
    (0 ≤ startStreamState.triggeredAt ∧
      startStreamState.triggeredAt ≤ startStreamState.totalSamples) ∧
    (pollSteps acceptAll [pollOf ⟨3, 0, 0, 1, 1, 0⟩, pollOf ⟨1, 3, 0, 0, 0, 0⟩]
        startStreamState).length = 2 ∧
    ∀ x ∈ pollSteps acceptAll [pollOf ⟨3, 0, 0, 1, 1, 0⟩, pollOf ⟨1, 3, 0, 0, 0, 0⟩]
        startStreamState,
      x.1.triggeredAt ≤ x.2.2.triggeredAt ∧
      (∀ n, x.2.1.notification = some n → 0 < n.noOfSamples → n.triggered ≠ 0 →
        x.2.2.triggeredAt = x.1.totalSamples + n.triggerAt) ∧
      (∀ n, x.2.1.notification = some n → 0 < n.noOfSamples → n.triggered = 0 →
        x.2.2.triggeredAt = x.1.triggeredAt) ∧
      (x.2.1.samples = 0 → x.2.2.triggeredAt = x.1.triggeredAt) ∧
      x.2.2.totalSamples = x.1.totalSamples + x.2.1.samples :=
  ⟨by decide, by decide,
   triggeredAt_along_run acceptAll [pollOf ⟨3, 0, 0, 1, 1, 0⟩, pollOf ⟨1, 3, 0, 0, 0, 0⟩]
    startStreamState (by decide)
    (by
      intro p hp n hn _ _
      simp only [List.mem_cons, List.mem_singleton, List.not_mem_nil, or_false] at hp
      rcases hp with rfl | rfl <;> (cases hn; decide))
    (by decide)⟩

/-- The run of the witness of C11 does execute its two polls: the values of
`triggeredAt` and of the total after each. -/
theorem triggeredAt_along_run_values :
    (pollSteps acceptAll [pollOf ⟨3, 0, 0, 1, 1, 0⟩, pollOf ⟨1, 3, 0, 0, 0, 0⟩]
        startStreamState).map (fun x => (x.2.2.triggeredAt, x.2.2.totalSamples))
      = [(1, 3), (1, 4)] := by
  decide

/-- The state at the exit of the poll loop is the state after the last iteration
executed (the start state when none is). -/
theorem pollLoop_eq_last_step (drv : Driver) (polls : List Poll) (st final : StreamState)
    (h : pollLoop drv polls st = some final) :
    final = (((pollSteps drv polls st).getLast?).map (fun x => x.2.2)).getD st := by
  induction polls generalizing st with
  | nil =>
    unfold pollLoop at h
    unfold pollSteps
    by_cases hs : st.g.g_autoStopped ≠ 0
    · rw [if_pos hs] at h
      rw [if_pos hs]
      simp only [Option.some.injEq] at h
      simp [h]
    · rw [if_neg hs] at h
      simp at h
  | cons p rest ih =>
    unfold pollLoop at h
    unfold pollSteps
    by_cases hs : st.g.g_autoStopped ≠ 0
    · rw [if_pos hs] at h
      rw [if_pos hs]
      simp only [Option.some.injEq] at h
      simp [h]
    · rw [if_neg hs] at h
      rw [if_neg hs]
      cases hstep : pollStep drv st p with
      | none => simp [hstep] at h
      | some st' =>
        simp only [hstep] at h ⊢
        have hfin := ih st' h
        cases hl : pollSteps drv rest st' with
        | nil =>
          rw [hl] at hfin
          simpa using hfin
        | cons y ys =>
          rw [hl] at hfin
          rw [List.getLast?_cons_cons]
          cases hgl : (y :: ys).getLast? with
          | none => exact absurd (List.getLast?_eq_none_iff.mp hgl) (by simp)
          | some z =>
            rw [hgl] at hfin
            simpa using hfin

/-- After an iteration that delivered a notification, `g_overflow` and
`g_autoStopped` are the values of that notification, whatever they were before. -/
theorem pollStep_flags {drv : Driver} {st st' : StreamState} {p : Poll} {n : Notification}
    (h : pollStep drv st p = some st') (hn : p.notification = some n) :
    st'.g.g_overflow = n.overflow ∧ st'.g.g_autoStopped = n.autoStop := by
  unfold pollStep at h
  simp only [hn] at h
  split at h
  · exact absurd h (by simp)
  · next g₃ info hcall =>
    have hg := CallBackStreaming_globals hcall
    have h1 : g₃.g_overflow = n.overflow := by rw [hg]
    have h2 : g₃.g_autoStopped = n.autoStop := by rw [hg]
    split_ifs at h <;>
      (simp only [Option.some.injEq] at h; subst h; exact ⟨h1, h2⟩)

/-- The overflow report at the end of `StreamDataHandler` is taken exactly when
`g_overflow` is non-zero at the exit of the poll loop. -/
theorem StreamDataHandler_overflowReported {api : Api} {drv : Driver} {inp : StreamInputs}
    {unit : UNIT} {preTrigger : Int} {mode : MODE} {g : Globals} {tr : Trace}
    {r : StreamResult} (h : StreamDataHandler api drv inp unit preTrigger mode g tr = some r) :
    r.overflowReported = decide (r.final.g.g_overflow ≠ 0) ∧
    r.aborted = decide (r.final.g.g_autoStopped = 0) := by
  unfold StreamDataHandler at h
  simp only at h
  split at h
  · exact absurd h (by simp)
  · split at h
    · exact absurd h (by simp)
    · simp only [Option.some.injEq] at h
      subst h
      exact ⟨rfl, rfl⟩

/-- C12, the code at a failing input: the callback assigns `g_overflow = overflow`
at every notification, so a notification without overflow after one with
overflow clears the flag: after the two polls of this run `g_overflow` is 1 and
then 0, and the loop exits with `g_overflow = 0`, on which the report at the end
of the run depends. -/
theorem overflow_flag_cleared_by_later_notification :
    (pollSteps acceptAll [pollOf ⟨2, 0, 1, 0, 0, 0⟩, pollOf ⟨1, 2, 0, 0, 0, 1⟩]
        startStreamState).map (fun x => x.2.2.g.g_overflow) = [1, 0] ∧
    (pollLoop acceptAll [pollOf ⟨2, 0, 1, 0, 0, 0⟩, pollOf ⟨1, 2, 0, 0, 0, 1⟩]
        startStreamState).map (fun st => (st.totalSamples, st.g.g_overflow)) = some (3, 0) := by
  constructor <;> decide

/-- The part of C13 that holds: an iteration that finds the time budget exceeded
and in which the driver delivers no notification, or one that reports auto-stop,
leaves `g_autoStopped` set, so that the loop exits after it. -/
theorem pollStep_budget_exceeded {drv : Driver} {st st' : StreamState} {p : Poll}
    (h : pollStep drv st p = some st') (hlate : p.elapsed3 = true)
    (hn : ∀ n, p.notification = some n → n.autoStop ≠ 0) :
    st'.g.g_autoStopped ≠ 0 := by
  cases hp : p.notification with
  | some n =>
    rw [(pollStep_flags h hp).2]
    exact hn n hp
  | none =>
    unfold pollStep at h
    have hT : (TRUE : Int) ≠ 0 := by decide
    simp only [hp, hlate, if_true] at h
    split_ifs at h <;>
      (simp only [Option.some.injEq] at h; subst h; exact hT)

/-- C13, the code at a failing input: the iteration that finds three seconds
elapsed sets `g_autoStopped`, but the callback run by the poll of the same
iteration overwrites it with the `autoStop` of the notification; with a
notification that does not report auto-stop the loop goes on and polls again
(here once more, where the notification reports auto-stop). -/
theorem budget_exceeded_iteration_not_last :
    (pollSteps acceptAll [latePollOf ⟨2, 0, 0, 0, 0, 0⟩, latePollOf ⟨1, 2, 0, 0, 0, 1⟩]
        startStreamState).map (fun x => (x.2.1.elapsed3, x.2.2.g.g_autoStopped))
      = [(true, 0), (true, 1)] ∧
    (pollLoop acceptAll [latePollOf ⟨2, 0, 0, 0, 0, 0⟩, latePollOf ⟨1, 2, 0, 0, 0, 1⟩]
        startStreamState).map (fun st => st.tr)
      = some [Event.call (.GetStreamingLatestValues 1) 0,
              Event.call (.GetStreamingLatestValues 1) 0] := by
  constructor <;> decide

/-! ## Allocation and binding of the sample buffers: facts -/

/-- The enabled channels are the channels below `channelCount` whose `enabled` flag
is set. -/
theorem mem_enabledChannels (unit : UNIT) (c : Nat) :
    c ∈ enabledChannels unit ↔ c < unit.channelCount.toNat ∧ channelEnabled unit c = true := by
  simp [enabledChannels]

/-- A filter keeps a concatenation whose pieces all pass it. -/
theorem filter_flatMap_self {α : Type} (p : Action → Bool) (g : α → List Action) (l : List α)
    (h : ∀ i, ∀ a ∈ g i, p a = true) : (l.flatMap g).filter p = l.flatMap g :=
  List.filter_eq_self.2 (fun a ha => by
    obtain ⟨i, _, hi⟩ := List.mem_flatMap.1 ha
    exact h i a hi)

/-- A filter empties a concatenation whose pieces all fail it. -/
theorem filter_flatMap_nil {α : Type} (p : Action → Bool) (g : α → List Action) (l : List α)
    (h : ∀ i, ∀ a ∈ g i, p a = false) : (l.flatMap g).filter p = [] :=
  List.filter_eq_nil_iff.2 (fun a ha => by
    obtain ⟨i, _, hi⟩ := List.mem_flatMap.1 ha
    simp [h i a hi])

/-- A filter empties a list whose elements all fail it. -/
theorem filter_map_nil {α : Type} (p : Action → Bool) (g : α → Action) (l : List α)
    (h : ∀ i, p (g i) = false) : (l.map g).filter p = [] :=
  List.filter_eq_nil_iff.2 (fun a ha => by
    obtain ⟨i, _, hi⟩ := List.mem_map.1 ha
    simp [← hi, h i])

/-- The calls of `ClearDataBuffers` pass no buffer. -/
theorem filter_analogue_clearCalls (api : Api) (unit : UNIT) :
    ((clearCalls api unit).map Action.call).filter Action.analogue = [] := by
  unfold clearCalls
  rw [List.map_append, List.filter_append, List.map_map, List.map_map,
    filter_map_nil _ _ _ (fun _ => rfl), filter_map_nil _ _ _ (fun _ => rfl)]
  rfl

/-- The releases of `BlockDataHandler` allocate and bind nothing. -/
theorem filter_analogue_blockFrees (unit : UNIT) (mode : MODE) (etsModeSet : Int) :
    ((blockFrees unit mode etsModeSet).map Event.action).filter Action.analogue = [] := by
  apply List.filter_eq_nil_iff.2
  intro a ha
  obtain ⟨e, he, rfl⟩ := List.mem_map.1 ha
  unfold blockFrees at he
  simp only [List.mem_append] at he
  rcases he with (he | he) | he
  · split_ifs at he
    · obtain ⟨i, _, hi⟩ := List.mem_flatMap.1 he
      simp at hi
      rcases hi with rfl | rfl <;> simp [Event.action, Action.analogue]
    · simp at he
  · split_ifs at he
    · simp at he; subst he; simp [Event.action, Action.analogue]
    · simp at he
  · split_ifs at he
    · obtain ⟨i, _, rfl⟩ := List.mem_map.1 he
      simp [Event.action, Action.analogue]
    · simp at he

/-- The releases of `StreamDataHandler` allocate and bind nothing. -/
theorem filter_analogue_streamFrees (unit : UNIT) (mode : MODE) :
    ((streamFrees unit mode).map Event.action).filter Action.analogue = [] := by
  apply List.filter_eq_nil_iff.2
  intro a ha
  obtain ⟨e, he, rfl⟩ := List.mem_map.1 ha
  unfold streamFrees at he
  cases mode <;> simp only [List.mem_flatMap] at he
  · obtain ⟨i, _, hi⟩ := he
    simp at hi
    rcases hi with rfl | rfl | rfl | rfl <;> simp [Event.action, Action.analogue]
  · obtain ⟨i, _, hi⟩ := he
    simp at hi
    rcases hi with rfl | rfl <;> simp [Event.action, Action.analogue]
  · obtain ⟨i, _, hi⟩ := he
    simp at hi
    rcases hi with rfl | rfl <;> simp [Event.action, Action.analogue]
  · simp at he

/-- The analogue allocations and bindings among the actions of `BlockDataHandler`. -/
theorem filter_analogue_blockActions (api : Api) (unit : UNIT) (mode : MODE)
    (etsModeSet oversample : Int) (tried : List Int) (timebase : Int) (fetched : Bool)
    (hmode : mode = .ANALOGUE ∨ mode = .MIXED) :
    (blockActions api unit mode etsModeSet oversample tried timebase fetched).filter
        Action.analogue
      = (enabledChannels unit).flatMap (blockPairActions api unit BUFFER_SIZE) := by
  unfold blockActions
  simp only [List.filter_append, filter_analogue_clearCalls, filter_analogue_blockFrees,
    if_pos hmode, List.append_nil]
  rw [filter_flatMap_self _ _ _ (by
    intro i a ha
    simp [blockPairActions] at ha
    rcases ha with rfl | rfl | rfl <;> rfl)]
  rw [filter_map_nil _ _ _ (fun _ => rfl)]
  have h2 : (if mode = .ANALOGUE ∧ etsModeSet = TRUE then
      [Action.malloc .etsTime BUFFER_SIZE,
       Action.call (.SetEtsTimeBuffer unit.handle (some .etsTime) BUFFER_SIZE)]
      else []).filter Action.analogue = [] := by
    split_ifs <;> rfl
  have h3 : (if mode = .DIGITAL ∨ mode = .MIXED then
      (List.range unit.digitalPorts.toNat).flatMap (blockPortActions api unit BUFFER_SIZE)
      else []).filter Action.analogue = [] := by
    split_ifs
    · exact filter_flatMap_nil _ _ _ (by
        intro i a ha
        simp [blockPortActions] at ha
        rcases ha with rfl | rfl <;> rfl)
    · rfl
  have h4 : (if fetched = true then
      [Action.call (.GetValues unit.handle 0 BUFFER_SIZE 10 api.PS2000A_RATIO_MODE_NONE 0)]
      else []).filter Action.analogue = [] := by
    split_ifs <;> rfl
  rw [h2, h3, h4]
  simp [Action.analogue]

/-- The analogue allocations and bindings among the actions of `StreamDataHandler`. -/
theorem filter_analogue_streamActions (api : Api) (unit : UNIT) (preTrigger : Int)
    (polled : Nat) :
    (streamActions api unit .ANALOGUE preTrigger polled).filter Action.analogue
      = (enabledChannels unit).flatMap (streamPairActions api unit 40000) := by
  unfold streamActions
  simp only [List.filter_append, filter_analogue_clearCalls, filter_analogue_streamFrees,
    List.append_nil, streamSettings]
  rw [filter_flatMap_self _ _ _ (by
    intro i a ha
    simp [streamPairActions] at ha
    rcases ha with rfl | rfl | rfl | rfl | rfl <;> rfl)]
  have h2 : (List.replicate polled
      (Action.call (.GetStreamingLatestValues unit.handle))).filter Action.analogue = [] :=
    List.filter_eq_nil_iff.2 (fun a ha => by
      rw [List.eq_of_mem_replicate ha]; simp [Action.analogue])
  rw [h2]
  simp [Action.analogue]

/-- The actions of `BlockDataHandler`, by kind. -/
theorem mem_blockActions {api : Api} {unit : UNIT} {mode : MODE} {etsModeSet oversample : Int}
    {tried : List Int} {timebase : Int} {fetched : Bool} {a : Action}
    (h : a ∈ blockActions api unit mode etsModeSet oversample tried timebase fetched) :
    (∃ i ∈ enabledChannels unit, (mode = .ANALOGUE ∨ mode = .MIXED) ∧
      a ∈ blockPairActions api unit BUFFER_SIZE i) ∨
    (∃ i ∈ List.range unit.digitalPorts.toNat, (mode = .DIGITAL ∨ mode = .MIXED) ∧
      a ∈ blockPortActions api unit BUFFER_SIZE i) ∨
    a = Action.malloc .etsTime BUFFER_SIZE ∨
    a = Action.call (.SetEtsTimeBuffer unit.handle (some .etsTime) BUFFER_SIZE) ∨
    (∃ t, a = Action.call (.GetTimebase unit.handle t BUFFER_SIZE oversample 0)) ∨
    a = Action.call (.RunBlock unit.handle 0 BUFFER_SIZE timebase oversample 0) ∨
    a = Action.call (.GetValues unit.handle 0 BUFFER_SIZE 10 api.PS2000A_RATIO_MODE_NONE 0) ∨
    a = Action.call (.Stop unit.handle) ∨
    (∃ b, a = Action.free b) ∨
    (∃ c ∈ clearCalls api unit, a = Action.call c) := by
  unfold blockActions at h
  simp only [List.mem_append] at h
  rcases h with (((((((h | h) | h) | h) | h) | h) | h) | h) | h
  · split_ifs at h with hm
    · obtain ⟨i, hi, ha⟩ := List.mem_flatMap.1 h
      exact Or.inl ⟨i, hi, hm, ha⟩
    · simp at h
  · split_ifs at h
    · simp at h
      rcases h with rfl | rfl <;> simp
    · simp at h
  · split_ifs at h with hm
    · obtain ⟨i, hi, ha⟩ := List.mem_flatMap.1 h
      exact Or.inr (Or.inl ⟨i, hi, hm, ha⟩)
    · simp at h
  · obtain ⟨t, _, rfl⟩ := List.mem_map.1 h
    simp
  · simp at h; subst h; simp
  · split_ifs at h
    · simp at h; subst h; simp
    · simp at h
  · simp at h; subst h; simp
  · obtain ⟨e, he, rfl⟩ := List.mem_map.1 h
    have : ∃ b, e = Event.free b := by
      unfold blockFrees at he
      simp only [List.mem_append] at he
      rcases he with (he | he) | he
      · split_ifs at he
        · obtain ⟨i, _, hi⟩ := List.mem_flatMap.1 he
          simp at hi
          rcases hi with rfl | rfl <;> exact ⟨_, rfl⟩
        · simp at he
      · split_ifs at he
        · simp at he; subst he; exact ⟨_, rfl⟩
        · simp at he
      · split_ifs at he
        · obtain ⟨i, _, rfl⟩ := List.mem_map.1 he
          exact ⟨_, rfl⟩
        · simp at he
    obtain ⟨b, rfl⟩ := this
    simp [Event.action]
  · obtain ⟨c, hc, rfl⟩ := List.mem_map.1 h
    exact Or.inr (Or.inr (Or.inr (Or.inr (Or.inr (Or.inr (Or.inr (Or.inr (Or.inr
      ⟨c, hc, rfl⟩))))))))

/-- A call of `ClearDataBuffers` binds its channel to no buffer, with length zero. -/
theorem binding_clearCalls {api : Api} {unit : UNIT} {c : DriverCall}
    (h : c ∈ clearCalls api unit) : ∃ channel, c.binding = some (channel, [], 0) := by
  unfold clearCalls at h
  rcases List.mem_append.1 h with h | h
  · obtain ⟨i, _, rfl⟩ := List.mem_map.1 h
    exact ⟨_, rfl⟩
  · obtain ⟨i, _, rfl⟩ := List.mem_map.1 h
    exact ⟨_, rfl⟩

/-- A call of `ClearDataBuffers` starts no run. -/
theorem runStart_clearCalls {api : Api} {unit : UNIT} {c : DriverCall}
    (h : c ∈ clearCalls api unit) : c.runStart = none := by
  unfold clearCalls at h
  rcases List.mem_append.1 h with h | h
  · obtain ⟨i, _, rfl⟩ := List.mem_map.1 h
    rfl
  · obtain ⟨i, _, rfl⟩ := List.mem_map.1 h
    rfl

/-- The actions of `BlockDataHandler` agree on 1024 samples. -/
theorem sizedFor_blockActions (api : Api) (unit : UNIT) (mode : MODE)
    (etsModeSet oversample : Int) (tried : List Int) (timebase : Int) (fetched : Bool) :
    sizedFor 1024 (blockActions api unit mode etsModeSet oversample tried timebase fetched) := by
  have hmalloc : ∀ b n, Action.malloc b n ∈
      blockActions api unit mode etsModeSet oversample tried timebase fetched → n = 1024 := by
    intro b n h
    rcases mem_blockActions h with ⟨i, _, _, ha⟩ | ⟨i, _, _, ha⟩ | h | h | ⟨t, h⟩ | h | h | h |
      ⟨b, h⟩ | ⟨c, _, h⟩
    · simp [blockPairActions] at ha
      rcases ha with ⟨_, rfl⟩ | ⟨_, rfl⟩ <;> rfl
    · simp [blockPortActions] at ha
      rcases ha with ⟨_, rfl⟩; rfl
    · cases h; rfl
    all_goals cases h
  refine ⟨?_, ?_, ?_⟩
  · intro c channel buffers len hc hb hne
    rcases mem_blockActions hc with ⟨i, hi, hm, ha⟩ | ⟨i, hi, hm, ha⟩ | h | h | ⟨t, h⟩ | h | h |
      h | ⟨b, h⟩ | ⟨c', hc', h⟩
    · simp [blockPairActions] at ha
      subst ha
      simp only [DriverCall.binding, Option.some.injEq, Prod.mk.injEq] at hb
      obtain ⟨_, rfl, rfl⟩ := hb
      refine ⟨rfl, ?_⟩
      intro b hb
      refine ⟨?_, fun n hn => hmalloc b n hn⟩
      unfold blockActions
      simp only [List.mem_append, if_pos hm]
      refine Or.inl (Or.inl (Or.inl (Or.inl (Or.inl (Or.inl (Or.inl (Or.inl ?_)))))))
      refine List.mem_flatMap.2 ⟨i, hi, ?_⟩
      simp at hb
      rcases hb with rfl | rfl <;> simp [blockPairActions, BUFFER_SIZE]
    · simp [blockPortActions] at ha
      subst ha
      simp only [DriverCall.binding, Option.some.injEq, Prod.mk.injEq] at hb
      obtain ⟨_, rfl, rfl⟩ := hb
      refine ⟨rfl, ?_⟩
      intro b hb
      refine ⟨?_, fun n hn => hmalloc b n hn⟩
      unfold blockActions
      simp only [List.mem_append, if_pos hm]
      refine Or.inl (Or.inl (Or.inl (Or.inl (Or.inl (Or.inl (Or.inr ?_))))))
      refine List.mem_flatMap.2 ⟨i, hi, ?_⟩
      simp at hb
      subst hb
      simp [blockPortActions, BUFFER_SIZE]
    · cases h
    · cases h; simp [DriverCall.binding] at hb
    · cases h; simp [DriverCall.binding] at hb
    · cases h; simp [DriverCall.binding] at hb
    · cases h; simp [DriverCall.binding] at hb
    · cases h; simp [DriverCall.binding] at hb
    · cases h
    · cases h
      obtain ⟨ch, hch⟩ := binding_clearCalls hc'
      rw [hch] at hb
      simp only [Option.some.injEq, Prod.mk.injEq] at hb
      exact absurd hb.2.1.symm hne
  · refine ⟨.RunBlock unit.handle 0 BUFFER_SIZE timebase oversample 0, ?_, rfl⟩
    unfold blockActions
    simp
  · intro c n hc hr
    rcases mem_blockActions hc with ⟨i, hi, hm, ha⟩ | ⟨i, hi, hm, ha⟩ | h | h | ⟨t, h⟩ | h | h |
      h | ⟨b, h⟩ | ⟨c', hc', h⟩
    · simp [blockPairActions] at ha
      subst ha
      simp [DriverCall.runStart] at hr
    · simp [blockPortActions] at ha
      subst ha
      simp [DriverCall.runStart] at hr
    · cases h
    · cases h; simp [DriverCall.runStart] at hr
    · cases h; simp [DriverCall.runStart] at hr
    · cases h; simp [DriverCall.runStart, BUFFER_SIZE] at hr; exact hr.symm
    · cases h; simp [DriverCall.runStart] at hr
    · cases h; simp [DriverCall.runStart] at hr
    · cases h
    · cases h
      rw [runStart_clearCalls hc'] at hr
      cases hr

/-- The releases of `StreamDataHandler` are releases. -/
theorem mem_streamFrees {unit : UNIT} {mode : MODE} {e : Event}
    (he : e ∈ streamFrees unit mode) : ∃ b, e = Event.free b := by
  unfold streamFrees at he
  cases mode <;> simp only [List.mem_flatMap] at he
  · obtain ⟨i, _, hi⟩ := he
    simp at hi
    rcases hi with rfl | rfl | rfl | rfl <;> exact ⟨_, rfl⟩
  · obtain ⟨i, _, hi⟩ := he
    simp at hi
    rcases hi with rfl | rfl <;> exact ⟨_, rfl⟩
  · obtain ⟨i, _, hi⟩ := he
    simp at hi
    rcases hi with rfl | rfl <;> exact ⟨_, rfl⟩
  · simp at he

/-- The actions of `StreamDataHandler`, by kind. -/
theorem mem_streamActions {api : Api} {unit : UNIT} {mode : MODE} {preTrigger : Int}
    {polled : Nat} {a : Action} (h : a ∈ streamActions api unit mode preTrigger polled) :
    (∃ i ∈ enabledChannels unit, mode = .ANALOGUE ∧ a ∈ streamPairActions api unit 40000 i) ∨
    (∃ i ∈ List.range unit.digitalPorts.toNat, mode = .AGGREGATED ∧
      a ∈ aggregatedPairActions api unit 40000 i) ∨
    (∃ i ∈ List.range unit.digitalPorts.toNat, mode = .DIGITAL ∧
      a ∈ streamPortActions api unit 40000 i) ∨
    (∃ sampleInterval timeUnits maxPost autoStop ratio ratioMode,
      a = Action.call (.RunStreaming unit.handle sampleInterval timeUnits preTrigger maxPost
        autoStop ratio ratioMode 40000)) ∨
    a = Action.call (.GetStreamingLatestValues unit.handle) ∨
    a = Action.call (.Stop unit.handle) ∨
    (∃ b, a = Action.free b) ∨
    (∃ c ∈ clearCalls api unit, a = Action.call c) := by
  unfold streamActions at h
  simp only [List.mem_append] at h
  rcases h with ((((h | h) | h) | h) | h) | h
  · cases mode <;> simp only at h
    · obtain ⟨i, hi, ha⟩ := List.mem_flatMap.1 h
      exact Or.inl ⟨i, hi, rfl, ha⟩
    · obtain ⟨i, hi, ha⟩ := List.mem_flatMap.1 h
      exact Or.inr (Or.inr (Or.inl ⟨i, hi, rfl, ha⟩))
    · obtain ⟨i, hi, ha⟩ := List.mem_flatMap.1 h
      exact Or.inr (Or.inl ⟨i, hi, rfl, ha⟩)
    · simp at h
  · cases mode <;> simp [streamSettings] at h <;> subst h <;>
      exact Or.inr (Or.inr (Or.inr (Or.inl ⟨_, _, _, _, _, _, rfl⟩)))
  · rw [List.eq_of_mem_replicate h]; simp
  · simp at h; subst h; simp
  · obtain ⟨e, he, rfl⟩ := List.mem_map.1 h
    obtain ⟨b, rfl⟩ := mem_streamFrees he
    simp [Event.action]
  · obtain ⟨c, hc, rfl⟩ := List.mem_map.1 h
    exact Or.inr (Or.inr (Or.inr (Or.inr (Or.inr (Or.inr (Or.inr ⟨c, hc, rfl⟩))))))

/-- The actions of `StreamDataHandler` agree on 40000 samples. -/
theorem sizedFor_streamActions (api : Api) (unit : UNIT) (mode : MODE) (preTrigger : Int)
    (polled : Nat) (hmode : mode ≠ .MIXED) :
    sizedFor 40000 (streamActions api unit mode preTrigger polled) := by
  have hmalloc : ∀ b n, Action.malloc b n ∈ streamActions api unit mode preTrigger polled →
      n = 40000 := by
    intro b n h
    rcases mem_streamActions h with ⟨i, _, _, ha⟩ | ⟨i, _, _, ha⟩ | ⟨i, _, _, ha⟩ |
      ⟨_, _, _, _, _, _, h⟩ | h | h | ⟨b, h⟩ | ⟨c, _, h⟩
    · simp [streamPairActions] at ha
      rcases ha with ⟨_, rfl⟩ | ⟨_, rfl⟩ | ⟨_, rfl⟩ | ⟨_, rfl⟩ <;> rfl
    · simp [aggregatedPairActions] at ha
      rcases ha with ⟨_, rfl⟩ | ⟨_, rfl⟩ | ⟨_, rfl⟩ | ⟨_, rfl⟩ <;> rfl
    · simp [streamPortActions] at ha
      rcases ha with ⟨_, rfl⟩ | ⟨_, rfl⟩ <;> rfl
    all_goals cases h
  refine ⟨?_, ?_, ?_⟩
  · intro c channel buffers len hc hb hne
    rcases mem_streamActions hc with ⟨i, hi, hm, ha⟩ | ⟨i, hi, hm, ha⟩ | ⟨i, hi, hm, ha⟩ |
      ⟨_, _, _, _, _, _, h⟩ | h | h | ⟨b, h⟩ | ⟨c', hc', h⟩
    · simp [streamPairActions] at ha
      subst ha
      simp only [DriverCall.binding, Option.some.injEq, Prod.mk.injEq] at hb
      obtain ⟨_, rfl, rfl⟩ := hb
      refine ⟨rfl, ?_⟩
      intro b hb
      refine ⟨?_, fun n hn => hmalloc b n hn⟩
      unfold streamActions
      simp only [List.mem_append, hm]
      refine Or.inl (Or.inl (Or.inl (Or.inl (Or.inl ?_))))
      refine List.mem_flatMap.2 ⟨i, hi, ?_⟩
      simp at hb
      rcases hb with rfl | rfl <;> simp [streamPairActions]
    · simp [aggregatedPairActions] at ha
      subst ha
      simp only [DriverCall.binding, Option.some.injEq, Prod.mk.injEq] at hb
      obtain ⟨_, rfl, rfl⟩ := hb
      refine ⟨rfl, ?_⟩
      intro b hb
      refine ⟨?_, fun n hn => hmalloc b n hn⟩
      unfold streamActions
      simp only [List.mem_append, hm]
      refine Or.inl (Or.inl (Or.inl (Or.inl (Or.inl ?_))))
      refine List.mem_flatMap.2 ⟨i, hi, ?_⟩
      simp at hb
      rcases hb with rfl | rfl <;> simp [aggregatedPairActions]
    · simp [streamPortActions] at ha
      subst ha
      simp only [DriverCall.binding, Option.some.injEq, Prod.mk.injEq] at hb
      obtain ⟨_, rfl, rfl⟩ := hb
      refine ⟨rfl, ?_⟩
      intro b hb
      refine ⟨?_, fun n hn => hmalloc b n hn⟩
      unfold streamActions
      simp only [List.mem_append, hm]
      refine Or.inl (Or.inl (Or.inl (Or.inl (Or.inl ?_))))
      refine List.mem_flatMap.2 ⟨i, hi, ?_⟩
      simp at hb
      subst hb
      simp [streamPortActions]
    · cases h; simp [DriverCall.binding] at hb
    · cases h; simp [DriverCall.binding] at hb
    · cases h; simp [DriverCall.binding] at hb
    · cases h
    · cases h
      obtain ⟨ch, hch⟩ := binding_clearCalls hc'
      rw [hch] at hb
      simp only [Option.some.injEq, Prod.mk.injEq] at hb
      exact absurd hb.2.1.symm hne
  · unfold streamActions
    cases mode
    · exact ⟨.RunStreaming unit.handle 1 api.PS2000A_US preTrigger
        (toUInt32 (1000000 - preTrigger)) TRUE 20 api.PS2000A_RATIO_MODE_AGGREGATE 40000,
        by simp [streamSettings], rfl⟩
    · exact ⟨.RunStreaming unit.handle 10 api.PS2000A_MS preTrigger
        (toUInt32 (10 - preTrigger)) FALSE 1 api.PS2000A_RATIO_MODE_NONE 40000,
        by simp [streamSettings], rfl⟩
    · exact ⟨.RunStreaming unit.handle 10 api.PS2000A_MS preTrigger
        (toUInt32 (10 - preTrigger)) FALSE 10 api.PS2000A_RATIO_MODE_AGGREGATE 40000,
        by simp [streamSettings], rfl⟩
    · exact absurd rfl hmode
  · intro c n hc hr
    rcases mem_streamActions hc with ⟨i, hi, hm, ha⟩ | ⟨i, hi, hm, ha⟩ | ⟨i, hi, hm, ha⟩ |
      ⟨_, _, _, _, _, _, h⟩ | h | h | ⟨b, h⟩ | ⟨c', hc', h⟩
    · simp [streamPairActions] at ha
      subst ha
      simp [DriverCall.runStart] at hr
    · simp [aggregatedPairActions] at ha
      subst ha
      simp [DriverCall.runStart] at hr
    · simp [streamPortActions] at ha
      subst ha
      simp [DriverCall.runStart] at hr
    · cases h; simp [DriverCall.runStart] at hr; exact hr.symm
    · cases h; simp [DriverCall.runStart] at hr
    · cases h; simp [DriverCall.runStart] at hr
    · cases h
    · cases h
      rw [runStart_clearCalls hc'] at hr
      cases hr

/-- The actions of `CollectRapidBlock` up to the run are driver calls that bind
nothing; the only run-start among them is the one for 1000 samples. -/
theorem mem_rapidSetUp {api : Api} {unit : UNIT} {triggerVoltage : Int} {facets : Nat}
    {nCaptures : Int} {a : Action}
    (h : a ∈ rapidSetUp api unit triggerVoltage facets nCaptures) :
    ∃ c, a = Action.call c ∧ c.binding = none ∧
      (c.runStart = none ∨ c = .RunBlock unit.handle 0 1000 160 1 0) := by
  unfold rapidSetUp at h
  simp only [List.mem_append] at h
  rcases h with (h | h) | h
  · obtain ⟨c, hc, rfl⟩ := List.mem_map.1 h
    refine ⟨c, rfl, ?_⟩
    unfold defaultCalls at hc
    rcases List.mem_cons.1 hc with rfl | hc
    · exact ⟨rfl, Or.inl rfl⟩
    · obtain ⟨i, _, rfl⟩ := List.mem_map.1 hc
      exact ⟨rfl, Or.inl rfl⟩
  · obtain ⟨c, hc, rfl⟩ := List.mem_map.1 h
    refine ⟨c, rfl, ?_⟩
    have hc' := List.mem_of_mem_take hc
    unfold rapidFacets triggerFacets at hc'
    simp only [List.mem_append, List.mem_cons, List.mem_singleton, List.not_mem_nil,
      or_false] at hc'
    rcases hc' with (rfl | rfl | rfl | rfl | rfl) | hc'
    · exact ⟨rfl, Or.inl rfl⟩
    · exact ⟨rfl, Or.inl rfl⟩
    · exact ⟨rfl, Or.inl rfl⟩
    · exact ⟨rfl, Or.inl rfl⟩
    · exact ⟨rfl, Or.inl rfl⟩
    · split_ifs at hc'
      · simp at hc'; subst hc'; exact ⟨rfl, Or.inl rfl⟩
      · simp at hc'
  · simp only [List.mem_cons, List.mem_singleton, List.not_mem_nil, or_false] at h
    rcases h with rfl | rfl | rfl | rfl
    · exact ⟨_, rfl, rfl, Or.inl rfl⟩
    · exact ⟨_, rfl, rfl, Or.inl rfl⟩
    · exact ⟨_, rfl, rfl, Or.inl rfl⟩
    · exact ⟨_, rfl, rfl, Or.inr rfl⟩

/-- The actions of `CollectRapidBlock` after the wait, by kind. -/
theorem mem_rapidFetch {api : Api} {unit : UNIT} {nCaptures : Int} {a : Action}
    (h : a ∈ rapidFetch api unit nCaptures) :
    (∃ ch ∈ enabledChannels unit, ∃ capture ∈ List.range nCaptures.toNat,
      a = Action.malloc (.rapidBuffers ch capture) 1000) ∨
    (∃ ch ∈ enabledChannels unit, ∃ capture ∈ List.range nCaptures.toNat,
      a = Action.call (.SetDataBuffer unit.handle ch (some (.rapidBuffers ch capture)) 1000
        capture api.PS2000A_RATIO_MODE_NONE)) ∨
    (∃ n, a = Action.malloc .rapidArray n) ∨
    (∃ n, a = Action.malloc .overflow n) ∨
    (∃ ch n, a = Action.malloc (.rapidRow ch) n) ∨
    (∃ c, a = Action.call c ∧ c.binding = none ∧ c.runStart = none) ∨
    (∃ b, a = Action.free b) := by
  unfold rapidFetch at h
  simp only [List.mem_append, List.mem_flatMap, List.mem_map, List.mem_cons,
    List.mem_singleton, List.not_mem_nil, or_false] at h
  rcases h with (((((((h | h) | h) | h) | h) | h) | h) | h) | h
  · subst h; simp
  · subst h; simp
  · obtain ⟨ch, _, rfl⟩ := h; simp
  · obtain ⟨ch, hch, cap, hcap, rfl⟩ := h
    exact Or.inl ⟨ch, hch, cap, hcap, rfl⟩
  · obtain ⟨ch, hch, cap, hcap, rfl⟩ := h
    exact Or.inr (Or.inl ⟨ch, hch, cap, hcap, rfl⟩)
  · rcases h with rfl | rfl | rfl
    · exact Or.inr (Or.inr (Or.inr (Or.inr (Or.inr (Or.inl ⟨_, rfl, rfl, rfl⟩)))))
    · exact Or.inr (Or.inr (Or.inr (Or.inr (Or.inr (Or.inl ⟨_, rfl, rfl, rfl⟩)))))
    · simp
  · obtain ⟨ch, _, cap, _, rfl⟩ := h; simp
  · obtain ⟨ch, _, rfl⟩ := h; simp
  · subst h; simp

/-- The actions of `CollectRapidBlock` agree on 1000 samples. -/
theorem sizedFor_rapid (api : Api) (unit : UNIT) (triggerVoltage : Int) (facets : Nat)
    (requested : Int) (aborted : Bool) (early : Prop) [Decidable early] (nCaptures : Int) :
    sizedFor 1000 (rapidSetUp api unit triggerVoltage facets requested ++
      (if aborted then
        [Action.call (.Stop unit.handle), Action.call (.GetNoOfCaptures unit.handle)]
       else []) ++
      (if early then [] else rapidFetch api unit nCaptures)) := by
  have hparts : ∀ a, a ∈ rapidSetUp api unit triggerVoltage facets requested ++
      (if aborted then
        [Action.call (.Stop unit.handle), Action.call (.GetNoOfCaptures unit.handle)]
       else []) ++
      (if early then [] else rapidFetch api unit nCaptures) →
      (∃ c, a = Action.call c ∧ c.binding = none ∧
        (c.runStart = none ∨ c = .RunBlock unit.handle 0 1000 160 1 0)) ∨
      (¬ early ∧ a ∈ rapidFetch api unit nCaptures) := by
    intro a h
    simp only [List.mem_append] at h
    rcases h with (h | h) | h
    · exact Or.inl (mem_rapidSetUp h)
    · split_ifs at h
      · simp at h
        rcases h with rfl | rfl
        · exact Or.inl ⟨_, rfl, rfl, Or.inl rfl⟩
        · exact Or.inl ⟨_, rfl, rfl, Or.inl rfl⟩
      · simp at h
    · split_ifs at h with he
      · simp at h
      · exact Or.inr ⟨he, h⟩
  refine ⟨?_, ?_, ?_⟩
  · intro c channel buffers len hc hb hne
    rcases hparts _ hc with ⟨c', hc', hnone, _⟩ | ⟨he, hf⟩
    · cases hc'
      rw [hnone] at hb
      cases hb
    · rcases mem_rapidFetch hf with ⟨_, _, _, _, h⟩ | ⟨ch, hch, cap, hcap, h⟩ | ⟨_, h⟩ | ⟨_, h⟩ |
        ⟨_, _, h⟩ | ⟨c', h, hnone, _⟩ | ⟨_, h⟩
      · cases h
      · cases h
        simp only [DriverCall.binding, Option.some.injEq, Prod.mk.injEq] at hb
        obtain ⟨_, rfl, rfl⟩ := hb
        refine ⟨rfl, ?_⟩
        intro b hb
        simp at hb
        subst hb
        constructor
        · simp only [List.mem_append, if_neg he]
          refine Or.inr ?_
          unfold rapidFetch
          simp only [List.mem_append, List.mem_flatMap, List.mem_map]
          exact Or.inl (Or.inl (Or.inl (Or.inl (Or.inl (Or.inr ⟨ch, hch, cap, hcap, rfl⟩)))))
        · intro n hn
          rcases hparts _ hn with ⟨c', hc', _⟩ | ⟨_, hf'⟩
          · cases hc'
          · rcases mem_rapidFetch hf' with ⟨_, _, _, _, h⟩ | ⟨_, _, _, _, h⟩ | ⟨_, h⟩ | ⟨_, h⟩ |
              ⟨_, _, h⟩ | ⟨c', h, _⟩ | ⟨_, h⟩
            · cases h; rfl
            all_goals cases h
      · cases h
      · cases h
      · cases h
      · cases h
        rw [hnone] at hb
        cases hb
      · cases h
  · refine ⟨.RunBlock unit.handle 0 1000 160 1 0, ?_, rfl⟩
    simp [rapidSetUp]
  · intro c n hc hr
    rcases hparts _ hc with ⟨c', hc', _, hrun | hrun⟩ | ⟨he, hf⟩
    · cases hc'
      rw [hrun] at hr
      cases hr
    · cases hc'
      subst hrun
      simp [DriverCall.runStart] at hr
      exact hr.symm
    · rcases mem_rapidFetch hf with ⟨_, _, _, _, h⟩ | ⟨ch, hch, cap, hcap, h⟩ | ⟨_, h⟩ | ⟨_, h⟩ |
        ⟨_, _, h⟩ | ⟨c', h, _, hnone⟩ | ⟨_, h⟩
      · cases h
      · cases h
        simp [DriverCall.runStart] at hr
      · cases h
      · cases h
      · cases h
      · cases h
        rw [hnone] at hr
        cases hr
      · cases h

/-- The streaming controller does not return in `MIXED` mode, for which the source
leaves the settings of the run uninitialised. -/
theorem StreamDataHandler_mode {api : Api} {drv : Driver} {inp : StreamInputs} {unit : UNIT}
    {preTrigger : Int} {mode : MODE} {g : Globals} {tr : Trace} {res : StreamResult}
    (h : StreamDataHandler api drv inp unit preTrigger mode g tr = some res) :
    mode ≠ .MIXED := by
  rintro rfl
  simp [StreamDataHandler, streamSettings] at h

/-- The `AGGREGATED` copy loop, in closed form, when every copied region lies inside
its buffers. -/
theorem copyAggregated_eq (app driver : BufferTable) (s n count : Nat)
    (h : ∀ slot a d, slot / 2 < count →
      app slot = some a → driver slot = some d → s + n ≤ a.length ∧ s + n ≤ d.length) :
    copyAggregated app driver (s : Int) (n : Int) count
      = some (aggregatedResult app driver s n count) := by
  induction count with
  | zero =>
    simp only [copyAggregated, List.range_zero, List.foldlM_nil, pure, Option.some.injEq]
    funext slot
    simp [aggregatedResult]
  | succ k ih =>
    have ih' := ih (fun slot a d hk => h slot a d (by omega))
    unfold copyAggregated at ih' ⊢
    rw [List.range_succ, List.foldlM_append, ih']
    simp only [List.foldlM_cons, List.foldlM_nil, bind, Option.some_bind, pure]
    have e0 : aggregatedResult app driver s n k (k * 2) = app (k * 2) := by
      simp [aggregatedResult]
    have e1 : aggregatedResult app driver s n k (k * 2 + 1) = app (k * 2 + 1) := by
      have : (k * 2 + 1) / 2 = k := by omega
      simp [aggregatedResult, this]
    have c0 := copySlot_eq (aggregatedResult app driver s n k) driver (k * 2) s n
      (by
        intro a d ha hd
        rw [e0] at ha
        exact h (k * 2) a d (by omega) ha hd)
    have c1 := copySlot_eq
      (fun j => if j = k * 2 then
          slotResult (aggregatedResult app driver s n k (k * 2)) (driver (k * 2)) s n
        else aggregatedResult app driver s n k j) driver (k * 2 + 1) s n
      (by
        intro a d ha hd
        simp only [show k * 2 + 1 ≠ k * 2 by omega, if_false] at ha
        rw [e1] at ha
        exact h (k * 2 + 1) a d (by omega) ha hd)
    simp only [copyPair, c0, Option.some_bind, c1, Option.some.injEq]
    funext slot
    by_cases h1 : slot = k * 2 + 1
    · subst h1
      have hk : (k * 2 + 1) / 2 = k := by omega
      simp [aggregatedResult, hk]
    · by_cases h0 : slot = k * 2
      · subst h0
        simp [aggregatedResult]
      · have hk : slot / 2 ≠ k := by omega
        have hlt : slot / 2 < k + 1 ↔ slot / 2 < k := by omega
        simp only [h1, h0, if_false, aggregatedResult, hlt]

/-- The OR word is the word of the low bytes of the slots 0 and 2. -/
theorem portValueOR_eq (slot0 slot2 : Int) : portValueOR slot0 slot2 = packLowBytes slot0 slot2 := by
  rw [packLowBytes_eq]
  exact low_bytes_word slot0 slot2

/-- The AND word is the word of the low bytes of the slots 1 and 3. -/
theorem portValueAND_eq (slot1 slot3 : Int) :
    portValueAND slot1 slot3 = packLowBytes slot1 slot3 := by
  rw [packLowBytes_eq]
  exact low_bytes_word slot1 slot3

/-- The buffers held after two sequences of actions. -/
theorem heldBuffers_append (l₁ l₂ : List Action) (channel : Int) :
    heldBuffers (l₁ ++ l₂) channel = l₂.foldl (holdStep channel) (heldBuffers l₁ channel) := by
  unfold heldBuffers
  rw [List.foldl_append]

/-- Actions none of which passes a buffer for `channel` leave it with nothing
when it had nothing. -/
theorem foldl_holdStep_nil (channel : Int) (l : List Action)
    (h : ∀ c buffers len, Action.call c ∈ l → c.binding = some (channel, buffers, len) →
      buffers = []) :
    l.foldl (holdStep channel) [] = [] := by
  induction l with
  | nil => rfl
  | cons a rest ih =>
    have hrest := ih (fun c buffers len hc => h c buffers len (List.mem_cons_of_mem _ hc))
    rw [List.foldl_cons]
    have hstep : holdStep channel [] a = [] := by
      cases a with
      | call c =>
        cases hb : c.binding with
        | none => simp only [holdStep, hb]
        | some x =>
          obtain ⟨ch, buffers, len⟩ := x
          simp only [holdStep, hb]
          split_ifs with hch
          · subst hch
            exact h c buffers len (List.mem_cons_self _ _) hb
          · rfl
      | malloc b n => rfl
      | free b => rfl
    rw [hstep]
    exact hrest

/-- Bind calls with null pointers, one of them on `channel`, leave the channel with
nothing whatever it had. -/
theorem foldl_holdStep_clear (channel : Int) (l : List DriverCall)
    (hnull : ∀ c ∈ l, ∃ ch, c.binding = some (ch, [], 0))
    (hmem : ∃ c ∈ l, c.binding = some (channel, [], 0)) (held : List BufferId) :
    (l.map Action.call).foldl (holdStep channel) held = [] := by
  induction l generalizing held with
  | nil => obtain ⟨c, hc, _⟩ := hmem; cases hc
  | cons a rest ih =>
    rw [List.map_cons, List.foldl_cons]
    obtain ⟨ch, hch⟩ := hnull a (List.mem_cons_self _ _)
    by_cases he : ch = channel
    · have hstep : holdStep channel held (Action.call a) = [] := by
        simp [holdStep, hch, he]
      rw [hstep]
      apply foldl_holdStep_nil
      intro c buffers len hc hb
      obtain ⟨c', hc', heq⟩ := List.mem_map.1 hc
      cases heq
      obtain ⟨ch', hch'⟩ := hnull c (List.mem_cons_of_mem _ hc')
      rw [hch'] at hb
      simp only [Option.some.injEq, Prod.mk.injEq] at hb
      exact hb.2.1.symm
    · have hstep : holdStep channel held (Action.call a) = held := by
        simp [holdStep, hch, he]
      rw [hstep]
      apply ih (fun c hc => hnull c (List.mem_cons_of_mem _ hc))
      obtain ⟨c, hc, hb⟩ := hmem
      rcases List.mem_cons.1 hc with rfl | hc
      · rw [hch] at hb
        simp only [Option.some.injEq, Prod.mk.injEq] at hb
        exact absurd hb.1 he
      · exact ⟨c, hc, hb⟩

/-- A sequence of actions followed by the calls of `ClearDataBuffers` leaves
nothing bound to a channel that had nothing before, if every channel the
sequence binds a buffer to is one of the cleared ones. -/
theorem heldBuffers_then_clear (api : Api) (unit : UNIT) (before pre : List Action)
    (channel : Int) (h₀ : heldBuffers before channel = [])
    (hpre : ∀ c buffers len, Action.call c ∈ pre → c.binding = some (channel, buffers, len) →
      buffers ≠ [] → ∃ c' ∈ clearCalls api unit, c'.binding = some (channel, [], 0)) :
    heldBuffers (before ++ (pre ++ (clearCalls api unit).map Action.call)) channel = [] := by
  rw [heldBuffers_append, h₀, List.foldl_append]
  by_cases hcl : ∃ c' ∈ clearCalls api unit, c'.binding = some (channel, [], 0)
  · exact foldl_holdStep_clear channel _ (fun c hc => binding_clearCalls hc) hcl _
  · rw [foldl_holdStep_nil channel pre (by
      intro c buffers len hc hb
      by_contra hne
      exact hcl (hpre c buffers len hc hb hne))]
    apply foldl_holdStep_nil
    intro c buffers len hc hb
    obtain ⟨c', hc', heq⟩ := List.mem_map.1 hc
    cases heq
    obtain ⟨ch', hch'⟩ := binding_clearCalls hc'
    rw [hch'] at hb
    simp only [Option.some.injEq, Prod.mk.injEq] at hb
    exact hb.2.1.symm

/-- The calls of `ClearDataBuffers` rebind every enabled channel to null pointers
(`channelCount` is an `int16_t`, so the cast `(int16_t)i` keeps the channel). -/
theorem clearCalls_channel {api : Api} {unit : UNIT} {i : Nat}
    (hcount : unit.channelCount ≤ 32767) (hi : i ∈ enabledChannels unit) :
    ∃ c' ∈ clearCalls api unit, c'.binding = some ((i : Int), [], 0) := by
  have hlt := ((mem_enabledChannels unit i).1 hi).1
  refine ⟨.SetDataBuffers unit.handle (toInt16 i) none none 0 0 api.PS2000A_RATIO_MODE_NONE,
    ?_, ?_⟩
  · unfold clearCalls
    apply List.mem_append_left
    apply List.mem_map.2
    refine ⟨(i : Int), ?_, rfl⟩
    simp
    omega
  · have : toInt16 (i : Int) = i := toInt16_of_mem (by omega) (by omega)
    simp [DriverCall.binding, this]

/-- The calls of `ClearDataBuffers` rebind every digital port to a null pointer. -/
theorem clearCalls_port {api : Api} {unit : UNIT} {i : Nat}
    (hi : i ∈ List.range unit.digitalPorts.toNat) :
    ∃ c' ∈ clearCalls api unit,
      c'.binding = some ((i : Int) + api.PS2000A_DIGITAL_PORT0, [], 0) := by
  refine ⟨.SetDataBuffer unit.handle (i + api.PS2000A_DIGITAL_PORT0) none 0 0
    api.PS2000A_RATIO_MODE_NONE, ?_, ?_⟩
  · unfold clearCalls
    apply List.mem_append_right
    apply List.mem_map.2
    refine ⟨(i : Int), ?_, rfl⟩
    have hlt := List.mem_range.1 hi
    simp
    omega
  · simp [DriverCall.binding]

/-- The actions of `BlockDataHandler` leave nothing bound. -/
theorem heldBuffers_blockActions (api : Api) (unit : UNIT) (hcount : unit.channelCount ≤ 32767)
    (mode : MODE) (etsModeSet oversample : Int) (tried : List Int) (timebase : Int)
    (fetched : Bool) (before : List Action) (channel : Int)
    (h₀ : heldBuffers before channel = []) :
    heldBuffers
      (before ++ blockActions api unit mode etsModeSet oversample tried timebase fetched)
      channel = [] := by
  unfold blockActions
  apply heldBuffers_then_clear api unit before _ channel h₀
  intro c buffers len hc hb hne
  have hc' : Action.call c ∈
      blockActions api unit mode etsModeSet oversample tried timebase fetched := by
    unfold blockActions
    exact List.mem_append_left _ hc
  rcases mem_blockActions hc' with ⟨i, hi, hm, ha⟩ | ⟨i, hi, hm, ha⟩ | h | h | ⟨t, h⟩ | h | h |
    h | ⟨b, h⟩ | ⟨c', hc', h⟩
  · simp [blockPairActions] at ha
    subst ha
    simp only [DriverCall.binding, Option.some.injEq, Prod.mk.injEq] at hb
    rw [← hb.1]
    exact clearCalls_channel hcount hi
  · simp [blockPortActions] at ha
    subst ha
    simp only [DriverCall.binding, Option.some.injEq, Prod.mk.injEq] at hb
    rw [← hb.1]
    exact clearCalls_port hi
  · cases h
  · cases h; simp [DriverCall.binding] at hb
  · cases h; simp [DriverCall.binding] at hb
  · cases h; simp [DriverCall.binding] at hb
  · cases h; simp [DriverCall.binding] at hb
  · cases h; simp [DriverCall.binding] at hb
  · cases h
  · cases h
    obtain ⟨ch, hch⟩ := binding_clearCalls hc'
    rw [hch] at hb
    simp only [Option.some.injEq, Prod.mk.injEq] at hb
    exact absurd hb.2.1.symm hne

/-- The actions of `StreamDataHandler` leave nothing bound. -/
theorem heldBuffers_streamActions (api : Api) (unit : UNIT)
    (hcount : unit.channelCount ≤ 32767) (mode : MODE) (preTrigger : Int) (polled : Nat)
    (before : List Action) (channel : Int) (h₀ : heldBuffers before channel = []) :
    heldBuffers (before ++ streamActions api unit mode preTrigger polled) channel = [] := by
  unfold streamActions
  apply heldBuffers_then_clear api unit before _ channel h₀
  intro c buffers len hc hb hne
  have hc' : Action.call c ∈ streamActions api unit mode preTrigger polled := by
    unfold streamActions
    exact List.mem_append_left _ hc
  rcases mem_streamActions hc' with ⟨i, hi, hm, ha⟩ | ⟨i, hi, hm, ha⟩ | ⟨i, hi, hm, ha⟩ |
    ⟨_, _, _, _, _, _, h⟩ | h | h | ⟨b, h⟩ | ⟨c', hc', h⟩
  · simp [streamPairActions] at ha
    subst ha
    simp only [DriverCall.binding, Option.some.injEq, Prod.mk.injEq] at hb
    rw [← hb.1]
    exact clearCalls_channel hcount hi
  · simp [aggregatedPairActions] at ha
    subst ha
    simp only [DriverCall.binding, Option.some.injEq, Prod.mk.injEq] at hb
    rw [← hb.1]
    exact clearCalls_port hi
  · simp [streamPortActions] at ha
    subst ha
    simp only [DriverCall.binding, Option.some.injEq, Prod.mk.injEq] at hb
    rw [← hb.1]
    exact clearCalls_port hi
  · cases h; simp [DriverCall.binding] at hb
  · cases h; simp [DriverCall.binding] at hb
  · cases h; simp [DriverCall.binding] at hb
  · cases h
  · cases h
    obtain ⟨ch, hch⟩ := binding_clearCalls hc'
    rw [hch] at hb
    simp only [Option.some.injEq, Prod.mk.injEq] at hb
    exact absurd hb.2.1.symm hne

/-! ## Allocation and binding of the sample buffers: the claims -/

/-- C17: in streaming `AGGREGATED` mode, at every sample index at which the four
digital snapshot buffers hold a sample, the OR word displayed is
`((slot2 & 0xFF) << 8) | (slot0 & 0xFF)` and the AND word is
`((slot3 & 0xFF) << 8) | (slot1 & 0xFF)`, where `slot k` is the sample of the
snapshot buffer `appDigiBuffers[k]`.  The allocation loop allocates, for each port
`p`, the driver buffers of the slots `2p` and `2p+1`, binds that pair to the port
`p + PS2000A_DIGITAL_PORT0` in one `ps2000aSetDataBuffers` call, and allocates the
snapshot buffers of the same two slots: the slots 0 and 1 belong to port 0, the
slots 2 and 3 to port 1.  The callback copies the notified region of the driver
buffer of each of these slots into the snapshot buffer of the same slot. -/
theorem aggregated_words_from_port_pairs (api : Api) (drv : Driver) (unit : UNIT) (tr : Trace) :
    (∀ (appDigiBuffers : BufferTable) (i : Nat) (slot0 slot1 slot2 slot3 : Int),
      sampleAt appDigiBuffers 0 i = some slot0 → sampleAt appDigiBuffers 1 i = some slot1 →
      sampleAt appDigiBuffers 2 i = some slot2 → sampleAt appDigiBuffers 3 i = some slot3 →
      streamAggregatedValues appDigiBuffers i
        = some (packLowBytes slot0 slot2, packLowBytes slot1 slot3)) ∧
    (actions (streamBindAggregated api drv unit 40000 tr)
      = actions tr ++
        (List.range unit.digitalPorts.toNat).flatMap (aggregatedPairActions api unit 40000)) ∧
    (∀ port : Nat, aggregatedPairActions api unit 40000 port =
      [Action.malloc (.digiBuffers (port * 2)) 40000,
       Action.malloc (.digiBuffers (port * 2 + 1)) 40000,
       Action.call (.SetDataBuffers unit.handle (port + api.PS2000A_DIGITAL_PORT0)
         (some (.digiBuffers (port * 2))) (some (.digiBuffers (port * 2 + 1))) 40000 0
         api.PS2000A_RATIO_MODE_AGGREGATE),
       Action.malloc (.appDigiBuffers (port * 2)) 40000,
       Action.malloc (.appDigiBuffers (port * 2 + 1)) 40000]) ∧
    (∀ (g : Globals) (handle overflow triggerAt triggered autoStop : Int) (s n : Nat)
        (bufferInfo : BUFFER_INFO) (app driver : BufferTable),
      bufferInfo.mode = MODE.AGGREGATED →
      bufferInfo.appDigBuffers = some app → bufferInfo.driverDigBuffers = some driver →
      0 < n →
      (∀ slot a d, slot / 2 < bufferInfo.unit.digitalPorts.toNat →
        app slot = some a → driver slot = some d → s + n ≤ a.length ∧ s + n ≤ d.length) →
      ∃ g' after app',
        CallBackStreaming g handle n s overflow triggerAt triggered autoStop (some bufferInfo)
          = some (g', some after) ∧
        after.appDigBuffers = some app' ∧
        (∀ slot a d, slot / 2 < bufferInfo.unit.digitalPorts.toNat →
          app slot = some a → driver slot = some d →
          ∃ a', app' slot = some a' ∧
            ∀ i : Nat, a'[i]? = if s ≤ i ∧ i < s + n then d[i]? else a[i]?) ∧
        (∀ slot, ¬ slot / 2 < bufferInfo.unit.digitalPorts.toNat → app' slot = app slot)) := by
  refine ⟨?_, actions_streamBindAggregated api drv unit 40000 tr, fun _ => rfl, ?_⟩
  · intro table i slot0 slot1 slot2 slot3 h0 h1 h2 h3
    simp only [streamAggregatedValues, h0, h1, h2, h3, portValueOR_eq, portValueAND_eq]
  · intro g handle overflow triggerAt triggered autoStop s n bufferInfo app driver hmode happ
      hdrv hn hfit
    have hloop := copyAggregated_eq app driver s n bufferInfo.unit.digitalPorts.toNat hfit
    have hne : (n : Int) ≠ 0 := by omega
    refine ⟨{ g with g_sampleCount := n, g_startIndex := s, g_autoStopped := autoStop,
                     g_overflow := overflow, g_ready := TRUE, g_trig := triggered,
                     g_trigAt := triggerAt },
      { bufferInfo with appDigBuffers := some (aggregatedResult app driver
        s n bufferInfo.unit.digitalPorts.toNat) },
      aggregatedResult app driver s n bufferInfo.unit.digitalPorts.toNat, ?_, rfl, ?_, ?_⟩
    · simp only [CallBackStreaming, hne, if_false, hmode, happ, hdrv, hloop, Option.map_some']
    · intro slot a d h₁ ha hd
      obtain ⟨f₁, f₂⟩ := hfit slot a d h₁ ha hd
      refine ⟨replaced a d s n, ?_, fun i => getElem?_replaced f₁ f₂ i⟩
      simp only [aggregatedResult, h₁, if_true, ha, hd, slotResult]
    · intro slot hslot
      simp only [aggregatedResult, hslot, if_false]

/-- C17 on the sample digital snapshot buffers: the two words at the indices 1 and
0. -/
theorem aggregated_words_from_port_pairs_witness :
    streamAggregatedValues sampleDigitalTable 1 = some (0x00FF, 0x0000) ∧
    streamAggregatedValues sampleDigitalTable 0 = some (0xA5F0, 0x0510) :=
  ⟨((aggregated_words_from_port_pairs vendorApi acceptAll sampleMsoUnit []).1
      sampleDigitalTable 1 0x01FF 0x0100 0x7F00 0x0000 rfl rfl rfl rfl).trans (by decide),
   ((aggregated_words_from_port_pairs vendorApi acceptAll sampleMsoUnit []).1
      sampleDigitalTable 0 0x00F0 0x0010 0x00A5 0x0005 rfl rfl rfl rfl).trans (by decide)⟩

/-- C18: for every unit (and so every subset of enabled channels), every driver
and every run that returns, the analogue allocations and bindings that
`BlockDataHandler` (in `ANALOGUE` or `MIXED` mode) adds to the trace are, for each
enabled channel `c` below `channelCount` in turn, the allocation of the buffers of
the slots `2c` and `2c+1` and one `ps2000aSetDataBuffers` call binding that pair
to channel `c`, and nothing else; those `StreamDataHandler` (in `ANALOGUE` mode)
adds are the same with, in addition, the allocation of the two snapshot buffers
of the same slots, which are not bound.  A disabled channel gets nothing. -/
theorem analogue_pair_per_enabled_channel (api : Api) (drv : Driver) (unit : UNIT) :
    (∀ (inp : BlockInputs) (offset : Int) (mode : MODE) (etsModeSet : Int) (g : Globals)
        (tr : Trace) (res : BlockResult),
      (mode = .ANALOGUE ∨ mode = .MIXED) →
      BlockDataHandler api drv inp unit offset mode etsModeSet g tr = some res →
      (actions res.tr).filter Action.analogue
        = (actions tr).filter Action.analogue ++
          (enabledChannels unit).flatMap (blockPairActions api unit 1024)) ∧
    (∀ (inp : StreamInputs) (preTrigger : Int) (g : Globals) (tr : Trace) (res : StreamResult),
      StreamDataHandler api drv inp unit preTrigger .ANALOGUE g tr = some res →
      (actions res.tr).filter Action.analogue
        = (actions tr).filter Action.analogue ++
          (enabledChannels unit).flatMap (streamPairActions api unit 40000)) ∧
    (∀ c : Nat, c ∈ enabledChannels unit ↔
      c < unit.channelCount.toNat ∧ channelEnabled unit c = true) := by
  refine ⟨?_, ?_, mem_enabledChannels unit⟩
  · intro inp offset mode etsModeSet g tr res hmode h
    obtain ⟨tried, timebase, ht⟩ := actions_BlockDataHandler h
    rw [ht, List.filter_append, filter_analogue_blockActions _ _ _ _ _ _ _ _ hmode]
    rfl
  · intro inp preTrigger g tr res h
    obtain ⟨polled, ht⟩ := actions_StreamDataHandler h
    rw [ht, List.filter_append, filter_analogue_streamActions]

/-- C18 on the sample unit (channel A enabled, channel B disabled), for a block run
and a streaming run: the buffers of the slots 0 and 1 are allocated and bound to
channel 0, and nothing is allocated or bound for channel B. -/
theorem analogue_pair_per_enabled_channel_witness :
    (∃ res, BlockDataHandler vendorApi acceptAll readyBlockInputs (sampleUnit 32512) 0
        .ANALOGUE 0 sampleGlobals [] = some res ∧
      (actions res.tr).filter Action.analogue
        = [Action.malloc (.buffers 0) 1024, Action.malloc (.buffers 1) 1024,
           Action.call (.SetDataBuffers 1 0 (some (.buffers 0)) (some (.buffers 1)) 1024 0 0)]) ∧
    (∃ res, StreamDataHandler vendorApi acceptAll stopStreamInputs (sampleUnit 32512) 0
        .ANALOGUE sampleGlobals [] = some res ∧
      (actions res.tr).filter Action.analogue
        = [Action.malloc (.buffers 0) 40000, Action.malloc (.buffers 1) 40000,
           Action.call (.SetDataBuffers 1 0 (some (.buffers 0)) (some (.buffers 1)) 40000 0 1),
           Action.malloc (.appBuffers 0) 40000, Action.malloc (.appBuffers 1) 40000]) := by
  have hb : (BlockDataHandler vendorApi acceptAll readyBlockInputs (sampleUnit 32512) 0
      .ANALOGUE 0 sampleGlobals []).isSome = true := by decide
  have hs : (StreamDataHandler vendorApi acceptAll stopStreamInputs (sampleUnit 32512) 0
      .ANALOGUE sampleGlobals []).isSome = true := by decide
  obtain ⟨rb, hrb⟩ := Option.isSome_iff_exists.1 hb
  obtain ⟨rs, hrs⟩ := Option.isSome_iff_exists.1 hs
  exact ⟨⟨rb, hrb, ((analogue_pair_per_enabled_channel vendorApi acceptAll
      (sampleUnit 32512)).1 _ _ _ _ _ _ rb (Or.inl rfl) hrb).trans (by decide)⟩,
    ⟨rs, hrs, ((analogue_pair_per_enabled_channel vendorApi acceptAll
      (sampleUnit 32512)).2.1 _ _ _ _ rs hrs).trans (by decide)⟩⟩

/-- The two handlers that call `ClearDataBuffers` leave nothing bound: after
`BlockDataHandler` and after `StreamDataHandler`, in every mode and on every path
on which they return, the driver holds no buffer for a channel or port for which
it held none before (`channelCount` is an `int16_t`). -/
theorem handlers_leave_nothing_bound (api : Api) (drv : Driver) (unit : UNIT)
    (hcount : unit.channelCount ≤ 32767) (g : Globals) (tr : Trace) (channel : Int)
    (h₀ : heldBuffers (actions tr) channel = []) :
    (∀ (inp : BlockInputs) (offset : Int) (mode : MODE) (etsModeSet : Int) (res : BlockResult),
      BlockDataHandler api drv inp unit offset mode etsModeSet g tr = some res →
      heldBuffers (actions res.tr) channel = []) ∧
    (∀ (inp : StreamInputs) (preTrigger : Int) (mode : MODE) (res : StreamResult),
      StreamDataHandler api drv inp unit preTrigger mode g tr = some res →
      heldBuffers (actions res.tr) channel = []) := by
  constructor
  · intro inp offset mode etsModeSet res h
    obtain ⟨tried, timebase, ht⟩ := actions_BlockDataHandler h
    rw [ht]
    exact heldBuffers_blockActions api unit hcount _ _ _ _ _ _ _ channel h₀
  · intro inp preTrigger mode res h
    obtain ⟨polled, ht⟩ := actions_StreamDataHandler h
    rw [ht]
    exact heldBuffers_streamActions api unit hcount _ _ _ _ channel h₀

/-- The rapid block controller never rebinds a channel to null pointers: none of
the actions it adds to the trace is a bind call without a buffer. -/
theorem CollectRapidBlock_never_clears {api : Api} {drv : Driver} {inp : RapidInputs}
    {unit : UNIT} {g : Globals} {tr : Trace} {s : Session}
    (h : CollectRapidBlock api drv inp unit g tr = some s) :
    ∃ added, actions s.tr = actions tr ++ added ∧ added.filter Action.clears = [] := by
  obtain ⟨triggerVoltage, facets, requested, aborted, nCaptures, ht⟩ :=
    actions_CollectRapidBlock h
  refine ⟨rapidSetUp api unit triggerVoltage facets requested ++
      ((if aborted = true then
        [Action.call (.Stop unit.handle), Action.call (.GetNoOfCaptures unit.handle)]
       else []) ++
      (if aborted = true ∧ toUInt32 inp.completedCaptures = 0 then []
       else rapidFetch api unit nCaptures)), by rw [ht]; simp only [List.append_assoc], ?_⟩
  apply List.filter_eq_nil_iff.2
  intro a ha
  simp only [List.mem_append] at ha
  rcases ha with ha | ha | ha
  · obtain ⟨c, rfl, hnone, _⟩ := mem_rapidSetUp ha
    simp [Action.clears, hnone]
  · split_ifs at ha
    · simp at ha
      rcases ha with rfl | rfl <;> simp [Action.clears, DriverCall.binding]
    · simp at ha
  · split_ifs at ha
    · simp at ha
    · rcases mem_rapidFetch ha with ⟨_, _, _, _, h⟩ | ⟨ch, hch, cap, hcap, h⟩ | ⟨_, h⟩ |
        ⟨_, h⟩ | ⟨_, _, h⟩ | ⟨c', h, hnone, _⟩ | ⟨_, h⟩
      · subst h; simp [Action.clears]
      · subst h; simp [Action.clears, DriverCall.binding]
      · subst h; simp [Action.clears]
      · subst h; simp [Action.clears]
      · subst h; simp [Action.clears]
      · subst h; simp [Action.clears, hnone]
      · subst h; simp [Action.clears]

/-- C19, the code at a failing input: a rapid block run of the sample unit on a
driver that accepts every call, with a completion callback before any key press,
returns with channel A still bound to the buffer of capture 9, which the run has
freed; the run issues no bind call with null pointers at all, and its last
action is the release of the array of rows. -/
theorem CollectRapidBlock_leaves_freed_buffer_bound :
    ∃ s, CollectRapidBlock vendorApi acceptAll readyRapidInputs (sampleUnit 32512)
        sampleGlobals [] = some s ∧
      heldBuffers (actions s.tr) 0 = [BufferId.rapidBuffers 0 9] ∧
      Action.free (.rapidBuffers 0 9) ∈ actions s.tr ∧
      (actions s.tr).filter Action.clears = [] ∧
      (actions s.tr).getLast? = some (Action.free .rapidArray) := by
  refine ⟨_, rfl, ?_, ?_, ?_, ?_⟩
  · decide
  · decide
  · decide
  · decide

/-- C20: for every driver, unit and run that returns, what `BlockDataHandler` adds
to the trace agrees on 1024 samples, what `StreamDataHandler` adds agrees on 40000
samples and what `CollectRapidBlock` adds agrees on 1000 samples: every bind call
that passes a buffer passes that length, each buffer it passes is allocated in
the same run with that many elements and no other size, and the run-start
(`ps2000aRunBlock`, `ps2000aRunStreaming`) is issued and requests that many
samples.  The bind calls of `ClearDataBuffers` pass null pointers and length
zero. -/
theorem bind_length_matches_allocation_and_run (api : Api) (drv : Driver) (unit : UNIT)
    (g : Globals) (tr : Trace) :
    (∀ (inp : BlockInputs) (offset : Int) (mode : MODE) (etsModeSet : Int) (res : BlockResult),
      BlockDataHandler api drv inp unit offset mode etsModeSet g tr = some res →
      ∃ added, actions res.tr = actions tr ++ added ∧ sizedFor 1024 added) ∧
    (∀ (inp : StreamInputs) (preTrigger : Int) (mode : MODE) (res : StreamResult),
      StreamDataHandler api drv inp unit preTrigger mode g tr = some res →
      ∃ added, actions res.tr = actions tr ++ added ∧ sizedFor 40000 added) ∧
    (∀ (inp : RapidInputs) (s : Session),
      CollectRapidBlock api drv inp unit g tr = some s →
      ∃ added, actions s.tr = actions tr ++ added ∧ sizedFor 1000 added) := by
  refine ⟨?_, ?_, ?_⟩
  · intro inp offset mode etsModeSet res h
    obtain ⟨tried, timebase, ht⟩ := actions_BlockDataHandler h
    exact ⟨_, ht, sizedFor_blockActions _ _ _ _ _ _ _ _⟩
  · intro inp preTrigger mode res h
    obtain ⟨polled, ht⟩ := actions_StreamDataHandler h
    exact ⟨_, ht, sizedFor_streamActions _ _ _ _ _ (StreamDataHandler_mode h)⟩
  · intro inp s h
    obtain ⟨triggerVoltage, facets, requested, aborted, nCaptures, ht⟩ :=
      actions_CollectRapidBlock h
    refine ⟨_, ?_, sizedFor_rapid api unit triggerVoltage facets requested aborted
      (aborted = true ∧ toUInt32 inp.completedCaptures = 0) nCaptures⟩
    rw [ht]
    simp only [List.append_assoc]

/-- C20 on runs of the sample unit: a block run, a streaming run and a rapid block
run. -/
theorem bind_length_matches_allocation_and_run_witness :
    (∃ res, BlockDataHandler vendorApi acceptAll readyBlockInputs (sampleUnit 32512) 0
        .ANALOGUE 0 sampleGlobals [] = some res ∧
      ∃ added, actions res.tr = actions [] ++ added ∧ sizedFor 1024 added) ∧
    (∃ res, StreamDataHandler vendorApi acceptAll stopStreamInputs (sampleUnit 32512) 0
        .ANALOGUE sampleGlobals [] = some res ∧
      ∃ added, actions res.tr = actions [] ++ added ∧ sizedFor 40000 added) ∧
    (∃ s, CollectRapidBlock vendorApi acceptAll readyRapidInputs (sampleUnit 32512)
        sampleGlobals [] = some s ∧
      ∃ added, actions s.tr = actions [] ++ added ∧ sizedFor 1000 added) := by
  have hb : (BlockDataHandler vendorApi acceptAll readyBlockInputs (sampleUnit 32512) 0
      .ANALOGUE 0 sampleGlobals []).isSome = true := by decide
  have hs : (StreamDataHandler vendorApi acceptAll stopStreamInputs (sampleUnit 32512) 0
      .ANALOGUE sampleGlobals []).isSome = true := by decide
  have hr : (CollectRapidBlock vendorApi acceptAll readyRapidInputs (sampleUnit 32512)
      sampleGlobals []).isSome = true := by decide
  obtain ⟨rb, hrb⟩ := Option.isSome_iff_exists.1 hb
  obtain ⟨rs, hrs⟩ := Option.isSome_iff_exists.1 hs
  obtain ⟨rr, hrr⟩ := Option.isSome_iff_exists.1 hr
  exact ⟨⟨rb, hrb, (bind_length_matches_allocation_and_run vendorApi acceptAll
      (sampleUnit 32512) sampleGlobals []).1 _ _ _ _ rb hrb⟩,
    ⟨rs, hrs, (bind_length_matches_allocation_and_run vendorApi acceptAll
      (sampleUnit 32512) sampleGlobals []).2.1 _ _ _ rs hrs⟩,
    ⟨rr, hrr, (bind_length_matches_allocation_and_run vendorApi acceptAll
      (sampleUnit 32512) sampleGlobals []).2.2 _ rr hrr⟩⟩

/-! ## Cancelled block runs: the claims -/

/-- A wait loop during which every completion callback reports `PICO_CANCELLED`
ends with the globals it started with. -/
theorem waitReady_cancelled (api : Api) :
    ∀ (wait : List WaitStep) (g g' : Globals),
      (∀ w ∈ wait, ∀ status, w.callback = some status → status = api.PICO_CANCELLED) →
      g.g_ready = 0 → waitReady api wait g = some g' → g' = g := by
  intro wait
  induction wait with
  | nil => intro g g' _ _ h; simp [waitReady] at h
  | cons w rest ih =>
    intro g g' hall hg h
    have hstep : waitReady api (w :: rest) g
        = if g.g_ready ≠ 0 then some g else if w.kbhit then some g
          else waitReady api rest g := by
      cases hcb : w.callback with
      | none => simp [waitReady, hcb]
      | some status =>
        have := hall w (List.mem_cons_self _ _) status hcb
        simp [waitReady, hcb, CallBackBlock, this]
    rw [hstep, if_neg (by simpa using hg)] at h
    split_ifs at h
    · simp only [Option.some.injEq] at h
      exact h.symm
    · exact ih g g' (fun w' hw' => hall w' (List.mem_cons_of_mem _ hw')) hg h

/-- The releases of `BlockDataHandler` are releases. -/
theorem mem_blockFrees {unit : UNIT} {mode : MODE} {etsModeSet : Int} {e : Event}
    (he : e ∈ blockFrees unit mode etsModeSet) : ∃ b, e = Event.free b := by
  unfold blockFrees at he
  simp only [List.mem_append] at he
  rcases he with (he | he) | he
  · split_ifs at he
    · obtain ⟨i, _, hi⟩ := List.mem_flatMap.1 he
      simp at hi
      rcases hi with rfl | rfl <;> exact ⟨_, rfl⟩
    · simp at he
  · split_ifs at he
    · simp at he; subst he; exact ⟨_, rfl⟩
    · simp at he
  · split_ifs at he
    · obtain ⟨i, _, rfl⟩ := List.mem_map.1 he
      exact ⟨_, rfl⟩
    · simp at he

/-- A call of `ps2000aGetValues` among the actions of `BlockDataHandler` means the
block was fetched. -/
theorem getValues_mem_blockActions {api : Api} {unit : UNIT} {mode : MODE}
    {etsModeSet oversample : Int} {tried : List Int} {timebase : Int} {fetched : Bool}
    {handle startIndex noOfSamples ratio ratioMode segment : Int}
    (h : Action.call (.GetValues handle startIndex noOfSamples ratio ratioMode segment) ∈
      blockActions api unit mode etsModeSet oversample tried timebase fetched) :
    fetched = true := by
  by_contra hf
  unfold blockActions at h
  simp only [List.mem_append] at h
  rcases h with (((((((h | h) | h) | h) | h) | h) | h) | h) | h
  · split_ifs at h
    · obtain ⟨i, _, ha⟩ := List.mem_flatMap.1 h
      simp [blockPairActions] at ha
    · simp at h
  · split_ifs at h <;> simp at h
  · split_ifs at h
    · obtain ⟨i, _, ha⟩ := List.mem_flatMap.1 h
      simp [blockPortActions] at ha
    · simp at h
  · simp at h
  · simp at h
  · simp [hf] at h
  · simp at h
  · obtain ⟨e, he, heq⟩ := List.mem_map.1 h
    obtain ⟨b, rfl⟩ := mem_blockFrees he
    cases heq
  · obtain ⟨c, hc, heq⟩ := List.mem_map.1 h
    cases heq
    unfold clearCalls at hc
    rcases List.mem_append.1 hc with hc | hc
    · obtain ⟨i, _, hi⟩ := List.mem_map.1 hc
      cases hi
    · obtain ⟨i, _, hi⟩ := List.mem_map.1 hc
      cases hi

/-- C22: `CallBackBlock` sets the ready flag, and changes nothing else, when the
status is not `PICO_CANCELLED`, and changes nothing at all when it is; so, from a
cleared flag, the flag is set afterwards if and only if the status is not
`PICO_CANCELLED`.  In `BlockDataHandler`, when every completion callback the driver
delivers (while `ps2000aRunBlock` executes or during the wait) reports
`PICO_CANCELLED`, a run that returns ends its wait with the flag still clear and
issues no `ps2000aGetValues` call. -/
theorem CallBackBlock_ready_iff_not_cancelled (api : Api) (g : Globals) (status : PICO_STATUS) :
    (status ≠ api.PICO_CANCELLED → CallBackBlock api g status = { g with g_ready := TRUE }) ∧
    (status = api.PICO_CANCELLED → CallBackBlock api g status = g) ∧
    (g.g_ready = 0 → ((CallBackBlock api g status).g_ready ≠ 0 ↔ status ≠ api.PICO_CANCELLED)) ∧
    (∀ (drv : Driver) (inp : BlockInputs) (unit : UNIT) (offset : Int) (mode : MODE)
        (etsModeSet : Int) (tr : Trace) (res : BlockResult),
      (∀ s, inp.duringRun = some s → s = api.PICO_CANCELLED) →
      (∀ w ∈ inp.wait, ∀ s, w.callback = some s → s = api.PICO_CANCELLED) →
      BlockDataHandler api drv inp unit offset mode etsModeSet g tr = some res →
      res.g.g_ready = 0 ∧ res.fetched = false ∧
      ∃ added, actions res.tr = actions tr ++ added ∧
        ∀ handle startIndex noOfSamples ratio ratioMode segment,
          Action.call (.GetValues handle startIndex noOfSamples ratio ratioMode segment)
            ∉ added) := by
  refine ⟨?_, ?_, ?_, ?_⟩
  · intro h; simp [CallBackBlock, h]
  · intro h; simp [CallBackBlock, h]
  · intro hg
    by_cases h : status = api.PICO_CANCELLED
    · simp [CallBackBlock, h, hg]
    · simp only [CallBackBlock, ne_eq, h, not_false_eq_true, if_true, iff_true]
      decide
  · intro drv inp unit offset mode etsModeSet tr res hrun hwait h
    obtain ⟨tried, timebase, ht⟩ := actions_BlockDataHandler h
    obtain ⟨timebase', tr₄, _, hw, hfetched, _, _⟩ := BlockDataHandler_run h
    have harmed : blockArmed api inp g timebase'
        = { g with timebase := timebase', g_ready := FALSE } := by
      unfold blockArmed
      cases hd : inp.duringRun with
      | none => rfl
      | some s => simp [CallBackBlock, hrun s hd]
    rw [harmed] at hw
    have hg := waitReady_cancelled api inp.wait _ _ hwait rfl hw
    have hready : res.g.g_ready = 0 := by rw [hg]; rfl
    have hf : res.fetched = false := by rw [hfetched]; simp [hready]
    refine ⟨hready, hf, _, ht, ?_⟩
    intro handle startIndex noOfSamples ratio ratioMode segment hmem
    have := getValues_mem_blockActions hmem
    rw [hf] at this
    cases this

/-- C22 on a block run of the sample unit whose completion callback reports
`PICO_CANCELLED` and which ends with a key press. -/
theorem CallBackBlock_ready_iff_not_cancelled_witness :
    ∃ res, BlockDataHandler vendorApi acceptAll driverCancelledBlockInputs (sampleUnit 32512)
        0 .ANALOGUE 0 sampleGlobals [] = some res ∧
      res.g.g_ready = 0 ∧ res.fetched = false ∧
      ∃ added, actions res.tr = actions [] ++ added ∧
        ∀ handle startIndex noOfSamples ratio ratioMode segment,
          Action.call (.GetValues handle startIndex noOfSamples ratio ratioMode segment)
            ∉ added := by
  have hb : (BlockDataHandler vendorApi acceptAll driverCancelledBlockInputs
      (sampleUnit 32512) 0 .ANALOGUE 0 sampleGlobals []).isSome = true := by decide
  obtain ⟨res, hres⟩ := Option.isSome_iff_exists.1 hb
  exact ⟨res, hres, (CallBackBlock_ready_iff_not_cancelled vendorApi sampleGlobals 0).2.2.2
    acceptAll driverCancelledBlockInputs (sampleUnit 32512) 0 .ANALOGUE 0 [] res
    (by intro s hs; cases hs)
    (by
      intro w hw s hs
      simp only [driverCancelledBlockInputs, List.mem_cons, List.mem_singleton,
        List.not_mem_nil, or_false] at hw
      rcases hw with rfl | rfl
      · cases hs; rfl
      · cases hs)
    hres⟩

/-- Every buffer `BlockDataHandler` allocates is among its releases. -/
theorem malloc_freed_blockActions {api : Api} {unit : UNIT} {mode : MODE}
    {etsModeSet oversample : Int} {tried : List Int} {timebase : Int} {fetched : Bool}
    {b : BufferId} {n : Int}
    (h : Action.malloc b n ∈
      blockActions api unit mode etsModeSet oversample tried timebase fetched) :
    Event.free b ∈ blockFrees unit mode etsModeSet := by
  rcases mem_blockActions h with ⟨i, hi, hm, ha⟩ | ⟨i, hi, hm, ha⟩ | h' | h' | ⟨t, h'⟩ | h' | h' |
    h' | ⟨b', h'⟩ | ⟨c, hc, h'⟩
  · unfold blockFrees
    simp only [List.mem_append, if_pos hm]
    refine Or.inl (Or.inl (List.mem_flatMap.2 ⟨i, hi, ?_⟩))
    simp [blockPairActions] at ha
    rcases ha with ⟨rfl, _⟩ | ⟨rfl, _⟩ <;> simp
  · unfold blockFrees
    simp only [List.mem_append, if_pos hm]
    refine Or.inr (List.mem_map.2 ⟨i, hi, ?_⟩)
    simp [blockPortActions] at ha
    rw [ha.1]
  · cases h'
    -- the ETS time buffer is allocated only in the branch that releases it
    unfold blockActions at h
    simp only [List.mem_append] at h
    unfold blockFrees
    simp only [List.mem_append]
    rcases h with (((((((h | h) | h) | h) | h) | h) | h) | h) | h
    · split_ifs at h
      · obtain ⟨i, _, ha⟩ := List.mem_flatMap.1 h
        simp [blockPairActions] at ha
      · simp at h
    · split_ifs at h with he
      · exact Or.inl (Or.inr (by simp [he]))
      · simp at h
    · split_ifs at h
      · obtain ⟨i, _, ha⟩ := List.mem_flatMap.1 h
        simp [blockPortActions] at ha
      · simp at h
    · simp at h
    · simp at h
    · split_ifs at h <;> simp at h
    · simp at h
    · obtain ⟨e, he, heq⟩ := List.mem_map.1 h
      obtain ⟨b, rfl⟩ := mem_blockFrees he
      cases heq
    · obtain ⟨c, hc, heq⟩ := List.mem_map.1 h
      cases heq
  all_goals cases h'

/-- C21: when the wait of `BlockDataHandler` ends with the ready flag clear, the run
adds to the trace, after the allocation and binding and after the timebase
search, exactly: `ps2000aRunBlock`, `ps2000aStop`, the releases and the calls of
`ClearDataBuffers`, in this order.  No `ps2000aGetValues` call is among the actions
of the run, every buffer the run allocated is among the releases, and the calls of
`ClearDataBuffers` are the last actions before the return. -/
theorem BlockDataHandler_cancelled (api : Api) (drv : Driver) (inp : BlockInputs) (unit : UNIT)
    (offset : Int) (mode : MODE) (etsModeSet : Int) (g : Globals) (tr : Trace)
    (res : BlockResult)
    (h : BlockDataHandler api drv inp unit offset mode etsModeSet g tr = some res)
    (hcancel : res.g.g_ready = 0) :
    res.fetched = false ∧
    ∃ (tr₄ : Trace) (timebase : Int) (before : List Action),
      actions tr₄ = actions tr ++ before ∧
      actions res.tr = actions tr₄ ++
        ([Action.call (.RunBlock unit.handle 0 1024 timebase g.oversample 0),
          Action.call (.Stop unit.handle)] ++
         (blockFrees unit mode etsModeSet).map Event.action ++
         (clearCalls api unit).map Action.call) ∧
      (∀ handle startIndex noOfSamples ratio ratioMode segment,
        Action.call (.GetValues handle startIndex noOfSamples ratio ratioMode segment)
          ∉ before) ∧
      (∀ b n, Action.malloc b n ∈ before → Event.free b ∈ blockFrees unit mode etsModeSet) ∧
      (∀ e ∈ blockFrees unit mode etsModeSet, ∃ b, e = Event.free b) ∧
      (∀ c ∈ clearCalls api unit, ∃ channel, c.binding = some (channel, [], 0)) := by
  obtain ⟨timebase, tr₄, hfind, _, hfetched, _, ht⟩ := BlockDataHandler_run h
  obtain ⟨tried, htried⟩ := actions_findTimebase _ _ _ _ _ _ _ _ _ hfind
  have hf : res.fetched = false := by rw [hfetched]; simp [hcancel]
  rw [actions_blockBound, List.append_assoc] at htried
  refine ⟨hf, tr₄, timebase, _, htried, ?_, ?_, ?_, fun e he => mem_blockFrees he,
    fun c hc => binding_clearCalls hc⟩
  · rw [ht, hf]
    simp [blockTail, BUFFER_SIZE]
  · intro handle startIndex noOfSamples ratio ratioMode segment hmem
    have hmem' : Action.call (.GetValues handle startIndex noOfSamples ratio ratioMode segment)
        ∈ blockActions api unit mode etsModeSet g.oversample tried timebase false := by
      unfold blockActions
      simp only [List.mem_append] at hmem ⊢
      rcases hmem with ((hmem | hmem) | hmem) | hmem
      · exact Or.inl (Or.inl (Or.inl (Or.inl (Or.inl (Or.inl (Or.inl (Or.inl hmem)))))))
      · exact Or.inl (Or.inl (Or.inl (Or.inl (Or.inl (Or.inl (Or.inl (Or.inr hmem)))))))
      · exact Or.inl (Or.inl (Or.inl (Or.inl (Or.inl (Or.inl (Or.inr hmem))))))
      · exact Or.inl (Or.inl (Or.inl (Or.inl (Or.inl (Or.inr hmem)))))
    exact absurd (getValues_mem_blockActions hmem') (by decide)
  · intro b n hmem
    have hmem' : Action.malloc b n
        ∈ blockActions api unit mode etsModeSet g.oversample tried timebase false := by
      unfold blockActions
      simp only [List.mem_append] at hmem ⊢
      rcases hmem with ((hmem | hmem) | hmem) | hmem
      · exact Or.inl (Or.inl (Or.inl (Or.inl (Or.inl (Or.inl (Or.inl (Or.inl hmem)))))))
      · exact Or.inl (Or.inl (Or.inl (Or.inl (Or.inl (Or.inl (Or.inl (Or.inr hmem)))))))
      · exact Or.inl (Or.inl (Or.inl (Or.inl (Or.inl (Or.inl (Or.inr hmem))))))
      · exact Or.inl (Or.inl (Or.inl (Or.inl (Or.inl (Or.inr hmem)))))
    exact malloc_freed_blockActions hmem'

/-- C21 on a block run of the sample unit that the operator cancels with a key
press before any completion callback. -/
theorem BlockDataHandler_cancelled_witness :
    (∃ res, BlockDataHandler vendorApi acceptAll cancelledBlockInputs (sampleUnit 32512) 0
        .ANALOGUE 0 sampleGlobals [] = some res ∧ res.g.g_ready = 0 ∧
      res.fetched = false ∧
      ∃ (tr₄ : Trace) (timebase : Int) (before : List Action),
        actions tr₄ = actions [] ++ before ∧
        actions res.tr = actions tr₄ ++
          ([Action.call (.RunBlock (sampleUnit 32512).handle 0 1024 timebase
              sampleGlobals.oversample 0),
            Action.call (.Stop (sampleUnit 32512).handle)] ++
           (blockFrees (sampleUnit 32512) .ANALOGUE 0).map Event.action ++
           (clearCalls vendorApi (sampleUnit 32512)).map Action.call) ∧
        (∀ handle startIndex noOfSamples ratio ratioMode segment,
          Action.call (.GetValues handle startIndex noOfSamples ratio ratioMode segment)
            ∉ before) ∧
        (∀ b n, Action.malloc b n ∈ before →
          Event.free b ∈ blockFrees (sampleUnit 32512) .ANALOGUE 0) ∧
        (∀ e ∈ blockFrees (sampleUnit 32512) .ANALOGUE 0, ∃ b, e = Event.free b) ∧
        (∀ c ∈ clearCalls vendorApi (sampleUnit 32512),
          ∃ channel, c.binding = some (channel, [], 0))) ∧
    (BlockDataHandler vendorApi acceptAll cancelledBlockInputs (sampleUnit 32512) 0
        .ANALOGUE 0 sampleGlobals []).map (fun res => actions res.tr) = some
      [Action.malloc (.buffers 0) 1024, Action.malloc (.buffers 1) 1024,
       Action.call (.SetDataBuffers 1 0 (some (.buffers 0)) (some (.buffers 1)) 1024 0 0),
       Action.call (.GetTimebase 1 8 1024 1 0),
       Action.call (.RunBlock 1 0 1024 8 1 0),
       Action.call (.Stop 1),
       Action.free (.buffers 0), Action.free (.buffers 1),
       Action.call (.SetDataBuffers 1 0 none none 0 0 0),
       Action.call (.SetDataBuffers 1 1 none none 0 0 0)] := by
  have hb : (BlockDataHandler vendorApi acceptAll cancelledBlockInputs
      (sampleUnit 32512) 0 .ANALOGUE 0 sampleGlobals []).map (fun r => r.g.g_ready)
      = some 0 := by decide
  obtain ⟨res, hres, hg⟩ := Option.map_eq_some'.1 hb
  exact ⟨⟨res, hres, hg, BlockDataHandler_cancelled vendorApi acceptAll cancelledBlockInputs
    (sampleUnit 32512) 0 .ANALOGUE 0 sampleGlobals [] res hres hg⟩, by decide⟩

/-! ## Stop before release: the claims -/

/-- A list that releases nothing before its stop call releases only after it. -/
theorem stopBeforeFrees_of (handle : Int) (X Y : List Action)
    (hX : ∀ b, Action.free b ∉ X) :
    stopBeforeFrees handle (X ++ Action.call (.Stop handle) :: Y) := by
  intro pre b post h
  rcases List.append_eq_append_iff.1 h with ⟨a', h1, h2⟩ | ⟨c', h1, h2⟩
  · cases a' with
    | nil => simp at h2
    | cons x rest =>
      simp only [List.cons_append, List.cons.injEq] at h2
      rw [h1, ← h2.1]
      simp
  · cases c' with
    | nil => simp at h2
    | cons x rest =>
      simp only [List.cons_append, List.cons.injEq] at h2
      exfalso
      apply hX b
      rw [h1, ← h2.1]
      simp

/-- A list that releases nothing. -/
theorem stopBeforeFrees_of_no_free (handle : Int) (X : List Action)
    (hX : ∀ b, Action.free b ∉ X) : stopBeforeFrees handle X := by
  intro pre b post h
  exfalso
  apply hX b
  rw [h]
  simp

/-- What `BlockDataHandler` adds to the trace releases its buffers only after its
`ps2000aStop` call. -/
theorem stopBeforeFrees_blockActions (api : Api) (unit : UNIT) (mode : MODE)
    (etsModeSet oversample : Int) (tried : List Int) (timebase : Int) (fetched : Bool) :
    stopBeforeFrees unit.handle
      (blockActions api unit mode etsModeSet oversample tried timebase fetched) := by
  have hform : blockActions api unit mode etsModeSet oversample tried timebase fetched =
      ((if mode = .ANALOGUE ∨ mode = .MIXED then
        (enabledChannels unit).flatMap (blockPairActions api unit BUFFER_SIZE) else []) ++
      (if mode = .ANALOGUE ∧ etsModeSet = TRUE then
        [Action.malloc .etsTime BUFFER_SIZE,
         Action.call (.SetEtsTimeBuffer unit.handle (some .etsTime) BUFFER_SIZE)] else []) ++
      (if mode = .DIGITAL ∨ mode = .MIXED then
        (List.range unit.digitalPorts.toNat).flatMap (blockPortActions api unit BUFFER_SIZE)
       else []) ++
      tried.map (fun t => Action.call (.GetTimebase unit.handle t BUFFER_SIZE oversample 0)) ++
      [Action.call (.RunBlock unit.handle 0 BUFFER_SIZE timebase oversample 0)] ++
      (if fetched then
        [Action.call (.GetValues unit.handle 0 BUFFER_SIZE 10 api.PS2000A_RATIO_MODE_NONE 0)]
       else [])) ++
      Action.call (.Stop unit.handle) ::
        ((blockFrees unit mode etsModeSet).map Event.action ++
          (clearCalls api unit).map Action.call) := by
    simp [blockActions]
  rw [hform]
  apply stopBeforeFrees_of
  intro b hb
  simp only [List.mem_append] at hb
  rcases hb with ((((hb | hb) | hb) | hb) | hb) | hb
  · split_ifs at hb
    · obtain ⟨i, _, ha⟩ := List.mem_flatMap.1 hb
      simp [blockPairActions] at ha
    · simp at hb
  · split_ifs at hb <;> simp at hb
  · split_ifs at hb
    · obtain ⟨i, _, ha⟩ := List.mem_flatMap.1 hb
      simp [blockPortActions] at ha
    · simp at hb
  · simp at hb
  · simp at hb
  · split_ifs at hb <;> simp at hb

/-- What `StreamDataHandler` adds to the trace releases its buffers only after its
`ps2000aStop` call. -/
theorem stopBeforeFrees_streamActions (api : Api) (unit : UNIT) (mode : MODE)
    (preTrigger : Int) (polled : Nat) :
    stopBeforeFrees unit.handle (streamActions api unit mode preTrigger polled) := by
  have hform : streamActions api unit mode preTrigger polled =
      ((match mode with
        | .ANALOGUE => (enabledChannels unit).flatMap (streamPairActions api unit 40000)
        | .AGGREGATED =>
          (List.range unit.digitalPorts.toNat).flatMap (aggregatedPairActions api unit 40000)
        | .DIGITAL =>
          (List.range unit.digitalPorts.toNat).flatMap (streamPortActions api unit 40000)
        | .MIXED => []) ++
      (match streamSettings api mode with
        | some (downsampleRatio, timeUnits, sampleInterval, ratioMode, postTrigger, autostop) =>
          [Action.call (.RunStreaming unit.handle sampleInterval timeUnits preTrigger
            (toUInt32 (postTrigger - preTrigger)) autostop downsampleRatio ratioMode 40000)]
        | none => []) ++
      List.replicate polled (Action.call (.GetStreamingLatestValues unit.handle))) ++
      Action.call (.Stop unit.handle) ::
        ((streamFrees unit mode).map Event.action ++
          (clearCalls api unit).map Action.call) := by
    cases mode <;> simp [streamActions, streamSettings]
  rw [hform]
  apply stopBeforeFrees_of
  intro b hb
  simp only [List.mem_append] at hb
  rcases hb with (hb | hb) | hb
  · cases mode <;> simp only at hb
    · obtain ⟨i, _, ha⟩ := List.mem_flatMap.1 hb
      simp [streamPairActions] at ha
    · obtain ⟨i, _, ha⟩ := List.mem_flatMap.1 hb
      simp [streamPortActions] at ha
    · obtain ⟨i, _, ha⟩ := List.mem_flatMap.1 hb
      simp [aggregatedPairActions] at ha
    · simp at hb
  · cases mode <;> simp [streamSettings] at hb
  · have := List.eq_of_mem_replicate hb
    cases this

/-- What `CollectRapidBlock` adds to the trace releases its buffers only after a
`ps2000aStop` call; a run that is aborted with no capture completed releases
nothing. -/
theorem stopBeforeFrees_rapid (api : Api) (unit : UNIT) (triggerVoltage : Int) (facets : Nat)
    (requested : Int) (aborted : Bool) (early : Prop) [Decidable early] (nCaptures : Int) :
    stopBeforeFrees unit.handle (rapidSetUp api unit triggerVoltage facets requested ++
      (if aborted then
        [Action.call (.Stop unit.handle), Action.call (.GetNoOfCaptures unit.handle)]
       else []) ++
      (if early then [] else rapidFetch api unit nCaptures)) := by
  have hsetup : ∀ b, Action.free b ∉ rapidSetUp api unit triggerVoltage facets requested ++
      (if aborted then
        [Action.call (.Stop unit.handle), Action.call (.GetNoOfCaptures unit.handle)]
       else []) := by
    intro b hb
    rcases List.mem_append.1 hb with hb | hb
    · obtain ⟨c, hc, _⟩ := mem_rapidSetUp hb
      cases hc
    · split_ifs at hb <;> simp at hb
  by_cases he : early
  · rw [if_pos he, List.append_nil]
    exact stopBeforeFrees_of_no_free _ _ hsetup
  · rw [if_neg he]
    have hform : rapidSetUp api unit triggerVoltage facets requested ++
        (if aborted then
          [Action.call (.Stop unit.handle), Action.call (.GetNoOfCaptures unit.handle)]
         else []) ++ rapidFetch api unit nCaptures =
        ((rapidSetUp api unit triggerVoltage facets requested ++
          (if aborted then
            [Action.call (.Stop unit.handle), Action.call (.GetNoOfCaptures unit.handle)]
           else [])) ++
         ([Action.malloc .rapidArray unit.channelCount,
           Action.malloc .overflow (unit.channelCount * nCaptures)] ++
          (List.range unit.channelCount.toNat).map
            (fun ch => Action.malloc (.rapidRow ch) nCaptures) ++
          (enabledChannels unit).flatMap (fun ch =>
            (List.range nCaptures.toNat).map (fun capture =>
              Action.malloc (.rapidBuffers ch capture) 1000)) ++
          (enabledChannels unit).flatMap (fun ch =>
            (List.range nCaptures.toNat).map (fun capture =>
              Action.call (.SetDataBuffer unit.handle ch (some (.rapidBuffers ch capture))
                1000 capture api.PS2000A_RATIO_MODE_NONE))) ++
          [Action.call (.GetValuesBulk unit.handle 1000 0 (toUInt32 (nCaptures - 1)) 1
            api.PS2000A_RATIO_MODE_NONE (some .overflow))])) ++
        Action.call (.Stop unit.handle) ::
          (Action.free .overflow ::
            ((enabledChannels unit).flatMap (fun ch =>
              (List.range nCaptures.toNat).map (fun capture =>
                Action.free (.rapidBuffers ch capture))) ++
             (List.range unit.channelCount.toNat).map (fun ch => Action.free (.rapidRow ch)) ++
             [Action.free .rapidArray])) := by
      simp [rapidFetch]
    rw [hform]
    apply stopBeforeFrees_of
    intro b hb
    rcases List.mem_append.1 hb with hb | hb
    · exact hsetup b hb
    · simp only [List.mem_append, List.mem_flatMap, List.mem_map, List.mem_cons,
        List.mem_singleton, List.not_mem_nil, or_false] at hb
      rcases hb with (((hb | hb) | hb) | hb) | hb
      · rcases hb with hb | hb <;> cases hb
      · obtain ⟨_, _, hb⟩ := hb; cases hb
      · obtain ⟨_, _, _, _, hb⟩ := hb; cases hb
      · obtain ⟨_, _, _, _, hb⟩ := hb; cases hb
      · cases hb

/-- C25: for every driver, unit and run that returns, in what `BlockDataHandler`,
`StreamDataHandler` and `CollectRapidBlock` add to the trace every release of a
buffer comes after a `ps2000aStop` call on the unit. -/
theorem stop_before_first_free (api : Api) (drv : Driver) (unit : UNIT)
    (g : Globals) (tr : Trace) :
    (∀ (inp : BlockInputs) (offset : Int) (mode : MODE) (etsModeSet : Int) (res : BlockResult),
      BlockDataHandler api drv inp unit offset mode etsModeSet g tr = some res →
      ∃ added, actions res.tr = actions tr ++ added ∧ stopBeforeFrees unit.handle added) ∧
    (∀ (inp : StreamInputs) (preTrigger : Int) (mode : MODE) (res : StreamResult),
      StreamDataHandler api drv inp unit preTrigger mode g tr = some res →
      ∃ added, actions res.tr = actions tr ++ added ∧ stopBeforeFrees unit.handle added) ∧
    (∀ (inp : RapidInputs) (s : Session),
      CollectRapidBlock api drv inp unit g tr = some s →
      ∃ added, actions s.tr = actions tr ++ added ∧ stopBeforeFrees unit.handle added) := by
  refine ⟨?_, ?_, ?_⟩
  · intro inp offset mode etsModeSet res h
    obtain ⟨tried, timebase, ht⟩ := actions_BlockDataHandler h
    exact ⟨_, ht, stopBeforeFrees_blockActions _ _ _ _ _ _ _ _⟩
  · intro inp preTrigger mode res h
    obtain ⟨polled, ht⟩ := actions_StreamDataHandler h
    exact ⟨_, ht, stopBeforeFrees_streamActions _ _ _ _ _⟩
  · intro inp s h
    obtain ⟨triggerVoltage, facets, requested, aborted, nCaptures, ht⟩ :=
      actions_CollectRapidBlock h
    refine ⟨_, ?_, stopBeforeFrees_rapid api unit triggerVoltage facets requested aborted
      (aborted = true ∧ toUInt32 inp.completedCaptures = 0) nCaptures⟩
    rw [ht]
    simp only [List.append_assoc]

/-- C25 on runs of the sample unit: a block run, a streaming run and a rapid block
run. -/
theorem stop_before_first_free_witness :
    (∃ res, BlockDataHandler vendorApi acceptAll readyBlockInputs (sampleUnit 32512) 0
        .ANALOGUE 0 sampleGlobals [] = some res ∧
      ∃ added, actions res.tr = actions [] ++ added ∧ stopBeforeFrees 1 added) ∧
    (∃ res, StreamDataHandler vendorApi acceptAll stopStreamInputs (sampleUnit 32512) 0
        .ANALOGUE sampleGlobals [] = some res ∧
      ∃ added, actions res.tr = actions [] ++ added ∧ stopBeforeFrees 1 added) ∧
    (∃ s, CollectRapidBlock vendorApi acceptAll readyRapidInputs (sampleUnit 32512)
        sampleGlobals [] = some s ∧
      ∃ added, actions s.tr = actions [] ++ added ∧ stopBeforeFrees 1 added) := by
  have hb : (BlockDataHandler vendorApi acceptAll readyBlockInputs (sampleUnit 32512) 0
      .ANALOGUE 0 sampleGlobals []).isSome = true := by decide
  have hs : (StreamDataHandler vendorApi acceptAll stopStreamInputs (sampleUnit 32512) 0
      .ANALOGUE sampleGlobals []).isSome = true := by decide
  have hr : (CollectRapidBlock vendorApi acceptAll readyRapidInputs (sampleUnit 32512)
      sampleGlobals []).isSome = true := by decide
  obtain ⟨rb, hrb⟩ := Option.isSome_iff_exists.1 hb
  obtain ⟨rs, hrs⟩ := Option.isSome_iff_exists.1 hs
  obtain ⟨rr, hrr⟩ := Option.isSome_iff_exists.1 hr
  exact ⟨⟨rb, hrb, (stop_before_first_free vendorApi acceptAll
      (sampleUnit 32512) sampleGlobals []).1 _ _ _ _ rb hrb⟩,
    ⟨rs, hrs, (stop_before_first_free vendorApi acceptAll
      (sampleUnit 32512) sampleGlobals []).2.1 _ _ _ rs hrs⟩,
    ⟨rr, hrr, (stop_before_first_free vendorApi acceptAll
      (sampleUnit 32512) sampleGlobals []).2.2 _ rr hrr⟩⟩

/-! ## The timebase search: the claims -/

/-- The timebase search returns the least accepted index from the start on, when
acceptance depends on the index only and one is accepted within the fuel. -/
theorem findTimebase_least (drv : Driver) (handle n os : Int) (accept : Int → Bool)
    (hacc : ∀ (trace : Trace) (tb : Int),
      drv trace (.GetTimebase handle tb n os 0) = PICO_OK ↔ accept tb = true) (t : Int)
    (ht32 : t < 4294967296) (hacct : accept t = true) :
    ∀ (fuel : Nat) (start : Int) (tr : Trace), 0 ≤ start → start ≤ t →
      (t - start).toNat < fuel →
      ∃ m tr', findTimebase drv handle n os fuel start tr = some (m, tr') ∧
        start ≤ m ∧ m ≤ t ∧ accept m = true ∧ ∀ k, start ≤ k → k < m → accept k = false := by
  intro fuel
  induction fuel with
  | zero => intro start tr _ _ h; omega
  | succ fuel ih =>
    intro start tr h0 hle hfuel
    unfold findTimebase
    simp only [callDriver]
    by_cases hs : accept start = true
    · have hok := (hacc tr start).2 hs
      rw [if_neg (by simpa using hok)]
      exact ⟨start, _, rfl, le_refl _, hle, hs, fun k h1 h2 => by omega⟩
    · have hno : drv tr (.GetTimebase handle start n os 0) ≠ PICO_OK :=
        fun hok => hs ((hacc tr start).1 hok)
      rw [if_pos hno]
      have hne : start ≠ t := fun e => hs (e ▸ hacct)
      have hnext : toUInt32 (start + 1) = start + 1 := by
        unfold toUInt32
        omega
      rw [hnext]
      obtain ⟨m, tr', hfind, h1, h2, h3, h4⟩ := ih (start + 1) _ (by omega) (by omega) (by omega)
      refine ⟨m, tr', hfind, by omega, h2, h3, ?_⟩
      intro k hk1 hk2
      by_cases hk : k = start
      · subst hk
        simpa using hs
      · exact h4 k (by omega) hk2

/-- The wait loop changes the ready flag only. -/
theorem waitReady_timebase (api : Api) :
    ∀ (wait : List WaitStep) (g g' : Globals), waitReady api wait g = some g' →
      g'.timebase = g.timebase := by
  intro wait
  induction wait with
  | nil => intro g g' h; simp [waitReady] at h
  | cons w rest ih =>
    intro g g' h
    cases hcb : w.callback with
    | none =>
      simp only [waitReady, hcb] at h
      split_ifs at h
      · simp only [Option.some.injEq] at h
        rw [← h]
      · simp only [Option.some.injEq] at h
        rw [← h]
      · exact ih _ _ h
    | some status =>
      simp only [waitReady, hcb] at h
      have ht : (CallBackBlock api g status).timebase = g.timebase := by
        unfold CallBackBlock
        split_ifs <;> rfl
      split_ifs at h
      · simp only [Option.some.injEq] at h
        rw [← h, ht]
      · simp only [Option.some.injEq] at h
        rw [← h, ht]
      · rw [ih _ _ h, ht]

/-- The globals at the start of the wait hold the accepted timebase. -/
theorem blockArmed_timebase (api : Api) (inp : BlockInputs) (g : Globals) (timebase : Int) :
    (blockArmed api inp g timebase).timebase = timebase := by
  unfold blockArmed
  cases inp.duringRun with
  | none => rfl
  | some status =>
    simp only [CallBackBlock]
    split_ifs <;> rfl

/-- The block controller returns when its timebase search and its wait end. -/
theorem BlockDataHandler_returns {api : Api} {drv : Driver} {inp : BlockInputs} {unit : UNIT}
    {offset : Int} {mode : MODE} {etsModeSet : Int} {g : Globals} {tr : Trace}
    {timebase : Int} {tr₄ : Trace} {g₂ : Globals}
    (hfind : findTimebase drv unit.handle BUFFER_SIZE g.oversample inp.timebaseFuel g.timebase
      (blockBound api drv unit mode etsModeSet tr) = some (timebase, tr₄))
    (hwait : waitReady api inp.wait (blockArmed api inp g timebase) = some g₂) :
    ∃ res, BlockDataHandler api drv inp unit offset mode etsModeSet g tr = some res ∧
      res.g = g₂ := by
  unfold blockBound at hfind
  unfold blockArmed at hwait
  simp only [] at hfind
  unfold BlockDataHandler
  simp only []
  rw [hfind]
  simp only []
  rw [hwait]
  exact ⟨_, rfl, rfl⟩

/-- C26: when the driver's answer to `ps2000aGetTimebase` depends on the timebase
index only and it accepts some index `t` with `timebase ≤ t < 2^32` (the starting
value being a `uint32_t`), the search of `BlockDataHandler` ends, within `t -
timebase + 1` calls, at the least accepted index `m` from the starting value on
(the starting value itself when that is accepted); a run that returns stores `m`
in the global `timebase` and passes it to `ps2000aRunBlock`, the first action after
the search; and the run does return when its wait loop ends. -/
theorem timebase_search_least (api : Api) (drv : Driver) (inp : BlockInputs) (unit : UNIT)
    (offset : Int) (mode : MODE) (etsModeSet : Int) (g : Globals) (tr : Trace)
    (accept : Int → Bool) (t : Int)
    (hacc : ∀ (trace : Trace) (tb : Int),
      drv trace (.GetTimebase unit.handle tb 1024 g.oversample 0) = PICO_OK ↔
        accept tb = true)
    (hstart : 0 ≤ g.timebase) (ht : g.timebase ≤ t) (ht32 : t < 4294967296)
    (hacct : accept t = true) (hfuel : (t - g.timebase).toNat < inp.timebaseFuel) :
    ∃ m tr₄,
      findTimebase drv unit.handle 1024 g.oversample inp.timebaseFuel g.timebase
        (blockBound api drv unit mode etsModeSet tr) = some (m, tr₄) ∧
      g.timebase ≤ m ∧ m ≤ t ∧ accept m = true ∧
      (∀ k, g.timebase ≤ k → k < m → accept k = false) ∧
      (accept g.timebase = true → m = g.timebase) ∧
      (∀ res, BlockDataHandler api drv inp unit offset mode etsModeSet g tr = some res →
        res.g.timebase = m ∧
        ∃ rest, actions res.tr = actions tr₄ ++
          Action.call (.RunBlock unit.handle 0 1024 m g.oversample 0) :: rest) ∧
      (∀ g₂, waitReady api inp.wait (blockArmed api inp g m) = some g₂ →
        ∃ res, BlockDataHandler api drv inp unit offset mode etsModeSet g tr = some res) := by
  obtain ⟨m, tr₄, hfind, h1, h2, h3, h4⟩ :=
    findTimebase_least drv unit.handle 1024 g.oversample accept hacc t ht32 hacct
      inp.timebaseFuel g.timebase (blockBound api drv unit mode etsModeSet tr) hstart ht hfuel
  refine ⟨m, tr₄, hfind, h1, h2, h3, h4, ?_, ?_, ?_⟩
  · intro hs
    by_contra hne
    have := h4 g.timebase (le_refl _) (lt_of_le_of_ne h1 (Ne.symm hne))
    rw [hs] at this
    cases this
  · intro res hres
    obtain ⟨timebase, tr₄', hfind', hwait, _, _, ht'⟩ := BlockDataHandler_run hres
    have heq : (timebase, tr₄') = (m, tr₄) := by
      have := hfind'.symm.trans hfind
      simpa using this
    simp only [Prod.mk.injEq] at heq
    obtain ⟨rfl, rfl⟩ := heq
    refine ⟨?_, (blockTail api unit mode etsModeSet g.oversample timebase res.fetched).tail,
      ?_⟩
    · rw [waitReady_timebase api _ _ _ hwait, blockArmed_timebase]
    · rw [ht']
      simp [blockTail, BUFFER_SIZE]
  · intro g₂ hwait
    obtain ⟨res, hres, _⟩ := @BlockDataHandler_returns api drv inp unit offset mode etsModeSet g
      tr m tr₄ g₂ hfind hwait
    exact ⟨res, hres⟩

/-- C26 on the sample unit with starting timebase 8 and a driver that accepts the
timebases from 11 on: the search ends at 11, which is passed to
`ps2000aRunBlock`. -/
theorem timebase_search_least_witness :
    (∃ m tr₄,
      findTimebase acceptFrom11 (sampleUnit 32512).handle 1024 sampleGlobals.oversample
        searchBlockInputs.timebaseFuel sampleGlobals.timebase
        (blockBound vendorApi acceptFrom11 (sampleUnit 32512) .ANALOGUE 0 []) = some (m, tr₄) ∧
      sampleGlobals.timebase ≤ m ∧ m ≤ 12 ∧ decide (11 ≤ m) = true ∧
      (∀ k, sampleGlobals.timebase ≤ k → k < m → decide (11 ≤ k) = false) ∧
      (decide (11 ≤ sampleGlobals.timebase) = true → m = sampleGlobals.timebase) ∧
      (∀ res, BlockDataHandler vendorApi acceptFrom11 searchBlockInputs (sampleUnit 32512) 0
          .ANALOGUE 0 sampleGlobals [] = some res →
        res.g.timebase = m ∧
        ∃ rest, actions res.tr = actions tr₄ ++
          Action.call (.RunBlock (sampleUnit 32512).handle 0 1024 m
            sampleGlobals.oversample 0) :: rest) ∧
      (∀ g₂, waitReady vendorApi searchBlockInputs.wait
          (blockArmed vendorApi searchBlockInputs sampleGlobals m) = some g₂ →
        ∃ res, BlockDataHandler vendorApi acceptFrom11 searchBlockInputs (sampleUnit 32512) 0
          .ANALOGUE 0 sampleGlobals [] = some res)) ∧
    (BlockDataHandler vendorApi acceptFrom11 searchBlockInputs (sampleUnit 32512) 0
        .ANALOGUE 0 sampleGlobals []).map
      (fun res => (res.g.timebase,
        (actions res.tr).filter (fun a => match a with
          | .call (.GetTimebase ..) => true
          | .call (.RunBlock ..) => true
          | _ => false)))
      = some (11, [Action.call (.GetTimebase 1 8 1024 1 0),
                   Action.call (.GetTimebase 1 9 1024 1 0),
                   Action.call (.GetTimebase 1 10 1024 1 0),
                   Action.call (.GetTimebase 1 11 1024 1 0),
                   Action.call (.RunBlock 1 0 1024 11 1 0)]) :=
  ⟨timebase_search_least vendorApi acceptFrom11 searchBlockInputs (sampleUnit 32512) 0
    .ANALOGUE 0 sampleGlobals [] (fun tb => decide (11 ≤ tb)) 12
    (by
      intro trace tb
      simp only [acceptFrom11, sampleUnit, decide_eq_true_eq]
      split_ifs with h
      · constructor
        · intro h'; exact absurd h' (by decide)
        · intro h'; omega
      · constructor
        · intro _; omega
        · intro _; rfl)
    (by decide) (by decide) (by decide) (by decide) (by decide), by decide⟩

/-! ## The indices read from the block buffers: the claims -/

/-- The part of C29 that holds: with the callers' offsets 0 and `BUFFER_SIZE/10 - 5`,
every sample index `BlockDataHandler` reads is below `BUFFER_SIZE` in the modes
`ANALOGUE` and `MIXED`, whatever sample count the driver writes back, and in every
mode when that count is at most `BUFFER_SIZE`. -/
theorem blockReadIndices_lt {api : Api} {drv : Driver} {inp : BlockInputs} {unit : UNIT}
    {offset : Int} {mode : MODE} {etsModeSet : Int} {g : Globals} {tr : Trace}
    {res : BlockResult}
    (h : BlockDataHandler api drv inp unit offset mode etsModeSet g tr = some res)
    (hoff : offset = 0 ∨ offset = BUFFER_SIZE / 10 - 5)
    (hmode : mode = .ANALOGUE ∨ mode = .MIXED ∨ toInt32 inp.valuesReturned ≤ BUFFER_SIZE) :
    ∀ i ∈ blockReadIndices offset res, 0 ≤ i ∧ i < BUFFER_SIZE := by
  obtain ⟨_, _, _, _, _, hcount, _⟩ := BlockDataHandler_run h
  intro i hi
  unfold blockReadIndices at hi
  split_ifs at hi with hf
  · rcases List.mem_append.1 hi with hi | hi
    · obtain ⟨k, hk, rfl⟩ := List.mem_map.1 hi
      have hk' := List.mem_range.1 hk
      have hb : BUFFER_SIZE = 1024 := rfl
      rcases hoff with rfl | rfl
      · rw [hb]; omega
      · rw [hb]; omega
    · obtain ⟨k, hk, rfl⟩ := List.mem_map.1 hi
      have hk' := List.mem_range.1 hk
      have hle : res.sampleCount ≤ BUFFER_SIZE := by
        rw [hcount, blockSampleCount, if_pos hf]
        split_ifs with hm
        · exact min_le_right _ _
        · rcases hmode with hm' | hm' | hm'
          · exact absurd (Or.inl hm') hm
          · exact absurd (Or.inr hm') hm
          · exact hm'
      have hb : BUFFER_SIZE = 1024 := rfl
      rw [hb] at hle ⊢
      omega
  · simp at hi

/-- C29, the code at a failing input: in `DIGITAL` mode, when `ps2000aGetValues`
writes back a sample count of 2000, `sampleCount` is not clipped and the export
loop reads the digital buffers, which hold 1024 samples, at the indices 1024 to
1999. -/
theorem digital_export_reads_past_buffer :
    ∃ res, BlockDataHandler vendorApi acceptAll oversizedBlockInputs sampleMsoUnit 0
        .DIGITAL 0 sampleGlobals [] = some res ∧
      res.fetched = true ∧ res.sampleCount = 2000 ∧
      Action.malloc (.digiBuffers 0) 1024 ∈ actions res.tr ∧
      Action.malloc (.digiBuffers 1) 1024 ∈ actions res.tr ∧
      (∀ i : Nat, i < 2000 → (i : Int) ∈ blockReadIndices 0 res) ∧
      (1999 : Int) ∈ blockReadIndices 0 res ∧ ¬ (1999 : Int) < BUFFER_SIZE := by
  have hb : (BlockDataHandler vendorApi acceptAll oversizedBlockInputs sampleMsoUnit 0
      .DIGITAL 0 sampleGlobals []).map
        (fun r => (r.fetched, r.sampleCount,
          decide (Action.malloc (.digiBuffers 0) 1024 ∈ actions r.tr),
          decide (Action.malloc (.digiBuffers 1) 1024 ∈ actions r.tr)))
      = some (true, 2000, true, true) := by decide
  obtain ⟨res, hres, hv⟩ := Option.map_eq_some'.1 hb
  simp only [Prod.mk.injEq, decide_eq_true_eq] at hv
  obtain ⟨hf, hc, hm0, hm1⟩ := hv
  have hall : ∀ i : Nat, i < 2000 → (i : Int) ∈ blockReadIndices 0 res := by
    intro i hi
    have h2000 : (2000 : Int).toNat = 2000 := by simp
    unfold blockReadIndices exportIndices
    rw [if_pos hf, hc, h2000]
    exact List.mem_append_right _ (List.mem_map.2 ⟨i, List.mem_range.2 hi, rfl⟩)
  exact ⟨res, hres, hf, hc, hm0, hm1, hall, hall 1999 (by decide), by decide⟩

/-! ## Cancelled rapid block runs: the claims -/

/-- The run of `CollectRapidBlock`, step by step: the wait from the armed globals
and the actions added to the trace. -/
theorem CollectRapidBlock_run {api : Api} {drv : Driver} {inp : RapidInputs} {unit : UNIT}
    {g : Globals} {tr : Trace} {s : Session}
    (h : CollectRapidBlock api drv inp unit g tr = some s) :
    ∃ (triggerVoltage : Int) (facets : Nat),
      waitReady api inp.wait (rapidArmed api inp g) = some s.g ∧
      actions s.tr = actions tr ++
        rapidSetUp api unit triggerVoltage facets (rapidRequested inp) ++
        (if s.g.g_ready = 0 then
          [Action.call (.Stop unit.handle), Action.call (.GetNoOfCaptures unit.handle)]
         else []) ++
        (if s.g.g_ready = 0 ∧ toUInt32 inp.completedCaptures = 0 then []
         else rapidFetch api unit (rapidCaptures inp (decide (s.g.g_ready = 0)))) := by
  unfold CollectRapidBlock at h
  simp only [] at h
  split at h
  · simp at h
  · next triggerVoltage hv =>
    by_cases hp : thresholdPrinted api unit g triggerVoltage = true
    swap
    · rw [if_neg hp] at h; simp at h
    rw [if_pos hp] at h
    split at h
    · simp at h
    · next g₄ hwait =>
      obtain ⟨facets, hf⟩ := actions_SetTrigger drv unit
        (some [sourceDetails api triggerVoltage 256]) 1
        (some [conditionsOn api api.PS2000A_CONDITION_TRUE api.PS2000A_CONDITION_DONT_CARE]) 1
        (directionsOn api api.PS2000A_RISING) zeroPwq 0 0 0 none 0 (SetDefaults api drv unit tr)
      rw [actions_SetDefaults] at hf
      by_cases hearly : decide (g₄.g_ready = 0) = true ∧ toUInt32 inp.completedCaptures = 0
      · rw [if_pos hearly] at h
        simp only [Option.some.injEq] at h
        subst h
        refine ⟨triggerVoltage, facets, hwait, ?_⟩
        have hab : g₄.g_ready = 0 := by simpa using hearly.1
        simp only [hearly.1, if_true, actions_callDriver, hf]
        simp [rapidSetUp, rapidFacets, rapidRequested, hearly.2, hab]
      · rw [if_neg hearly] at h
        simp only [Option.some.injEq] at h
        subst h
        refine ⟨triggerVoltage, facets, hwait, ?_⟩
        simp only [actions_append, actions_callDriver, actions_callEach]
        by_cases hab : g₄.g_ready = 0
        · have hne : ¬ toUInt32 inp.completedCaptures = 0 :=
            fun hz => hearly ⟨by simpa using hab, hz⟩
          have hd : decide (g₄.g_ready = 0) = true := by simpa using hab
          simp only [hd, if_true, actions_callDriver, hf]
          simp [rapidSetUp, rapidFacets, rapidFetch, rapidRequested, rapidCaptures, hne, hab,
            actions, Event.action, map_flatMap_map, List.map_flatMap, Function.comp_def]
        · have hd : decide (g₄.g_ready = 0) = false := by simpa using hab
          simp only [hd, Bool.false_eq_true, if_false, actions_callDriver, hf]
          simp [rapidSetUp, rapidFacets, rapidFetch, rapidRequested, rapidCaptures, hab,
            actions, Event.action, map_flatMap_map, List.map_flatMap, Function.comp_def]

/-- The requested captures are at most ten. -/
theorem rapidRequested_le (inp : RapidInputs) : rapidRequested inp ≤ 10 := by
  unfold rapidRequested
  split_ifs <;> omega

/-- A completion callback delivered while `ps2000aRunBlock` executes leaves no mark
on the globals with which the wait of `CollectRapidBlock` begins. -/
theorem rapidArmed_eq (api : Api) (inp : RapidInputs) (g : Globals) :
    rapidArmed api inp g = { g with timebase := 160, g_ready := 0 } := by
  unfold rapidArmed
  cases inp.duringRun with
  | none => rfl
  | some status =>
    simp only [CallBackBlock]
    split_ifs <;> rfl

/-- The set-up of `CollectRapidBlock`, and the two calls of its abort branch,
allocate nothing and fetch nothing. -/
theorem rapidSetUp_allocatesOrReads {api : Api} {unit : UNIT} {triggerVoltage : Int}
    {facets : Nat} {nCaptures : Int} {a : Action}
    (h : a ∈ rapidSetUp api unit triggerVoltage facets nCaptures ++
      [Action.call (.Stop unit.handle), Action.call (.GetNoOfCaptures unit.handle)]) :
    a.allocatesOrReads = false := by
  rcases List.mem_append.1 h with h | h
  · unfold rapidSetUp at h
    simp only [List.mem_append] at h
    rcases h with (h | h) | h
    · obtain ⟨c, hc, rfl⟩ := List.mem_map.1 h
      unfold defaultCalls at hc
      rcases List.mem_cons.1 hc with rfl | hc
      · rfl
      · obtain ⟨i, _, rfl⟩ := List.mem_map.1 hc
        rfl
    · obtain ⟨c, hc, rfl⟩ := List.mem_map.1 h
      have hc' := List.mem_of_mem_take hc
      unfold rapidFacets triggerFacets at hc'
      simp only [List.mem_append, List.mem_cons, List.mem_singleton, List.not_mem_nil,
        or_false] at hc'
      rcases hc' with (rfl | rfl | rfl | rfl | rfl) | hc'
      · rfl
      · rfl
      · rfl
      · rfl
      · rfl
      · split_ifs at hc'
        · simp at hc'; subst hc'; rfl
        · simp at hc'
    · simp only [List.mem_cons, List.mem_singleton, List.not_mem_nil, or_false] at h
      rcases h with rfl | rfl | rfl | rfl <;> rfl
  · simp only [List.mem_cons, List.mem_singleton, List.not_mem_nil, or_false] at h
    rcases h with rfl | rfl <;> rfl

/-- The fetch of `CollectRapidBlock` reads the segments from 0 to `nCaptures - 1`,
in one `ps2000aGetValuesBulk` call, and makes no `ps2000aGetValues` call. -/
theorem reads_rapidFetch {api : Api} {unit : UNIT} {nCaptures : Int} {c : DriverCall}
    (h : Action.call c ∈ rapidFetch api unit nCaptures)
    (hread : (Action.call c).allocatesOrReads = true) :
    c = .GetValuesBulk unit.handle 1000 0 (toUInt32 (nCaptures - 1)) 1
      api.PS2000A_RATIO_MODE_NONE (some .overflow) := by
  unfold rapidFetch at h
  simp only [List.mem_append, List.mem_flatMap, List.mem_map, List.mem_cons,
    List.mem_singleton, List.not_mem_nil, or_false] at h
  rcases h with (((((((h | h) | h) | h) | h) | h) | h) | h) | h
  · cases h
  · cases h
  · obtain ⟨ch, _, h⟩ := h; cases h
  · obtain ⟨ch, hch, cap, hcap, h⟩ := h; cases h
  · obtain ⟨ch, hch, cap, hcap, h⟩ := h
    cases h
    simp [Action.allocatesOrReads] at hread
  · rcases h with h | h | h
    · cases h; rfl
    · cases h; simp [Action.allocatesOrReads] at hread
    · cases h
  · obtain ⟨ch, _, cap, _, h⟩ := h; cases h
  · obtain ⟨ch, _, h⟩ := h; cases h
  · cases h

/-- The buffers and the bind calls of the fetch of `CollectRapidBlock`: one per
enabled channel and capture below `nCaptures`. -/
theorem capture_mem_rapidFetch {api : Api} {unit : UNIT} {nCaptures : Int} {ch capture : Nat}
    (hch : ch ∈ enabledChannels unit) (hcap : (capture : Int) < nCaptures) :
    Action.malloc (.rapidBuffers ch capture) 1000 ∈ rapidFetch api unit nCaptures ∧
    Action.call (.SetDataBuffer unit.handle ch (some (.rapidBuffers ch capture)) 1000 capture
      api.PS2000A_RATIO_MODE_NONE) ∈ rapidFetch api unit nCaptures := by
  have hr : capture ∈ List.range nCaptures.toNat := List.mem_range.2 (by omega)
  unfold rapidFetch
  simp only [List.mem_append, List.mem_flatMap, List.mem_map]
  constructor
  · exact Or.inl (Or.inl (Or.inl (Or.inl (Or.inl (Or.inr ⟨ch, hch, capture, hr, rfl⟩)))))
  · exact Or.inl (Or.inl (Or.inl (Or.inl (Or.inr ⟨ch, hch, capture, hr, rfl⟩))))

/-- C23: when the wait of `CollectRapidBlock` ends with the ready flag clear (the
operator cancelled) and `ps2000aGetNoOfCaptures` reports `k` completed captures,
the run stops the driver and asks for the count; with `k = 0` it adds nothing
more to the trace, so it allocates nothing and fetches nothing; with `0 < k` and
`k` at most the number of captures requested (itself at most ten), it then
allocates and binds one buffer for each enabled channel and each capture below
`k` and no other sample buffer, makes one `ps2000aGetValuesBulk` call, over the
segments 0 to `k - 1`, and releases everything.  The variable `nCaptures`, which
also bounds the report loop (the printing is not modelled), is `k`. -/
theorem rapid_block_cancelled (api : Api) (drv : Driver) (inp : RapidInputs) (unit : UNIT)
    (g : Globals) (tr : Trace) (s : Session) (k : Int)
    (h : CollectRapidBlock api drv inp unit g tr = some s)
    (hcancel : s.g.g_ready = 0) (hk : toUInt32 inp.completedCaptures = k) :
    rapidRequested inp ≤ 10 ∧
    ∃ (triggerVoltage : Int) (facets : Nat),
      (∀ a ∈ rapidSetUp api unit triggerVoltage facets (rapidRequested inp) ++
          [Action.call (.Stop unit.handle), Action.call (.GetNoOfCaptures unit.handle)],
        a.allocatesOrReads = false) ∧
      (k = 0 → actions s.tr = actions tr ++
        (rapidSetUp api unit triggerVoltage facets (rapidRequested inp) ++
          [Action.call (.Stop unit.handle), Action.call (.GetNoOfCaptures unit.handle)])) ∧
      (0 < k → k ≤ rapidRequested inp →
        actions s.tr = actions tr ++
          (rapidSetUp api unit triggerVoltage facets (rapidRequested inp) ++
            [Action.call (.Stop unit.handle), Action.call (.GetNoOfCaptures unit.handle)] ++
            rapidFetch api unit k) ∧
        rapidCaptures inp (decide (s.g.g_ready = 0)) = k ∧
        (∀ ch capture : Nat, ch ∈ enabledChannels unit → (capture : Int) < k →
          Action.malloc (.rapidBuffers ch capture) 1000 ∈ rapidFetch api unit k ∧
          Action.call (.SetDataBuffer unit.handle ch (some (.rapidBuffers ch capture)) 1000
            capture api.PS2000A_RATIO_MODE_NONE) ∈ rapidFetch api unit k) ∧
        (∀ ch capture n, Action.malloc (.rapidBuffers ch capture) n ∈ rapidFetch api unit k →
          ch ∈ enabledChannels unit ∧ (capture : Int) < k) ∧
        (∀ c channel buffers len, Action.call c ∈ rapidFetch api unit k →
          c.binding = some (channel, buffers, len) →
          ∃ ch ∈ enabledChannels unit, ∃ capture : Nat, (capture : Int) < k ∧
            c = .SetDataBuffer unit.handle ch (some (.rapidBuffers ch capture)) 1000 capture
              api.PS2000A_RATIO_MODE_NONE) ∧
        Action.call (.GetValuesBulk unit.handle 1000 0 (k - 1) 1 api.PS2000A_RATIO_MODE_NONE
          (some .overflow)) ∈ rapidFetch api unit k ∧
        (∀ c, Action.call c ∈ rapidFetch api unit k →
          (Action.call c).allocatesOrReads = true →
          c = .GetValuesBulk unit.handle 1000 0 (k - 1) 1 api.PS2000A_RATIO_MODE_NONE
            (some .overflow))) := by
  obtain ⟨triggerVoltage, facets, _, ht⟩ := CollectRapidBlock_run h
  refine ⟨rapidRequested_le inp, triggerVoltage, facets,
    fun a ha => rapidSetUp_allocatesOrReads ha, ?_, ?_⟩
  · intro hk0
    rw [ht, if_pos hcancel, if_pos ⟨hcancel, hk.trans hk0⟩]
    simp
  · intro hpos hle
    have hle10 := rapidRequested_le inp
    have hne : ¬ (s.g.g_ready = 0 ∧ toUInt32 inp.completedCaptures = 0) := by
      rw [hk]; intro hh; omega
    have hcap : rapidCaptures inp (decide (s.g.g_ready = 0)) = k := by
      simp only [rapidCaptures, hcancel, decide_True, if_true, hk]
      unfold toUInt16
      omega
    have hto : toUInt32 (k - 1) = k - 1 := by
      unfold toUInt32
      omega
    refine ⟨?_, hcap, fun ch capture hch hc => capture_mem_rapidFetch hch hc, ?_, ?_, ?_, ?_⟩
    · rw [ht, if_pos hcancel, if_neg hne, hcap]
      simp
    · intro ch capture n hmem
      rcases mem_rapidFetch hmem with ⟨ch', hch', cap', hcap', h'⟩ | ⟨_, _, _, _, h'⟩ | ⟨_, h'⟩ |
        ⟨_, h'⟩ | ⟨_, _, h'⟩ | ⟨_, h', _⟩ | ⟨_, h'⟩
      · cases h'
        exact ⟨hch', by have := List.mem_range.1 hcap'; omega⟩
      all_goals cases h'
    · intro c channel buffers len hmem hb
      rcases mem_rapidFetch hmem with ⟨_, _, _, _, h'⟩ | ⟨ch', hch', cap', hcap', h'⟩ | ⟨_, h'⟩ |
        ⟨_, h'⟩ | ⟨_, _, h'⟩ | ⟨c', h', hnone, _⟩ | ⟨_, h'⟩
      · cases h'
      · cases h'
        exact ⟨ch', hch', cap', by have := List.mem_range.1 hcap'; omega, rfl⟩
      · cases h'
      · cases h'
      · cases h'
      · cases h'
        rw [hnone] at hb
        cases hb
      · cases h'
    · rw [← hto]
      unfold rapidFetch
      simp
    · intro c hmem hread
      rw [← hto]
      exact reads_rapidFetch hmem hread

/-- C23 on a rapid block run of the sample unit, ten captures requested, cancelled
by a key press when four are complete. -/
theorem rapid_block_cancelled_witness :
    (∃ s, CollectRapidBlock vendorApi acceptAll cancelledRapidInputs (sampleUnit 32512)
        sampleGlobals [] = some s ∧ s.g.g_ready = 0 ∧
      toUInt32 cancelledRapidInputs.completedCaptures = 4 ∧
      (4 : Int) ≤ rapidRequested cancelledRapidInputs ∧
      ∃ (triggerVoltage : Int) (facets : Nat),
        actions s.tr = actions [] ++
          (rapidSetUp vendorApi (sampleUnit 32512) triggerVoltage facets
              (rapidRequested cancelledRapidInputs) ++
            [Action.call (.Stop (sampleUnit 32512).handle),
             Action.call (.GetNoOfCaptures (sampleUnit 32512).handle)] ++
            rapidFetch vendorApi (sampleUnit 32512) 4)) ∧
    (CollectRapidBlock vendorApi acceptAll cancelledRapidInputs (sampleUnit 32512)
        sampleGlobals []).map (fun s => (actions s.tr).filter
          (fun a => match a with
            | .call (.SetDataBuffer ..) => true
            | .call (.GetValuesBulk ..) => true
            | .call (.GetNoOfCaptures ..) => true
            | _ => false))
      = some [Action.call (.GetNoOfCaptures 1),
              Action.call (.SetDataBuffer 1 0 (some (.rapidBuffers 0 0)) 1000 0 0),
              Action.call (.SetDataBuffer 1 0 (some (.rapidBuffers 0 1)) 1000 1 0),
              Action.call (.SetDataBuffer 1 0 (some (.rapidBuffers 0 2)) 1000 2 0),
              Action.call (.SetDataBuffer 1 0 (some (.rapidBuffers 0 3)) 1000 3 0),
              Action.call (.GetValuesBulk 1 1000 0 3 1 0 (some .overflow))] := by
  have hb : (CollectRapidBlock vendorApi acceptAll cancelledRapidInputs (sampleUnit 32512)
      sampleGlobals []).map (fun s => s.g.g_ready) = some 0 := by decide
  obtain ⟨s, hs, hg⟩ := Option.map_eq_some'.1 hb
  obtain ⟨_, triggerVoltage, facets, _, _, h3⟩ :=
    rapid_block_cancelled vendorApi acceptAll cancelledRapidInputs (sampleUnit 32512)
      sampleGlobals [] s 4 hs hg (by decide)
  exact ⟨⟨s, hs, hg, by decide, by decide, triggerVoltage, facets,
    (h3 (by decide) (by decide)).1⟩, by decide⟩

/-! ## The ready flag and the run-start: the claims -/

/-- In `BlockDataHandler` a completion callback delivered while `ps2000aRunBlock`
executes, with a status other than `PICO_CANCELLED`, is seen by the wait loop: the
run fetches the block. -/
theorem BlockDataHandler_observes_duringRun {api : Api} {drv : Driver} {inp : BlockInputs}
    {unit : UNIT} {offset : Int} {mode : MODE} {etsModeSet : Int} {g : Globals} {tr : Trace}
    {res : BlockResult} {status : PICO_STATUS}
    (h : BlockDataHandler api drv inp unit offset mode etsModeSet g tr = some res)
    (hrun : inp.duringRun = some status) (hstatus : status ≠ api.PICO_CANCELLED) :
    res.g.g_ready ≠ 0 ∧ res.fetched = true := by
  obtain ⟨timebase, tr₄, _, hwait, hfetched, _, _⟩ := BlockDataHandler_run h
  have harmed : (blockArmed api inp g timebase).g_ready = TRUE := by
    simp [blockArmed, hrun, CallBackBlock, hstatus]
  have hkeep : ∀ (wait : List WaitStep) (g₁ g₂ : Globals), g₁.g_ready = TRUE →
      waitReady api wait g₁ = some g₂ → g₂.g_ready = TRUE := by
    intro wait
    induction wait with
    | nil => intro g₁ g₂ _ hw; simp [waitReady] at hw
    | cons w rest ih =>
      intro g₁ g₂ hg hw
      have hcb : (match w.callback with
          | some status => CallBackBlock api g₁ status
          | none => g₁).g_ready = TRUE := by
        cases w.callback with
        | none => exact hg
        | some st =>
          simp only [CallBackBlock]
          split_ifs
          · rfl
          · exact hg
      cases hc : w.callback with
      | none =>
        simp only [waitReady, hc] at hw hcb
        rw [if_pos (by rw [hg]; decide)] at hw
        simp only [Option.some.injEq] at hw
        rw [← hw]; exact hg
      | some st =>
        simp only [waitReady, hc] at hw hcb
        rw [if_pos (by rw [hcb]; decide)] at hw
        simp only [Option.some.injEq] at hw
        rw [← hw]; exact hcb
  have hready := hkeep _ _ _ harmed hwait
  have hne : res.g.g_ready ≠ 0 := by rw [hready]; decide
  exact ⟨hne, by rw [hfetched]; simpa using hne⟩

/-- In `CollectRapidBlock` a completion callback delivered while `ps2000aRunBlock`
executes changes nothing: the run is the run without that callback. -/
theorem CollectRapidBlock_ignores_duringRun (api : Api) (drv : Driver) (inp : RapidInputs)
    (unit : UNIT) (g : Globals) (tr : Trace) :
    CollectRapidBlock api drv inp unit g tr
      = CollectRapidBlock api drv { inp with duringRun := none } unit g tr := by
  unfold CollectRapidBlock
  cases hd : inp.duringRun with
  | none => rfl
  | some status =>
    have : ({ CallBackBlock api { g with timebase := 160 } status with g_ready := 0 } : Globals)
        = { ({ g with timebase := 160 } : Globals) with g_ready := 0 } := by
      simp only [CallBackBlock]
      split_ifs <;> rfl
    simp only [this]

/-- C27, the code at a failing input: the completion callback arrives with
`PICO_OK` while `ps2000aRunBlock` executes and not again.  `BlockDataHandler`, which
clears the ready flag before the call, leaves its wait with the flag set and
fetches the block.  `CollectRapidBlock`, which clears the flag after the call,
waits until a key is pressed, leaves its wait with the flag clear and takes the
abort branch: it stops the driver, asks for the completed captures and fetches
nothing.  While no key is pressed its wait does not end: on the wait script without
the key press the run has no result. -/
theorem rapid_block_clears_ready_after_run :
    (BlockDataHandler vendorApi acceptAll duringRunBlockInputs (sampleUnit 32512) 0
        .ANALOGUE 0 sampleGlobals []).map
      (fun res => (res.g.g_ready, res.fetched,
        (actions res.tr).filter (fun a => match a with
          | .call (.RunBlock ..) => true
          | .call (.GetValues ..) => true
          | .call (.Stop ..) => true
          | _ => false)))
      = some (1, true, [Action.call (.RunBlock 1 0 1024 8 1 0),
                        Action.call (.GetValues 1 0 1024 10 0 0),
                        Action.call (.Stop 1)]) ∧
    (CollectRapidBlock vendorApi acceptAll duringRunRapidInputs (sampleUnit 32512)
        sampleGlobals []).map
      (fun s => (s.g.g_ready,
        (actions s.tr).filter (fun a => match a with
          | .call (.RunBlock ..) => true
          | .call (.GetValuesBulk ..) => true
          | .call (.Stop ..) => true
          | .call (.GetNoOfCaptures ..) => true
          | _ => false)))
      = some (0, [Action.call (.RunBlock 1 0 1000 160 1 0),
                  Action.call (.Stop 1),
                  Action.call (.GetNoOfCaptures 1)]) ∧
    CollectRapidBlock vendorApi acceptAll
        { duringRunRapidInputs with wait := [{ callback := none, kbhit := false }] }
        (sampleUnit 32512) sampleGlobals [] = none := by
  refine ⟨by decide, by decide, by decide⟩

/-! ## The millivolt bound and the exit of the poll loop: the claims -/

/-- C30: for a full-scale code `maxValue` in 1..32767 (the field is an `int16_t`),
every range index `r` in 0..11 and every ADC code `c` with `|c| ≤ maxValue`,
`adc_to_mv(c, r)` has a value and its magnitude is at most `inputRanges[r]`. -/
theorem adc_to_mv_within_range (c r : Int) (unit : UNIT)
    (hM₀ : 0 < unit.maxValue) (hM₁ : unit.maxValue ≤ 32767) (hr₀ : 0 ≤ r) (hr₁ : r ≤ 11)
    (hc : |c| ≤ unit.maxValue) :
    ∃ range mv, inputRanges[r.toNat]? = some range ∧ adc_to_mv c r unit = some mv ∧
      |mv| ≤ range := by
  obtain ⟨range, hidx, hrange, hR₁, hR₂, _⟩ := rangeAt_of_index hr₀ hr₁
  obtain ⟨hc₁, hc₂⟩ := abs_le.1 hc
  have hval := @adc_to_mv_of_code c r range unit hrange hr₀ hr₁ hR₁ hR₂ (by omega) (by omega)
    (by omega)
  refine ⟨range, _, hidx, hval, ?_⟩
  rcases le_or_lt 0 c with h0 | h0
  · have hnum : 0 ≤ c * range := Int.mul_nonneg h0 (by omega)
    rw [Int.tdiv_eq_ediv hnum hM₀.le]
    have hq : 0 ≤ c * range / unit.maxValue := Int.ediv_nonneg hnum hM₀.le
    rw [abs_of_nonneg hq]
    apply Int.ediv_le_of_le_mul hM₀
    nlinarith
  · have hneg : c * range = -((-c) * range) := by ring
    have hnum : 0 ≤ (-c) * range := Int.mul_nonneg (by omega) (by omega)
    rw [hneg, Int.neg_tdiv, abs_neg, Int.tdiv_eq_ediv hnum hM₀.le]
    have hq : 0 ≤ (-c) * range / unit.maxValue := Int.ediv_nonneg hnum hM₀.le
    rw [abs_of_nonneg hq]
    apply Int.ediv_le_of_le_mul hM₀
    nlinarith

/-- C30 at the full-scale code on the 50 V range. -/
theorem adc_to_mv_within_range_witness :
    ∃ range mv, inputRanges[(11 : Int).toNat]? = some range ∧
      adc_to_mv (-32512) 11 (sampleUnit 32512) = some mv ∧ |mv| ≤ range :=
  adc_to_mv_within_range (-32512) 11 (sampleUnit 32512) (by decide) (by decide) (by decide)
    (by decide) (by decide)

/-- The poll loop exits only with `g_autoStopped` set. -/
theorem pollLoop_exit (drv : Driver) :
    ∀ (polls : List Poll) (st final : StreamState), pollLoop drv polls st = some final →
      final.g.g_autoStopped ≠ 0 := by
  intro polls
  induction polls with
  | nil =>
    intro st final h
    unfold pollLoop at h
    split_ifs at h with hs
    simp only [Option.some.injEq] at h
    subst h
    exact hs
  | cons p rest ih =>
    intro st final h
    unfold pollLoop at h
    split_ifs at h with hs
    · simp only [Option.some.injEq] at h
      subst h
      exact hs
    · simp only at h
      split at h
      · simp at h
      · exact ih _ _ h

/-- C28: for every driver, every mode and every script of polls, a run of
`StreamDataHandler` that returns left its poll loop with `g_autoStopped` non-zero
and does not take the branch `Data collection aborted`. -/
theorem StreamDataHandler_never_aborted (api : Api) (drv : Driver) (inp : StreamInputs)
    (unit : UNIT) (preTrigger : Int) (mode : MODE) (g : Globals) (tr : Trace)
    (res : StreamResult)
    (h : StreamDataHandler api drv inp unit preTrigger mode g tr = some res) :
    res.final.g.g_autoStopped ≠ 0 ∧ res.g = res.final.g ∧ res.aborted = false := by
  unfold StreamDataHandler at h
  simp only [] at h
  split at h
  · simp at h
  · split at h
    · simp at h
    · next final hloop =>
      have hexit := pollLoop_exit _ _ _ _ hloop
      simp only [Option.some.injEq] at h
      subst h
      exact ⟨hexit, rfl, by simpa using hexit⟩

/-- C28 on a streaming run of the sample unit that the driver stops at the first
poll. -/
theorem StreamDataHandler_never_aborted_witness :
    ∃ res, StreamDataHandler vendorApi acceptAll stopStreamInputs (sampleUnit 32512) 0
        .ANALOGUE sampleGlobals [] = some res ∧
      res.final.g.g_autoStopped ≠ 0 ∧ res.g = res.final.g ∧ res.aborted = false := by
  have hs : (StreamDataHandler vendorApi acceptAll stopStreamInputs (sampleUnit 32512) 0
      .ANALOGUE sampleGlobals []).isSome = true := by decide
  obtain ⟨res, hres⟩ := Option.isSome_iff_exists.1 hs
  exact ⟨res, hres, StreamDataHandler_never_aborted vendorApi acceptAll stopStreamInputs
    (sampleUnit 32512) 0 .ANALOGUE sampleGlobals [] res hres⟩

/-! ## The order of arm, bind and run-start: the claims -/

/-- The steps of a concatenation. -/
theorem steps_append (l₁ l₂ : List Action) : steps (l₁ ++ l₂) = steps l₁ ++ steps l₂ := by
  simp [steps]

/-- A list whose actions belong to no step has no steps. -/
theorem steps_nil_of {l : List Action} (h : ∀ a ∈ l, a.step = none) : steps l = [] := by
  unfold steps
  induction l with
  | nil => rfl
  | cons a rest ih =>
    rw [List.filterMap_cons, h a (List.mem_cons_self _ _)]
    exact ih (fun b hb => h b (List.mem_cons_of_mem _ hb))

/-- A list whose actions all belong to the step `x` has that step once per action. -/
theorem steps_replicate_of {l : List Action} {x : Step} (h : ∀ a ∈ l, a.step = some x) :
    steps l = List.replicate l.length x := by
  unfold steps
  induction l with
  | nil => rfl
  | cons a rest ih =>
    rw [List.filterMap_cons, h a (List.mem_cons_self _ _)]
    simp only [List.length_cons, List.replicate_succ, List.cons.injEq, true_and]
    exact ih (fun b hb => h b (List.mem_cons_of_mem _ hb))

/-- When every group of actions has the single step `x`, the groups of a list have
it once per group. -/
theorem steps_flatMap_replicate {α : Type} (g : α → List Action) (x : Step)
    (h : ∀ i, steps (g i) = [x]) (l : List α) :
    steps (l.flatMap g) = List.replicate l.length x := by
  induction l with
  | nil => rfl
  | cons i rest ih =>
    rw [List.flatMap_cons, steps_append, h, ih]
    rfl

/-- A trace extends itself by no step. -/
theorem stepsFrom_refl (tr : Trace) : stepsFrom tr tr [] := ⟨[], by simp, rfl⟩

/-- Extensions of a trace compose and their steps are concatenated. -/
theorem stepsFrom_trans {tr tr' tr'' : Trace} {l₁ l₂ : List Step}
    (h₁ : stepsFrom tr tr' l₁) (h₂ : stepsFrom tr' tr'' l₂) : stepsFrom tr tr'' (l₁ ++ l₂) := by
  obtain ⟨a₁, e₁, s₁⟩ := h₁
  obtain ⟨a₂, e₂, s₂⟩ := h₂
  exact ⟨a₁ ++ a₂, by rw [e₂, e₁, List.append_assoc], by rw [steps_append, s₁, s₂]⟩

/-- Driver calls that belong to no step add no step. -/
theorem stepsFrom_callEach (drv : Driver) (tr : Trace) (calls : List DriverCall)
    (h : ∀ c ∈ calls, c.step = none) : stepsFrom tr (callEach drv tr calls) [] := by
  refine ⟨calls.map Action.call, actions_callEach drv calls tr, steps_nil_of ?_⟩
  intro a ha
  obtain ⟨c, hc, rfl⟩ := List.mem_map.1 ha
  exact h c hc

/-- A driver call that belongs to no step adds no step. -/
theorem stepsFrom_callDriver (drv : Driver) (tr : Trace) (c : DriverCall)
    (h : c.step = none) : stepsFrom tr (callDriver drv tr c).2 [] := by
  refine ⟨[Action.call c], actions_callDriver drv tr c, ?_⟩
  simp [steps, Action.step, h]

/-- The function `SetDefaults` adds no step: it switches ETS off and sets the channels
and the digital ports. -/
theorem stepsFrom_SetDefaults (api : Api) (drv : Driver) (unit : UNIT) (tr : Trace) :
    stepsFrom tr (SetDefaults api drv unit tr) [] := by
  unfold SetDefaults
  apply stepsFrom_callEach
  intro c hc
  rcases List.mem_cons.1 hc with rfl | hc
  · rfl
  · obtain ⟨i, _, rfl⟩ := List.mem_map.1 hc
    rfl

/-- The function `DisableAnalogue` adds no step. -/
theorem stepsFrom_DisableAnalogue (drv : Driver) (unit : UNIT) (tr : Trace) :
    stepsFrom tr (DisableAnalogue drv unit tr) [] := by
  unfold DisableAnalogue
  apply stepsFrom_callEach
  intro c hc
  obtain ⟨i, _, rfl⟩ := List.mem_map.1 hc
  rfl

/-- The function `SetTrigger` adds arm steps only: one per trigger facet it submits. -/
theorem stepsFrom_SetTrigger (drv : Driver) (unit : UNIT)
    (channelProperties : Option (List TRIGGER_CHANNEL_PROPERTIES)) (nChannelProperties : Int)
    (triggerConditions : Option (List TRIGGER_CONDITIONS)) (nTriggerConditions : Int)
    (directions : TRIGGER_DIRECTIONS) (pwq : PWQ) (delay auxOutputEnabled autoTriggerMs : Int)
    (digitalDirections : Option (List DIGITAL_CHANNEL_DIRECTIONS)) (nDigitalDirections : Int)
    (tr : Trace) :
    ∃ a : Nat, stepsFrom tr
      (SetTrigger drv unit channelProperties nChannelProperties triggerConditions
        nTriggerConditions directions pwq delay auxOutputEnabled autoTriggerMs
        digitalDirections nDigitalDirections tr).2 (List.replicate a .arm) := by
  obtain ⟨facets, hf⟩ := actions_SetTrigger drv unit channelProperties nChannelProperties
    triggerConditions nTriggerConditions directions pwq delay auxOutputEnabled autoTriggerMs
    digitalDirections nDigitalDirections tr
  refine ⟨_, _, hf, steps_replicate_of ?_⟩
  intro a ha
  obtain ⟨c, hc, rfl⟩ := List.mem_map.1 ha
  have hc' := List.mem_of_mem_take hc
  unfold triggerFacets at hc'
  simp only [List.mem_append, List.mem_cons, List.mem_singleton, List.not_mem_nil,
    or_false] at hc'
  rcases hc' with (rfl | rfl | rfl | rfl | rfl) | hc'
  · rfl
  · rfl
  · rfl
  · rfl
  · rfl
  · split_ifs at hc'
    · simp at hc'; subst hc'; rfl
    · simp at hc'

/-- The calls of `ClearDataBuffers` pass null pointers and belong to no step. -/
theorem steps_clearCalls (api : Api) (unit : UNIT) :
    steps ((clearCalls api unit).map Action.call) = [] := by
  apply steps_nil_of
  intro a ha
  obtain ⟨c, hc, rfl⟩ := List.mem_map.1 ha
  unfold clearCalls at hc
  rcases List.mem_append.1 hc with hc | hc
  · obtain ⟨i, _, rfl⟩ := List.mem_map.1 hc
    rfl
  · obtain ⟨i, _, rfl⟩ := List.mem_map.1 hc
    rfl

/-- The steps of what `BlockDataHandler` adds to the trace: bind calls, then the one
`ps2000aRunBlock`. -/
theorem steps_blockActions (api : Api) (unit : UNIT) (mode : MODE)
    (etsModeSet oversample : Int) (tried : List Int) (timebase : Int) (fetched : Bool) :
    ∃ b : Nat, steps (blockActions api unit mode etsModeSet oversample tried timebase fetched)
      = List.replicate b .bind ++ [.run] := by
  have h1 : steps (if mode = .ANALOGUE ∨ mode = .MIXED then
      (enabledChannels unit).flatMap (blockPairActions api unit BUFFER_SIZE) else [])
      = List.replicate (if mode = .ANALOGUE ∨ mode = .MIXED then
          (enabledChannels unit).length else 0) .bind := by
    split_ifs
    · exact steps_flatMap_replicate (blockPairActions api unit BUFFER_SIZE) .bind
        (fun i => rfl) _
    · rfl
  have h2 : steps (if mode = .ANALOGUE ∧ etsModeSet = TRUE then
      [Action.malloc .etsTime BUFFER_SIZE,
       Action.call (.SetEtsTimeBuffer unit.handle (some .etsTime) BUFFER_SIZE)] else [])
      = [] := by
    split_ifs <;> rfl
  have h3 : steps (if mode = .DIGITAL ∨ mode = .MIXED then
      (List.range unit.digitalPorts.toNat).flatMap (blockPortActions api unit BUFFER_SIZE)
      else [])
      = List.replicate (if mode = .DIGITAL ∨ mode = .MIXED then
          (List.range unit.digitalPorts.toNat).length else 0) .bind := by
    split_ifs
    · exact steps_flatMap_replicate (blockPortActions api unit BUFFER_SIZE) .bind
        (fun i => rfl) _
    · rfl
  have h4 : steps (tried.map
      (fun t => Action.call (.GetTimebase unit.handle t BUFFER_SIZE oversample 0))) = [] := by
    apply steps_nil_of
    intro a ha
    obtain ⟨t, _, rfl⟩ := List.mem_map.1 ha
    rfl
  have h5 : steps (if fetched = true then
      [Action.call (.GetValues unit.handle 0 BUFFER_SIZE 10 api.PS2000A_RATIO_MODE_NONE 0)]
      else []) = [] := by
    split_ifs <;> rfl
  have h6 : steps ((blockFrees unit mode etsModeSet).map Event.action) = [] := by
    apply steps_nil_of
    intro a ha
    obtain ⟨e, he, rfl⟩ := List.mem_map.1 ha
    obtain ⟨b, rfl⟩ : ∃ b, e = Event.free b := by
      unfold blockFrees at he
      simp only [List.mem_append] at he
      rcases he with (he | he) | he
      · split_ifs at he
        · obtain ⟨i, _, hi⟩ := List.mem_flatMap.1 he
          simp at hi
          rcases hi with rfl | rfl <;> exact ⟨_, rfl⟩
        · simp at he
      · split_ifs at he
        · simp at he; subst he; exact ⟨_, rfl⟩
        · simp at he
      · split_ifs at he
        · obtain ⟨i, _, rfl⟩ := List.mem_map.1 he
          exact ⟨_, rfl⟩
        · simp at he
    rfl
  refine ⟨(if mode = .ANALOGUE ∨ mode = .MIXED then (enabledChannels unit).length else 0) +
    (if mode = .DIGITAL ∨ mode = .MIXED then
      (List.range unit.digitalPorts.toNat).length else 0), ?_⟩
  unfold blockActions
  simp only [steps_append, h1, h2, h3, h4, h5, h6, steps_clearCalls, List.append_nil,
    List.replicate_add]
  simp [steps, Action.step, DriverCall.step]

/-- The steps of what `StreamDataHandler` adds to the trace: bind calls, then the one
`ps2000aRunStreaming`. -/
theorem steps_streamActions (api : Api) (unit : UNIT) (mode : MODE) (preTrigger : Int)
    (polled : Nat) (hmode : mode ≠ .MIXED) :
    ∃ b : Nat, steps (streamActions api unit mode preTrigger polled)
      = List.replicate b .bind ++ [.run] := by
  have h4 : steps (List.replicate polled
      (Action.call (.GetStreamingLatestValues unit.handle))) = [] := by
    apply steps_nil_of
    intro a ha
    rw [List.eq_of_mem_replicate ha]
    rfl
  have h6 : steps ((streamFrees unit mode).map Event.action) = [] := by
    apply steps_nil_of
    intro a ha
    obtain ⟨e, he, rfl⟩ := List.mem_map.1 ha
    obtain ⟨b, rfl⟩ := mem_streamFrees he
    rfl
  unfold streamActions
  simp only [steps_append, h4, h6, steps_clearCalls, List.append_nil]
  cases mode
  · refine ⟨(enabledChannels unit).length, ?_⟩
    simp only [streamSettings]
    rw [steps_flatMap_replicate (streamPairActions api unit 40000) .bind (fun i => rfl)]
    simp [steps, Action.step, DriverCall.step]
  · refine ⟨(List.range unit.digitalPorts.toNat).length, ?_⟩
    simp only [streamSettings]
    rw [steps_flatMap_replicate (streamPortActions api unit 40000) .bind (fun i => rfl)]
    simp [steps, Action.step, DriverCall.step]
  · refine ⟨(List.range unit.digitalPorts.toNat).length, ?_⟩
    simp only [streamSettings]
    rw [steps_flatMap_replicate (aggregatedPairActions api unit 40000) .bind (fun i => rfl)]
    simp [steps, Action.step, DriverCall.step]
  · exact absurd rfl hmode

/-- A run of `BlockDataHandler` that returns extends the trace by bind steps and one
run-start. -/
theorem stepsFrom_BlockDataHandler {api : Api} {drv : Driver} {inp : BlockInputs} {unit : UNIT}
    {offset : Int} {mode : MODE} {etsModeSet : Int} {g : Globals} {tr : Trace}
    {res : BlockResult}
    (h : BlockDataHandler api drv inp unit offset mode etsModeSet g tr = some res) :
    ∃ b : Nat, stepsFrom tr res.tr (List.replicate b .bind ++ [.run]) := by
  obtain ⟨tried, timebase, ht⟩ := actions_BlockDataHandler h
  obtain ⟨b, hb⟩ := steps_blockActions api unit mode etsModeSet g.oversample tried timebase
    res.fetched
  exact ⟨b, _, ht, hb⟩

/-- A run of `StreamDataHandler` that returns extends the trace by bind steps and one
run-start. -/
theorem stepsFrom_StreamDataHandler {api : Api} {drv : Driver} {inp : StreamInputs}
    {unit : UNIT} {preTrigger : Int} {mode : MODE} {g : Globals} {tr : Trace}
    {res : StreamResult}
    (h : StreamDataHandler api drv inp unit preTrigger mode g tr = some res) :
    ∃ b : Nat, stepsFrom tr res.tr (List.replicate b .bind ++ [.run]) := by
  obtain ⟨polled, ht⟩ := actions_StreamDataHandler h
  obtain ⟨b, hb⟩ := steps_streamActions api unit mode preTrigger polled
    (StreamDataHandler_mode h)
  exact ⟨b, _, ht, hb⟩

/-- An extension by no step in front of an extension. -/
theorem stepsFrom_nil_left {tr t₁ t₂ : Trace} {l : List Step}
    (h₁ : stepsFrom tr t₁ []) (h₂ : stepsFrom t₁ t₂ l) : stepsFrom tr t₂ l := by
  simpa using stepsFrom_trans h₁ h₂

/-- An extension by no step after an extension. -/
theorem stepsFrom_nil_right {tr t₁ t₂ : Trace} {l : List Step}
    (h₁ : stepsFrom tr t₁ l) (h₂ : stepsFrom t₁ t₂ []) : stepsFrom tr t₂ l := by
  simpa using stepsFrom_trans h₁ h₂

/-- Arm steps followed by bind steps and a run-start. -/
theorem stepsFrom_arm_bind_run {tr t₁ t₂ : Trace} {a b : Nat}
    (h₁ : stepsFrom tr t₁ (List.replicate a .arm))
    (h₂ : stepsFrom t₁ t₂ (List.replicate b .bind ++ [.run])) :
    stepsFrom tr t₂ (List.replicate a .arm ++ List.replicate b .bind ++ [.run]) := by
  simpa using stepsFrom_trans h₁ h₂

/-- A list whose actions belong to the step `x` or to none has only steps `x`. -/
theorem steps_some_or_none {l : List Action} {x : Step}
    (h : ∀ a ∈ l, a.step = some x ∨ a.step = none) : ∃ k : Nat, steps l = List.replicate k x := by
  induction l with
  | nil => exact ⟨0, rfl⟩
  | cons a rest ih =>
    obtain ⟨k, hk⟩ := ih (fun b hb => h b (List.mem_cons_of_mem _ hb))
    rcases h a (List.mem_cons_self _ _) with ha | ha
    · refine ⟨k + 1, ?_⟩
      unfold steps at hk ⊢
      rw [List.filterMap_cons, ha]
      simp only [hk, List.replicate_succ]
    · refine ⟨k, ?_⟩
      unfold steps at hk ⊢
      rw [List.filterMap_cons, ha]
      exact hk

/-- The steps of the set-up of `CollectRapidBlock`: the trigger facets, then the one
`ps2000aRunBlock`. -/
theorem steps_rapidSetUp (api : Api) (unit : UNIT) (triggerVoltage : Int) (facets : Nat)
    (nCaptures : Int) :
    ∃ a : Nat, steps (rapidSetUp api unit triggerVoltage facets nCaptures)
      = List.replicate a .arm ++ [.run] := by
  have h1 : steps ((defaultCalls api unit).map Action.call) = [] := by
    apply steps_nil_of
    intro a ha
    obtain ⟨c, hc, rfl⟩ := List.mem_map.1 ha
    unfold defaultCalls at hc
    rcases List.mem_cons.1 hc with rfl | hc
    · rfl
    · obtain ⟨i, _, rfl⟩ := List.mem_map.1 hc
      rfl
  have h2 : steps (((rapidFacets api unit triggerVoltage).take facets).map Action.call)
      = List.replicate ((rapidFacets api unit triggerVoltage).take facets).length .arm := by
    rw [← List.length_map ((rapidFacets api unit triggerVoltage).take facets) Action.call]
    apply steps_replicate_of
    intro a ha
    obtain ⟨c, hc, rfl⟩ := List.mem_map.1 ha
    have hc' := List.mem_of_mem_take hc
    unfold rapidFacets triggerFacets at hc'
    simp only [List.mem_append, List.mem_cons, List.mem_singleton, List.not_mem_nil,
      or_false] at hc'
    rcases hc' with (rfl | rfl | rfl | rfl | rfl) | hc'
    · rfl
    · rfl
    · rfl
    · rfl
    · rfl
    · split_ifs at hc'
      · simp at hc'; subst hc'; rfl
      · simp at hc'
  refine ⟨((rapidFacets api unit triggerVoltage).take facets).length, ?_⟩
  unfold rapidSetUp
  rw [steps_append, steps_append, h1, h2]
  rfl

/-- The steps of the fetch of `CollectRapidBlock`: bind calls only. -/
theorem steps_rapidFetch (api : Api) (unit : UNIT) (nCaptures : Int) :
    ∃ b : Nat, steps (rapidFetch api unit nCaptures) = List.replicate b .bind := by
  apply steps_some_or_none
  intro a h
  unfold rapidFetch at h
  simp only [List.mem_append, List.mem_flatMap, List.mem_map, List.mem_cons,
    List.mem_singleton, List.not_mem_nil, or_false] at h
  rcases h with (((((((h | h) | h) | h) | h) | h) | h) | h) | h
  · subst h; exact Or.inr rfl
  · subst h; exact Or.inr rfl
  · obtain ⟨ch, _, rfl⟩ := h; exact Or.inr rfl
  · obtain ⟨ch, _, cap, _, rfl⟩ := h; exact Or.inr rfl
  · obtain ⟨ch, _, cap, _, rfl⟩ := h; exact Or.inl rfl
  · rcases h with rfl | rfl | rfl <;> exact Or.inr rfl
  · obtain ⟨ch, _, cap, _, rfl⟩ := h; exact Or.inr rfl
  · obtain ⟨ch, _, rfl⟩ := h; exact Or.inr rfl
  · subst h; exact Or.inr rfl

/-- The order of the steps in a session of `CollectBlockImmediate`. -/
theorem CollectBlockImmediate_order {api : Api} {drv : Driver} {inp : BlockInputs}
    {unit : UNIT} {g : Globals} {tr : Trace} {s : Session}
    (h : CollectBlockImmediate api drv inp unit g tr = some s) : armBindRun tr s := by
  unfold CollectBlockImmediate at h
  simp only [Option.map_eq_some'] at h
  obtain ⟨res, hres, rfl⟩ := h
  obtain ⟨a, ha⟩ := stepsFrom_SetTrigger drv unit none 0 none 0 zeroDirections zeroPwq 0 0 0
    none 0 (SetDefaults api drv unit tr)
  obtain ⟨b, hb⟩ := stepsFrom_BlockDataHandler hres
  exact ⟨a, b, stepsFrom_arm_bind_run
    (stepsFrom_nil_left (stepsFrom_SetDefaults api drv unit tr) ha) hb⟩

/-- The order of the steps in a session of `CollectBlockTriggered`. -/
theorem CollectBlockTriggered_order {api : Api} {drv : Driver} {inp : BlockInputs}
    {unit : UNIT} {g : Globals} {tr : Trace} {s : Session}
    (h : CollectBlockTriggered api drv inp unit g tr = some s) : armBindRun tr s := by
  unfold CollectBlockTriggered at h
  split at h
  · simp at h
  · next triggerVoltage _ =>
    split_ifs at h
    simp only [Option.map_eq_some'] at h
    obtain ⟨res, hres, rfl⟩ := h
    obtain ⟨a, ha⟩ := stepsFrom_SetTrigger drv unit
      (some [sourceDetails api triggerVoltage (256 * 10)]) 1
      (some [conditionsOn api api.PS2000A_CONDITION_TRUE api.PS2000A_CONDITION_DONT_CARE]) 1
      (directionsOn api api.PS2000A_RISING) zeroPwq 0 0 0 none 0 (SetDefaults api drv unit tr)
    obtain ⟨b, hb⟩ := stepsFrom_BlockDataHandler hres
    exact ⟨a, b, stepsFrom_arm_bind_run
      (stepsFrom_nil_left (stepsFrom_SetDefaults api drv unit tr) ha) hb⟩

/-- The order of the steps in a session of `CollectBlockEts`; the two `ps2000aSetEts`
calls belong to no step. -/
theorem CollectBlockEts_order {api : Api} {drv : Driver} {inp : BlockInputs}
    {unit : UNIT} {g : Globals} {tr : Trace} {s : Session}
    (h : CollectBlockEts api drv inp unit g tr = some s) : armBindRun tr s := by
  unfold CollectBlockEts at h
  split at h
  · simp at h
  · next triggerVoltage _ =>
    split_ifs at h
    all_goals
      simp only [Option.map_eq_some'] at h
      obtain ⟨res, hres, rfl⟩ := h
      obtain ⟨a, ha⟩ := stepsFrom_SetTrigger drv unit
        (some [sourceDetails api triggerVoltage (256 * 10)]) 1
        (some [conditionsOn api api.PS2000A_CONDITION_TRUE api.PS2000A_CONDITION_DONT_CARE]) 1
        { zeroDirections with channelA := api.PS2000A_RISING } zeroPwq 0 0 0 none 0
        (SetDefaults api drv unit tr)
      obtain ⟨b, hb⟩ := stepsFrom_BlockDataHandler hres
      exact ⟨a, b, stepsFrom_nil_right (stepsFrom_arm_bind_run
        (stepsFrom_nil_right (stepsFrom_nil_left (stepsFrom_SetDefaults api drv unit tr) ha)
          (stepsFrom_callDriver drv _ (.SetEts unit.handle api.PS2000A_ETS_FAST 20 4) rfl)) hb)
        (stepsFrom_callDriver drv _ (.SetEts unit.handle api.PS2000A_ETS_OFF 20 4) rfl)⟩

/-- The order of the steps in a session of `DigitalBlockImmediate`. -/
theorem DigitalBlockImmediate_order {api : Api} {drv : Driver} {inp : BlockInputs}
    {unit : UNIT} {g : Globals} {tr : Trace} {s : Session}
    (h : DigitalBlockImmediate api drv inp unit g tr = some s) : armBindRun tr s := by
  unfold DigitalBlockImmediate at h
  simp only [Option.map_eq_some'] at h
  obtain ⟨res, hres, rfl⟩ := h
  obtain ⟨a, ha⟩ := stepsFrom_SetTrigger drv unit none 0 none 0 zeroDirections zeroPwq 0 0 0
    (some [{ channel := 0, direction := 0 }]) 0 tr
  obtain ⟨b, hb⟩ := stepsFrom_BlockDataHandler hres
  exact ⟨a, b, stepsFrom_arm_bind_run ha hb⟩

/-- The order of the steps in a session of `DigitalBlockTriggered`, which collects
only when `SetTrigger` returned `PICO_OK`. -/
theorem DigitalBlockTriggered_order {api : Api} {drv : Driver} {inp : BlockInputs}
    {unit : UNIT} {g : Globals} {tr : Trace} {s : Session}
    (h : DigitalBlockTriggered api drv inp unit g tr = some s) :
    armBindRun tr s ∨ armOnly tr s := by
  unfold DigitalBlockTriggered at h
  obtain ⟨a, ha⟩ := stepsFrom_SetTrigger drv unit none 0
    (some [conditionsOn api api.PS2000A_CONDITION_DONT_CARE api.PS2000A_CONDITION_TRUE]) 1
    zeroDirections zeroPwq 0 0 0 (some (digDirections api)) 2 tr
  simp only [] at h
  split_ifs at h
  · simp only [Option.map_eq_some'] at h
    obtain ⟨res, hres, rfl⟩ := h
    obtain ⟨b, hb⟩ := stepsFrom_BlockDataHandler hres
    exact Or.inl ⟨a, b, stepsFrom_arm_bind_run ha hb⟩
  · simp only [Option.some.injEq] at h
    subst h
    exact Or.inr ⟨a, ha⟩

/-- The order of the steps in a session of `ANDAnalogueDigitalTriggered`, which
collects only when `SetTrigger` returned `PICO_OK`. -/
theorem ANDAnalogueDigitalTriggered_order {api : Api} {drv : Driver} {inp : BlockInputs}
    {unit : UNIT} {g : Globals} {tr : Trace} {s : Session}
    (h : ANDAnalogueDigitalTriggered api drv inp unit g tr = some s) :
    armBindRun tr s ∨ armOnly tr s := by
  unfold ANDAnalogueDigitalTriggered at h
  split at h
  · simp at h
  · next triggerVoltage _ =>
    obtain ⟨a, ha⟩ := stepsFrom_SetTrigger drv (enableAll unit)
      (some [sourceDetails api triggerVoltage (256 * 10)]) 1
      (some [conditionsOn api api.PS2000A_CONDITION_TRUE api.PS2000A_CONDITION_TRUE]) 1
      (directionsOn api api.PS2000A_ABOVE) zeroPwq 0 0 0 (some (digDirections api)) 2
      (SetDefaults api drv (enableAll unit) tr)
    have ha' := stepsFrom_nil_left (stepsFrom_SetDefaults api drv (enableAll unit) tr) ha
    simp only [] at h
    split_ifs at h
    · simp only [Option.map_eq_some'] at h
      obtain ⟨res, hres, rfl⟩ := h
      obtain ⟨b, hb⟩ := stepsFrom_BlockDataHandler hres
      exact Or.inl ⟨a, b, stepsFrom_nil_right (stepsFrom_arm_bind_run ha' hb)
        (stepsFrom_DisableAnalogue drv _ _)⟩
    · simp only [Option.some.injEq] at h
      subst h
      exact Or.inr ⟨a, stepsFrom_nil_right ha' (stepsFrom_DisableAnalogue drv _ _)⟩

/-- The order of the steps in a session of `ORAnalogueDigitalTriggered`, which
collects only when `SetTrigger` returned `PICO_OK`. -/
theorem ORAnalogueDigitalTriggered_order {api : Api} {drv : Driver} {inp : BlockInputs}
    {unit : UNIT} {g : Globals} {tr : Trace} {s : Session}
    (h : ORAnalogueDigitalTriggered api drv inp unit g tr = some s) :
    armBindRun tr s ∨ armOnly tr s := by
  unfold ORAnalogueDigitalTriggered at h
  split at h
  · simp at h
  · next triggerVoltage _ =>
    obtain ⟨a, ha⟩ := stepsFrom_SetTrigger drv (enableAll unit)
      (some [sourceDetails api triggerVoltage (256 * 10)]) 1
      (some [conditionsOn api api.PS2000A_CONDITION_TRUE api.PS2000A_CONDITION_DONT_CARE,
             conditionsOn api api.PS2000A_CONDITION_DONT_CARE api.PS2000A_CONDITION_TRUE]) 2
      (directionsOn api api.PS2000A_RISING) zeroPwq 0 0 0 (some (digDirections api)) 2
      (SetDefaults api drv (enableAll unit) tr)
    have ha' := stepsFrom_nil_left (stepsFrom_SetDefaults api drv (enableAll unit) tr) ha
    simp only [] at h
    split_ifs at h
    · simp only [Option.map_eq_some'] at h
      obtain ⟨res, hres, rfl⟩ := h
      obtain ⟨b, hb⟩ := stepsFrom_BlockDataHandler hres
      exact Or.inl ⟨a, b, stepsFrom_nil_right (stepsFrom_arm_bind_run ha' hb)
        (stepsFrom_DisableAnalogue drv _ _)⟩
    · simp only [Option.some.injEq] at h
      subst h
      exact Or.inr ⟨a, stepsFrom_nil_right ha' (stepsFrom_DisableAnalogue drv _ _)⟩

/-- The order of the steps in a session of `CollectStreamingImmediate`. -/
theorem CollectStreamingImmediate_order {api : Api} {drv : Driver} {inp : StreamInputs}
    {unit : UNIT} {g : Globals} {tr : Trace} {s : Session}
    (h : CollectStreamingImmediate api drv inp unit g tr = some s) : armBindRun tr s := by
  unfold CollectStreamingImmediate at h
  simp only [Option.map_eq_some'] at h
  obtain ⟨res, hres, rfl⟩ := h
  obtain ⟨a, ha⟩ := stepsFrom_SetTrigger drv unit none 0 none 0 zeroDirections zeroPwq 0 0 0
    none 0 (SetDefaults api drv unit tr)
  obtain ⟨b, hb⟩ := stepsFrom_StreamDataHandler hres
  exact ⟨a, b, stepsFrom_arm_bind_run
    (stepsFrom_nil_left (stepsFrom_SetDefaults api drv unit tr) ha) hb⟩

/-- The order of the steps in a session of `CollectStreamingTriggered`. -/
theorem CollectStreamingTriggered_order {api : Api} {drv : Driver} {inp : StreamInputs}
    {unit : UNIT} {g : Globals} {tr : Trace} {s : Session}
    (h : CollectStreamingTriggered api drv inp unit g tr = some s) : armBindRun tr s := by
  unfold CollectStreamingTriggered at h
  split at h
  · simp at h
  · next triggerVoltage _ =>
    simp only [Option.map_eq_some'] at h
    obtain ⟨res, hres, rfl⟩ := h
    obtain ⟨a, ha⟩ := stepsFrom_SetTrigger drv unit
      (some [sourceDetails api triggerVoltage (256 * 10)]) 1
      (some [conditionsOn api api.PS2000A_CONDITION_TRUE api.PS2000A_CONDITION_DONT_CARE]) 1
      (directionsOn api api.PS2000A_RISING) zeroPwq 0 0 0 none 0 (SetDefaults api drv unit tr)
    obtain ⟨b, hb⟩ := stepsFrom_StreamDataHandler hres
    exact ⟨a, b, stepsFrom_arm_bind_run
      (stepsFrom_nil_left (stepsFrom_SetDefaults api drv unit tr) ha) hb⟩

/-- The order of the steps in a session of `DigitalStreamingAggregated`. -/
theorem DigitalStreamingAggregated_order {api : Api} {drv : Driver} {inp : StreamInputs}
    {unit : UNIT} {g : Globals} {tr : Trace} {s : Session}
    (h : DigitalStreamingAggregated api drv inp unit g tr = some s) : armBindRun tr s := by
  unfold DigitalStreamingAggregated at h
  simp only [Option.map_eq_some'] at h
  obtain ⟨res, hres, rfl⟩ := h
  obtain ⟨a, ha⟩ := stepsFrom_SetTrigger drv unit none 0 none 0 zeroDirections zeroPwq 0 0 0
    none 0 tr
  obtain ⟨b, hb⟩ := stepsFrom_StreamDataHandler hres
  exact ⟨a, b, stepsFrom_arm_bind_run ha hb⟩

/-- The order of the steps in a session of `DigitalStreamingImmediate`. -/
theorem DigitalStreamingImmediate_order {api : Api} {drv : Driver} {inp : StreamInputs}
    {unit : UNIT} {g : Globals} {tr : Trace} {s : Session}
    (h : DigitalStreamingImmediate api drv inp unit g tr = some s) : armBindRun tr s := by
  unfold DigitalStreamingImmediate at h
  simp only [Option.map_eq_some'] at h
  obtain ⟨res, hres, rfl⟩ := h
  obtain ⟨a, ha⟩ := stepsFrom_SetTrigger drv unit none 0 none 0 zeroDirections zeroPwq 0 0 0
    none 0 tr
  obtain ⟨b, hb⟩ := stepsFrom_StreamDataHandler hres
  exact ⟨a, b, stepsFrom_arm_bind_run ha hb⟩

/-- The order of the steps in a session of `CollectRapidBlock`: the run is started
before any buffer is bound. -/
theorem CollectRapidBlock_order {api : Api} {drv : Driver} {inp : RapidInputs}
    {unit : UNIT} {g : Globals} {tr : Trace} {s : Session}
    (h : CollectRapidBlock api drv inp unit g tr = some s) : armRunBind tr s := by
  obtain ⟨triggerVoltage, facets, requested, aborted, nCaptures, ht⟩ :=
    actions_CollectRapidBlock h
  obtain ⟨a, ha⟩ := steps_rapidSetUp api unit triggerVoltage facets requested
  obtain ⟨b, hb⟩ := steps_rapidFetch api unit nCaptures
  have habort : steps (if aborted = true then
      [Action.call (.Stop unit.handle), Action.call (.GetNoOfCaptures unit.handle)]
      else []) = [] := by
    split_ifs <;> rfl
  refine ⟨a, if aborted = true ∧ toUInt32 inp.completedCaptures = 0 then 0 else b,
    rapidSetUp api unit triggerVoltage facets requested ++
      (if aborted = true then
        [Action.call (.Stop unit.handle), Action.call (.GetNoOfCaptures unit.handle)]
       else []) ++
      (if aborted = true ∧ toUInt32 inp.completedCaptures = 0 then []
       else rapidFetch api unit nCaptures),
    by rw [ht]; simp only [List.append_assoc], ?_⟩
  rw [steps_append, steps_append, ha, habort]
  split_ifs
  · simp [steps]
  · simp [hb]

/-- C24, the order the code has: arm, then bind, then run-start in the block and
streaming sessions; arm, then run-start, then bind in the rapid block session. On
the sample unit `CollectBlockImmediate` arms five times, binds once and starts the
run; `CollectRapidBlock` arms five times, starts the run and binds ten buffers;
`CollectStreamingImmediate` arms five times, binds once and starts the run. None
of these is in the order bind, arm, run-start. -/
theorem sessions_arm_before_bind :
    ((CollectBlockImmediate vendorApi acceptAll readyBlockInputs (sampleUnit 32512)
        sampleGlobals []).map (fun s => steps (actions s.tr))
      = some [.arm, .arm, .arm, .arm, .arm, .bind, .run] ∧
      ¬ specBindArmRun [.arm, .arm, .arm, .arm, .arm, .bind, .run]) ∧
    ((CollectRapidBlock vendorApi acceptAll readyRapidInputs (sampleUnit 32512)
        sampleGlobals []).map (fun s => steps (actions s.tr))
      = some [.arm, .arm, .arm, .arm, .arm, .run, .bind, .bind, .bind, .bind, .bind, .bind,
          .bind, .bind, .bind, .bind] ∧
      ¬ specBindArmRun [.arm, .arm, .arm, .arm, .arm, .run, .bind, .bind, .bind, .bind,
          .bind, .bind, .bind, .bind, .bind, .bind]) ∧
    ((CollectStreamingImmediate vendorApi acceptAll stopStreamInputs (sampleUnit 32512)
        sampleGlobals []).map (fun s => steps (actions s.tr))
      = some [.arm, .arm, .arm, .arm, .arm, .bind, .run] ∧
      ¬ specBindArmRun [.arm, .arm, .arm, .arm, .arm, .bind, .run]) := by
  refine ⟨⟨by decide, by decide⟩, ⟨by decide, by decide⟩, ⟨by decide, by decide⟩⟩

/-- C24 as the code has it: in every session of an entry point the steps added to
the trace are, in order, the trigger facets of `SetTrigger` (arm), then the bind
calls that pass a buffer, then one run-start, in the block and streaming sessions;
in the rapid block session they are the trigger facets, then the run-start, then
the bind calls. The three entry points that collect only when `SetTrigger`
returned `PICO_OK` either do the same or arm only. -/
theorem session_order_arm_bind_run (api : Api) (drv : Driver) (unit : UNIT) (g : Globals)
    (tr : Trace) :
    (∀ inp s, CollectBlockImmediate api drv inp unit g tr = some s → armBindRun tr s) ∧
    (∀ inp s, CollectBlockTriggered api drv inp unit g tr = some s → armBindRun tr s) ∧
    (∀ inp s, CollectBlockEts api drv inp unit g tr = some s → armBindRun tr s) ∧
    (∀ inp s, DigitalBlockImmediate api drv inp unit g tr = some s → armBindRun tr s) ∧
    (∀ inp s, CollectStreamingImmediate api drv inp unit g tr = some s → armBindRun tr s) ∧
    (∀ inp s, CollectStreamingTriggered api drv inp unit g tr = some s → armBindRun tr s) ∧
    (∀ inp s, DigitalStreamingAggregated api drv inp unit g tr = some s → armBindRun tr s) ∧
    (∀ inp s, DigitalStreamingImmediate api drv inp unit g tr = some s → armBindRun tr s) ∧
    (∀ inp s, ANDAnalogueDigitalTriggered api drv inp unit g tr = some s →
      armBindRun tr s ∨ armOnly tr s) ∧
    (∀ inp s, ORAnalogueDigitalTriggered api drv inp unit g tr = some s →
      armBindRun tr s ∨ armOnly tr s) ∧
    (∀ inp s, DigitalBlockTriggered api drv inp unit g tr = some s →
      armBindRun tr s ∨ armOnly tr s) ∧
    (∀ inp s, CollectRapidBlock api drv inp unit g tr = some s → armRunBind tr s) :=
  ⟨fun _ _ h => CollectBlockImmediate_order h, fun _ _ h => CollectBlockTriggered_order h,
    fun _ _ h => CollectBlockEts_order h, fun _ _ h => DigitalBlockImmediate_order h,
    fun _ _ h => CollectStreamingImmediate_order h,
    fun _ _ h => CollectStreamingTriggered_order h,
    fun _ _ h => DigitalStreamingAggregated_order h,
    fun _ _ h => DigitalStreamingImmediate_order h,
    fun _ _ h => ANDAnalogueDigitalTriggered_order h,
    fun _ _ h => ORAnalogueDigitalTriggered_order h,
    fun _ _ h => DigitalBlockTriggered_order h, fun _ _ h => CollectRapidBlock_order h⟩

/-- The amended C24 on sessions of the sample unit: a block session, a streaming
session and a rapid block session. -/
theorem session_order_arm_bind_run_witness :
    (∃ s, CollectBlockImmediate vendorApi acceptAll readyBlockInputs (sampleUnit 32512)
        sampleGlobals [] = some s ∧ armBindRun [] s) ∧
    (∃ s, CollectStreamingImmediate vendorApi acceptAll stopStreamInputs (sampleUnit 32512)
        sampleGlobals [] = some s ∧ armBindRun [] s) ∧
    (∃ s, CollectRapidBlock vendorApi acceptAll readyRapidInputs (sampleUnit 32512)
        sampleGlobals [] = some s ∧ armRunBind [] s) := by
  have hb : (CollectBlockImmediate vendorApi acceptAll readyBlockInputs (sampleUnit 32512)
      sampleGlobals []).isSome = true := by decide
  have hs : (CollectStreamingImmediate vendorApi acceptAll stopStreamInputs
      (sampleUnit 32512) sampleGlobals []).isSome = true := by decide
  have hr : (CollectRapidBlock vendorApi acceptAll readyRapidInputs (sampleUnit 32512)
      sampleGlobals []).isSome = true := by decide
  obtain ⟨rb, hrb⟩ := Option.isSome_iff_exists.1 hb
  obtain ⟨rs, hrs⟩ := Option.isSome_iff_exists.1 hs
  obtain ⟨rr, hrr⟩ := Option.isSome_iff_exists.1 hr
  exact ⟨⟨rb, hrb, (session_order_arm_bind_run vendorApi acceptAll (sampleUnit 32512)
      sampleGlobals []).1 _ rb hrb⟩,
    ⟨rs, hrs, (session_order_arm_bind_run vendorApi acceptAll (sampleUnit 32512)
      sampleGlobals []).2.2.2.2.1 _ rs hrs⟩,
    ⟨rr, hrr, (session_order_arm_bind_run vendorApi acceptAll (sampleUnit 32512)
      sampleGlobals []).2.2.2.2.2.2.2.2.2.2.2 _ rr hrr⟩⟩

example :
    (OpenDevice vendorApi acceptAll ⟨1, "2206B".toList, some 32512⟩ blankUnit sampleGlobals []).map
        (fun r => r.2.1)
      = some { handle := 1, firstRange := 1, lastRange := 10, channelCount := 2,
               maxValue := 32512,
               channelSettings := [⟨1, 8, 1⟩, ⟨1, 8, 0⟩, ⟨0, 0, 0⟩, ⟨0, 0, 0⟩],
               digitalPorts := 0 } := by decide

example :
    SetTrigger rejectDirections (sampleUnit 32512) none 0 none 0 zeroDirections zeroPwq 0 0 0
        none 0 []
      = (13, [Event.call (.SetTriggerChannelProperties 1 none 0 0 0) PICO_OK,
           Event.call (.SetTriggerChannelConditions 1 none 0) PICO_OK,
           Event.call (.SetTriggerChannelDirections 1 0 0 0 0 0 0) 13]) := by decide

example : adc_to_mv 100 8 (sampleUnit 32512) = some 15 := by decide
example : roundTrip 100 8 (sampleUnit 32512) = some 97 := by decide
example : roundTrip 32512 11 (sampleUnit 32512) = some (-10102) := by decide
example : mv_to_adc 1000 2 (sampleUnit 32512) = some (-5120) := by decide

end Ps2000aCon
